import Mathlib

/-! starterm: object references and the versioned object store.

A shallow embedding of the object-reference parser (`pkg/starobj/starobj.go`),
the store operations (`pkg/wstore/wstore_dbops.go`, `pkg/wstore/wstore.go`),
the block operations built on them (`pkg/score/block.go`), the simple merge of
configuration maps (`pkg/sconfig/settingsconfig.go`), the dispatcher of web
service calls (`pkg/service/service.go`), the object service
(`pkg/service/objectservice/objectservice.go`), the layout queue
(`pkg/wcore/layout.go`) and commands of the RPC server
(`pkg/wshrpc/wshserver/wshserver.go`).

Conventions of the embedding.

* A Go `string` is a Lean `String`; where the source looks at bytes
  (`len(s)`, `s[i]`) the UTF-8 bytes of the string are used (`goBytes`).
* A Go `error` is a `GoError`; a Go result `(T, error)` is a pair
  `T × Option GoError`, so that the value returned next to an error stays visible.
* A pointer to a struct that the source mutates in place is passed in and
  handed back by value.
* The SQL store is a list of rows, each in the table of its entity type; the
  request context is threaded through as an explicit `State`.  A function that
  takes a `ctx` takes `inTx` (whether `ctx` is `tx.Context()` of an open
  transaction) and the state, and returns the state next to its results.
* The JSON in a row is the entity it decodes to (`ToJson` and `FromJson` are
  taken to round-trip), the database fails only where a primary key forbids an
  insert, and a version is an unbounded integer.
* The libraries `github.com/sawka/txwrap` and `github.com/google/uuid` are
  modelled by what their functions do for the calls the source makes.
-/

set_option autoImplicit false

/-! ## Errors -/

/-- A Go `error` value.  `errorf f args` is `fmt.Errorf(f, args...)` with
string arguments, `wrap f e` is `fmt.Errorf(f, e)` with an error argument
(`%v` or `%w`), `sql msg` is an error reported by the database driver. -/
inductive GoError where
  | errorf (format : String) (args : List String)
  | wrap (format : String) (inner : GoError)
  | sql (msg : String)
  deriving DecidableEq, Repr

namespace utilfn

/-- Modelled from the spec: `utilfn.FindStringInSlice` (package `pkg/util/utilfn`
is not among the sources).  Index of the first element equal to `val`, or -1. -/
def FindStringInSlice (slice : List String) (val : String) : Int :=
  match slice.indexOf? val with
  | some idx => (idx : Int)
  | none => -1

/-- Modelled from the spec: `utilfn.RemoveElemFromSlice` (package
`pkg/util/utilfn` is not among the sources).  "Deleting a Block removes it from
that parent's blockIds": the elements different from `val`, in their order. -/
def RemoveElemFromSlice (arr : List String) (val : String) : List String :=
  arr.filter (fun v => v != val)

end utilfn

namespace starobj

/-! ## ORef (`pkg/starobj/starobj.go`) -/

/-- Go `type ORef struct { OType string; OID string }`. -/
structure ORef where
  OType : String
  OID : String
  deriving DecidableEq, Repr

/-- The zero value `ORef{}`. -/
def ORef.zero : ORef := { OType := "", OID := "" }

/-- Go `func (oref ORef) String() string`. -/
def ORef.String (oref : ORef) : String :=
  if oref.OType = "" ∨ oref.OID = "" then ""
  else oref.OType ++ ":" ++ oref.OID

/-- Go `func (oref ORef) IsEmpty() bool`. -/
def ORef.IsEmpty (oref : ORef) : Bool :=
  oref.OType = "" ∨ oref.OID = ""

/-- Go `func MakeORef(otype string, oid string) ORef`. -/
def MakeORef (otype : String) (oid : String) : ORef :=
  { OType := otype, OID := oid }

/-- Fields of a character sequence separated by `sep`; always at least one field. -/
def splitChars (sep : Char) : List Char → List (List Char)
  | [] => [[]]
  | c :: cs =>
    if c = sep then [] :: splitChars sep cs
    else
      match splitChars sep cs with
      | [] => [[c]]
      | f :: fs => (c :: f) :: fs

/-- Go `strings.Split(s, ":")`.  The separator is one ASCII byte, so splitting the
bytes and splitting the characters give the same fields. -/
def stringsSplitColon (s : String) : List String :=
  (splitChars ':' s.data).map String.mk

/-- Go `otypeRe.MatchString(s)` for `otypeRe = regexp.MustCompile("^[a-z]+$")`:
a non-empty string of ASCII lower-case letters (`$` is end of text in Go). -/
def otypeRe_MatchString (s : String) : Bool :=
  !s.data.isEmpty && s.data.all (fun c => decide ('a' ≤ c) && decide (c ≤ 'z'))

/-- Go `OType_Tab`, the value the store compares with in `DBFindTabForBlockId`. -/
def OType_Tab : String := "tab"

/-- Go `OType_Block`. -/
def OType_Block : String := "block"

/-- Modelled from the spec: the registry `ValidOTypes` (its declaration,
`pkg/starobj/wtype.go`, is not among the sources).  The registered types are the
entity variants of the data model: Client, Window, Workspace, Tab, Block and
LayoutState, under the type tags that name their tables. -/
def ValidOTypes (otype : String) : Bool :=
  otype = "client" || otype = "window" || otype = "workspace" || otype = "tab" ||
    otype = "layout" || otype = "block"

/-- The UTF-8 bytes of a Go string. -/
def goBytes (s : String) : List Nat :=
  (s.data.flatMap String.utf8EncodeChar).map UInt8.toNat

/-- Hexadecimal digit test of `github.com/google/uuid` (`xvalues[b] != 255`). -/
def isHexByte (b : Nat) : Bool :=
  (48 ≤ b && b ≤ 57) || (65 ≤ b && b ≤ 70) || (97 ≤ b && b ≤ 102)

/-- ASCII lower-casing of a byte. -/
def lowerByte (b : Nat) : Nat :=
  if 65 ≤ b ∧ b ≤ 90 then b + 32 else b

/-- Test of the hex pair at offsets `x`, `x+1` (`xtob(s[x], s[x+1])`). -/
def hexPairAt (s : List Nat) (x : Nat) : Bool :=
  match s.get? x, s.get? (x + 1) with
  | some a, some b => isHexByte a && isHexByte b
  | _, _ => false

/-- The common tail of `uuid.Parse`: `s` is of the form
`xxxxxxxx-xxxx-xxxx-xxxx-xxxxxxxxxxxx` in its first 36 bytes. -/
def uuidCanonical (s : List Nat) : Bool :=
  (s.get? 8 == some 45 && s.get? 13 == some 45 && s.get? 18 == some 45 &&
      s.get? 23 == some 45) &&
    [0, 2, 4, 6, 9, 11, 14, 16, 19, 21, 24, 26, 28, 30, 32, 34].all (hexPairAt s)

/-- Whether `uuid.Parse(s)` of `github.com/google/uuid` returns a nil error.  The
library accepts the standard form (36 bytes), the form with the prefix
`urn:uuid:` in any letter case (45 bytes), a standard form with one more byte
on either side, meant for braces (38 bytes), and 32 hex digits. -/
def uuidParseOk (s : String) : Bool :=
  let b := goBytes s
  if b.length = 36 then uuidCanonical b
  else if b.length = 45 then
    (b.take 9).map lowerByte == goBytes "urn:uuid:" && uuidCanonical (b.drop 9)
  else if b.length = 38 then uuidCanonical (b.drop 1)
  else if b.length = 32 then
    [0, 2, 4, 6, 8, 10, 12, 14, 16, 18, 20, 22, 24, 26, 28, 30].all (hexPairAt b)
  else false

/-- Go `func ParseORef(orefStr string) (ORef, error)`. -/
def ParseORef (orefStr : String) : ORef × Option GoError :=
  match stringsSplitColon orefStr with
  | [otype, oid] =>
    if !otypeRe_MatchString otype then
      (ORef.zero, some (.errorf "invalid object type: %q" [otype]))
    else if !ValidOTypes otype then
      (ORef.zero, some (.errorf "unknown object type: %q" [otype]))
    else if !uuidParseOk oid then
      (ORef.zero, some (.errorf "invalid object id: %q" [oid]))
    else ({ OType := otype, OID := oid }, none)
  | _ => (ORef.zero, some (.errorf "invalid object reference: %q" [orefStr]))

/-- Go `func ParseORefNoErr(orefStr string) *ORef`. -/
def ParseORefNoErr (orefStr : String) : Option ORef :=
  match ParseORef orefStr with
  | (oref, none) => some oref
  | (_, some _) => none

end starobj

namespace starobj

/-! ## Entities

The entity declarations (`pkg/starobj/wtype.go`) are not among the sources; the
structures below carry the fields that the embedded code reads and writes. -/

/-- Modelled from the spec: `MetaMapType`, "a string → any mapping"; a value is
`none` for a JSON null and otherwise the text of the value. -/
abbrev MetaMapType := List (String × Option String)

/-- Modelled from the spec: `RuntimeOpts`, the "runtime opts" of a block
(terminal size in rows and columns); the store only carries it. -/
structure RuntimeOpts where
  TermRows : Nat
  TermCols : Nat
  deriving DecidableEq, Repr

/-- Modelled from the spec: the `Block` entity ("id; parent-oref (Tab or Block);
meta; ordered subBlockIds; runtime opts") with the field names of
`createBlockObj` and `deleteBlockObj`. -/
structure Block where
  OID : String
  ParentORef : String
  Version : Int
  RuntimeOpts : Option RuntimeOpts
  Meta : MetaMapType
  SubBlockIds : List String
  deriving DecidableEq, Repr

/-- Modelled from the spec: the `Tab` entity ("id; name; ordered blockIds;
layout-state id") with the field names used by `pkg/wstore/wstore.go`. -/
structure Tab where
  OID : String
  Version : Int
  Name : String
  LayoutState : String
  BlockIds : List String
  Meta : MetaMapType
  deriving DecidableEq, Repr

/-- Modelled from the spec: `FileDef`, one of the "initial blob files" of a
block definition, with the fields `Content` and `Meta` that `CreateBlock` reads. -/
structure FileDef where
  Content : String
  Meta : MetaMapType
  deriving DecidableEq, Repr

/-- Modelled from the spec: `BlockDef`, the description a block is created from;
`createBlockObj` reads its `Meta`, `CreateBlock` its `Files` (by file name). -/
structure BlockDef where
  Meta : MetaMapType
  Files : List (String × FileDef) := []
  deriving DecidableEq, Repr

/-- Modelled from the spec: `LayoutActionData`, a "command enqueued on a Tab's
LayoutState describing structural UI changes", with the fields that the
composite literals of `pkg/wcore/layout.go` and
`pkg/wshrpc/wshserver/wshserver.go` set; a field that a literal leaves out is
zero. -/
structure LayoutActionData where
  ActionType : String
  BlockId : String := ""
  TargetBlockId : String := ""
  Position : String := ""
  IndexArr : Option (List Int) := none
  NodeSize : Option Nat := none
  Focused : Bool := false
  Magnified : Bool := false
  Ephemeral : Bool := false
  deriving DecidableEq, Repr

/-- Modelled from the spec: the `LayoutState` entity ("id; pending action
queue"); `PendingBackendActions` is a pointer to a slice, `none` when nil. -/
structure LayoutState where
  OID : String
  Version : Int
  PendingBackendActions : Option (List LayoutActionData)
  Meta : MetaMapType
  deriving DecidableEq, Repr

/-- Go `OType_LayoutState`. -/
def OType_LayoutState : String := "layout"

/-- Go `type StarObj interface { GetOType() string }`: a pointer to one of the
entity structs. -/
inductive StarObj where
  | Tab (t : Tab)
  | Block (b : Block)
  | LayoutState (l : LayoutState)
  deriving DecidableEq, Repr

/-- Go `GetOType()`; it depends on the Go type only. -/
def GetOType : StarObj → String
  | .Tab _ => OType_Tab
  | .Block _ => OType_Block
  | .LayoutState _ => OType_LayoutState

/-- Go `func GetOID(starObj StarObj) string` (every entity type is registered). -/
def GetOID : StarObj → String
  | .Tab t => t.OID
  | .Block b => b.OID
  | .LayoutState l => l.OID

/-- Go `func GetVersion(starObj StarObj) int`. -/
def GetVersion : StarObj → Int
  | .Tab t => t.Version
  | .Block b => b.Version
  | .LayoutState l => l.Version

/-- Go `func SetVersion(starObj StarObj, version int)`; the object is mutated in
place in the source and returned here. -/
def SetVersion : StarObj → Int → StarObj
  | .Tab t, version => .Tab { t with Version := version }
  | .Block b, version => .Block { b with Version := version }
  | .LayoutState l, version => .LayoutState { l with Version := version }

/-- What `%T` prints for the object. -/
def goTypeName : StarObj → String
  | .Tab _ => "*starobj.Tab"
  | .Block _ => "*starobj.Block"
  | .LayoutState _ => "*starobj.LayoutState"

/-! ## The update buffer

`pkg/starobj/ctxupdate.go` is not among the sources. -/

/-- Go `UpdateType_Update`. -/
def UpdateType_Update : String := "update"

/-- Go `UpdateType_Delete`. -/
def UpdateType_Delete : String := "delete"

/-- Modelled from the spec: `StarObjUpdate`, the
`UpdateRecord{op ∈ {Update, Delete}, otype, oid, obj?}` of the update buffer. -/
structure StarObjUpdate where
  UpdateType : String
  OType : String
  OID : String
  Obj : Option StarObj
  deriving DecidableEq, Repr

/-- One level of the update buffer: at most one record per object reference. -/
abbrev UpdateFrame := List StarObjUpdate

/-- Put a record into a frame: it replaces the record of the same object
reference or is added at the end ("entries correspond one-to-one to rows
changed"). -/
def UpdateFrame.put (frame : UpdateFrame) (u : StarObjUpdate) : UpdateFrame :=
  if frame.any (fun x => x.OType == u.OType && x.OID == u.OID) then
    frame.map (fun x => if x.OType == u.OType && x.OID == u.OID then u else x)
  else frame ++ [u]

/-- Modelled from the spec: `ContextAddUpdate`, "the context carries an update
buffer populated by the store".  The buffer is a stack of frames, innermost
transaction first; the empty stack is a context without a buffer. -/
def ContextAddUpdate (stack : List UpdateFrame) (u : StarObjUpdate) : List UpdateFrame :=
  match stack with
  | [] => []
  | top :: rest => top.put u :: rest

/-- Modelled from the spec: `ContextUpdatesBeginTx`, a transaction starts with an
empty frame of its own. -/
def ContextUpdatesBeginTx (stack : List UpdateFrame) : List UpdateFrame :=
  match stack with
  | [] => []
  | _ :: _ => [] :: stack

/-- Modelled from the spec: `ContextUpdatesCommitTx`, "on commit the buffer is
handed to the caller": the records of the innermost frame go to the enclosing one. -/
def ContextUpdatesCommitTx (stack : List UpdateFrame) : List UpdateFrame :=
  match stack with
  | cur :: prev :: rest => cur.foldl UpdateFrame.put prev :: rest
  | other => other

/-- Modelled from the spec: `ContextUpdatesRollbackTx`, "rollback discards the
buffer" of the innermost transaction. -/
def ContextUpdatesRollbackTx (stack : List UpdateFrame) : List UpdateFrame :=
  match stack with
  | _ :: prev :: rest => prev :: rest
  | other => other

end starobj

namespace wstore

open starobj

/-! ## The store (`pkg/wstore/wstore_dbsetup.go`, `pkg/wstore/wstore_dbops.go`)

One table `db_<otype>` per entity type with the columns `(oid, version, data)`.
`DBInsert` and `DBUpdate` write the `oid` column and the JSON in `data` from the
same `GetOID(val)` and choose the table by `val.GetOType()`, so a row is its
`version` column and the entity that `data` decodes to; the row lies in table
`db_<GetOType data>` under the key `GetOID data`.  The version inside `data` is
the one the object carried when the JSON was made; readers overwrite it with
the column (`SetVersion(rtn, row.Version)`). -/

/-- A row of a table `db_<otype>`. -/
structure Row where
  version : Int
  data : StarObj
  deriving DecidableEq, Repr

/-- The content of the database. -/
abbrev DB := List Row

/-- The row is in table `db_<otype>` and its `oid` column is `oid`. -/
def Row.inTable (otype oid : String) (r : Row) : Bool :=
  GetOType r.data == otype && GetOID r.data == oid

/-- Query `SELECT ... FROM db_<otype> WHERE oid = ?`: the row found, if any. -/
def DB.get (db : DB) (otype oid : String) : Option Row :=
  db.find? (Row.inTable otype oid)

/-- Statement `UPDATE db_<otype> SET data = ?, version = version+1 WHERE oid = ?`. -/
def DB.update (db : DB) (otype oid : String) (jsonData : StarObj) : DB :=
  db.map (fun r =>
    if r.inTable otype oid then { version := r.version + 1, data := jsonData } else r)

/-- Statement `DELETE FROM db_<otype> WHERE oid = ?`. -/
def DB.delete (db : DB) (otype oid : String) : DB :=
  db.filter (fun r => !r.inTable otype oid)

/-- What a request carries besides its arguments: the database as the single
connection sees it, the `Err` field of the `TxWrap` of the open transaction, and
the stack of update frames bound to the context. -/
structure State where
  db : DB
  txErr : Option GoError
  updates : List UpdateFrame
  deriving DecidableEq, Repr

/-- Call `tx.Get(&row, "SELECT oid, version, data FROM db_<otype> WHERE oid = ?", oid)`
of `github.com/sawka/txwrap`: nothing is run once the transaction has an error. -/
def txGet (st : State) (otype oid : String) : Option Row :=
  match st.txErr with
  | some _ => none
  | none => st.db.get otype oid

/-- Call `tx.GetInt("UPDATE db_<otype> SET data = ?, version = version+1 WHERE oid = ?
RETURNING version", jsonData, oid)`: the new version of the row, and 0 when the
statement returns no row (`sql.ErrNoRows` is not an error for `GetInt`). -/
def txUpdateReturningVersion (st : State) (otype oid : String) (jsonData : StarObj) :
    Int × State :=
  match st.txErr with
  | some _ => (0, st)
  | none =>
    let db1 := st.db.update otype oid jsonData
    match st.db.get otype oid with
    | some r => (r.version + 1, { st with db := db1 })
    | none => (0, { st with db := db1 })

/-- Call `tx.Exec("INSERT INTO db_<otype> (oid, version, data) VALUES (?, ?, ?)", oid, 1,
jsonData)`: `oid` is the primary key, so a second row under the same key is
refused and the error is kept in the transaction. -/
def txInsert (st : State) (otype oid : String) (jsonData : StarObj) : State :=
  match st.txErr with
  | some _ => st
  | none =>
    if st.db.any (Row.inTable otype oid) then
      { st with txErr := some (.sql ("UNIQUE constraint failed: db_" ++ otype ++ ".oid")) }
    else { st with db := st.db ++ [{ version := 1, data := jsonData }] }

/-- Call `tx.Exec("DELETE FROM db_<otype> WHERE oid = ?", id)`. -/
def txDelete (st : State) (otype oid : String) : State :=
  match st.txErr with
  | some _ => st
  | none => { st with db := st.db.delete otype oid }

/-- Library function `txwrap.WithTx(ctx, globalDB, fn)`.  `inTx` tells whether `ctx` carries a
`TxWrap` (it is `tx.Context()` of an enclosing transaction).  `fn` returns the
variables it captured, as it leaves them, next to its error; `keep` is their
value when `fn` is not run.  With an enclosing transaction that has failed, `fn`
is not run; otherwise the error of `fn` is recorded in the transaction.  Without
one, a transaction is begun, and rolled back on an error or committed. -/
def txwrapWithTx {ρ : Type} (inTx : Bool) (st : State) (keep : ρ)
    (fn : State → (ρ × Option GoError) × State) : (ρ × Option GoError) × State :=
  if inTx then
    match st.txErr with
    | some e => ((keep, some e), st)
    | none =>
      let r := fn st
      let err := match r.2.txErr with
        | some e => some e
        | none => r.1.2
      ((r.1.1, err), { r.2 with txErr := err })
  else
    let r := fn { st with txErr := none }
    let err := match r.2.txErr with
      | some e => some e
      | none => r.1.2
    match err with
    | some e => ((r.1.1, some e), { r.2 with db := st.db, txErr := none })
    | none => ((r.1.1, none), { r.2 with txErr := none })

/-- Go `func WithTx(ctx context.Context, fn func(tx *TxWrap) error) (rtnErr error)`. -/
def WithTx {ρ : Type} (inTx : Bool) (st : State) (keep : ρ)
    (fn : State → (ρ × Option GoError) × State) : (ρ × Option GoError) × State :=
  let r := txwrapWithTx inTx { st with updates := ContextUpdatesBeginTx st.updates } keep fn
  match r.1.2 with
  | some _ => (r.1, { r.2 with updates := ContextUpdatesRollbackTx r.2.updates })
  | none => (r.1, { r.2 with updates := ContextUpdatesCommitTx r.2.updates })

/-- Go `func WithTxRtn[RT any](ctx, fn func(tx *TxWrap) (RT, error)) (RT, error)`:
`txwrap.WithTxRtn` keeps the value of `fn` only when `fn` returns no error. -/
def WithTxRtn {RT : Type} (inTx : Bool) (st : State) (zero : RT)
    (fn : State → (RT × Option GoError) × State) : (RT × Option GoError) × State :=
  WithTx inTx st zero (fun s =>
    let r := fn s
    match r.1.2 with
    | some e => ((zero, some e), r.2)
    | none => ((r.1.1, none), r.2))

/-- Go `var ErrNotFound = fmt.Errorf("not found")`. -/
def ErrNotFound : GoError := .errorf "not found" []

/-- Go `func DBGetORef(ctx, oref starobj.ORef) (starobj.StarObj, error)`. -/
def DBGetORef (inTx : Bool) (st : State) (oref : ORef) :
    (Option StarObj × Option GoError) × State :=
  WithTxRtn inTx st none (fun s =>
    match txGet s oref.OType oref.OID with
    | none => ((none, none), s)
    | some row => ((some (SetVersion row.data row.version), none), s))

/-- Go `DBGet[*starobj.Tab](ctx, id)`: `DBGetORef` for the type tag of `Tab`, then
`genericCastWithErr`: nil with an error, nil for nil, else the value cast to
`*starobj.Tab` (a row of `db_tab` always decodes to a tab). -/
def DBGet_Tab (inTx : Bool) (st : State) (id : String) :
    (Option Tab × Option GoError) × State :=
  let r := DBGetORef inTx st { OType := OType_Tab, OID := id }
  match r.1.2 with
  | some err => ((none, some err), r.2)
  | none =>
    match r.1.1 with
    | some (.Tab t) => ((some t, none), r.2)
    | _ => ((none, none), r.2)

/-- Go `DBGet[*starobj.Block](ctx, id)`. -/
def DBGet_Block (inTx : Bool) (st : State) (id : String) :
    (Option Block × Option GoError) × State :=
  let r := DBGetORef inTx st { OType := OType_Block, OID := id }
  match r.1.2 with
  | some err => ((none, some err), r.2)
  | none =>
    match r.1.1 with
    | some (.Block b) => ((some b, none), r.2)
    | _ => ((none, none), r.2)

/-- Go `func DBDelete(ctx, otype string, id string) error` (the asynchronous
removal of the blob zone is outside the store). -/
def DBDelete (inTx : Bool) (st : State) (otype id : String) : Option GoError × State :=
  let r := WithTx inTx st () (fun s =>
    let s1 := txDelete s otype id
    let u : StarObjUpdate :=
      { UpdateType := UpdateType_Delete, OType := otype, OID := id, Obj := none }
    (((), none), { s1 with updates := ContextAddUpdate s1.updates u }))
  (r.1.2, r.2)

/-- Go `func DBUpdate(ctx, val starobj.StarObj) error`; the first component is
`val` as the call leaves it.  `jsonData` is the encoding of `val` as it is
passed in (every entity can be encoded). -/
def DBUpdate (inTx : Bool) (st : State) (val : StarObj) : (StarObj × Option GoError) × State :=
  let oid := GetOID val
  if oid = "" then
    ((val, some (.errorf "cannot update %T value with empty id" [goTypeName val])), st)
  else
    WithTx inTx st val (fun s =>
      let r := txUpdateReturningVersion s (GetOType val) oid val
      let val1 := SetVersion val r.1
      let u : StarObjUpdate :=
        { UpdateType := UpdateType_Update, OType := GetOType val, OID := oid, Obj := some val1 }
      ((val1, none), { r.2 with updates := ContextAddUpdate r.2.updates u }))

/-- Go `func DBInsert(ctx, val starobj.StarObj) error`; the first component is
`val` as the call leaves it. -/
def DBInsert (inTx : Bool) (st : State) (val : StarObj) : (StarObj × Option GoError) × State :=
  let oid := GetOID val
  if oid = "" then
    ((val, some (.errorf "cannot insert %T value with empty id" [goTypeName val])), st)
  else
    WithTx inTx st val (fun s =>
      let val1 := SetVersion val 1
      let s1 := txInsert s (GetOType val) oid val
      let u : StarObjUpdate :=
        { UpdateType := UpdateType_Update, OType := GetOType val, OID := oid, Obj := some val1 }
      ((val1, none), { s1 with updates := ContextAddUpdate s1.updates u }))

/-- Query `SELECT json_extract(b.data, '$.parentoref') AS parentoref FROM db_block b
WHERE b.oid = ?` read as a string: the parent reference stored in the row of the
block, and the empty string when there is no such row or the row holds no
parent reference. -/
def DB.parentORef (db : DB) (blockId : String) : String :=
  match db.get OType_Block blockId with
  | some row =>
    match row.data with
    | .Block b => b.ParentORef
    | _ => ""
  | none => ""

/-- Call `tx.GetString(query, blockId)` for the query of `DBFindTabForBlockId`. -/
def txGetParentORef (st : State) (blockId : String) : String :=
  match st.txErr with
  | some _ => ""
  | none => st.db.parentORef blockId

/-- The `for` loop of `DBFindTabForBlockId`, entered with the current values of
`iterNum` and `blockId`.  `fuel` bounds the number of iterations of the model;
the second component of the result counts the parent-reference lookups
(`tx.GetString`) performed. -/
def findTabLoop : Nat → State → Int → String → Option ((String × Option GoError) × Nat)
  | 0, _, _, _ => none
  | fuel + 1, s, iterNum, blockId =>
    if iterNum > 5 then
      some (("", some (.errorf "too many iterations looking for tab in block parents" [])), 0)
    else
      let parentORef := txGetParentORef s blockId
      let p := ParseORef parentORef
      match p.2 with
      | some err => some (("", some (.wrap "bad block parent oref: %v" err)), 1)
      | none =>
        if p.1.OType = "tab" then some ((p.1.OID, none), 1)
        else if p.1.OType = "block" then
          match findTabLoop fuel s (iterNum + 1) p.1.OID with
          | some (r, n) => some (r, n + 1)
          | none => none
        else some (("", some (.errorf "bad parent oref type: %v" [p.1.OType])), 1)

/-- The function literal that `DBFindTabForBlockId` runs in its transaction: the
loop entered with `iterNum := 1`.  The value is `none` when the model of the
loop runs out of fuel. -/
def DBFindTabForBlockId_fn (fuel : Nat) (blockId : String) (s : State) :
    (Option String × Option GoError) × State :=
  match findTabLoop fuel s 1 blockId with
  | some (res, _) => ((some res.1, res.2), s)
  | none => ((none, none), s)

/-- Go `func DBFindTabForBlockId(ctx, blockId string) (string, error)`; `none` when
the model of the loop runs out of fuel. -/
def DBFindTabForBlockId (fuel : Nat) (inTx : Bool) (st : State) (blockId : String) :
    Option ((String × Option GoError) × State) :=
  let r := WithTxRtn inTx st (some "") (DBFindTabForBlockId_fn fuel blockId)
  match r.1.1 with
  | some tabId => some ((tabId, r.1.2), r.2)
  | none => none

/-- The object updated `k` times in a row by `DBUpdate`, the `i`-th call with the
object `vals[i]`: the results of the calls and the final state. -/
def DBUpdateSeq (inTx : Bool) : State → List StarObj → List (StarObj × Option GoError) × State
  | st, [] => ([], st)
  | st, val :: rest =>
    let r := DBUpdate inTx st val
    let q := DBUpdateSeq inTx r.2 rest
    (r.1 :: q.1, q.2)

/-- The version column of the row of `(otype, oid)`, if the row exists. -/
def DB.rowVersion (db : DB) (otype oid : String) : Option Int :=
  (db.get otype oid).map Row.version

/-- The `BlockIds` stored for tab `tabId`, if the tab has a row. -/
def DB.tabBlockIds (db : DB) (tabId : String) : Option (List String) :=
  match db.get OType_Tab tabId with
  | some row =>
    match row.data with
    | .Tab t => some t.BlockIds
    | _ => none
  | none => none

/-- The `SubBlockIds` stored for block `blockId`, if the block has a row. -/
def DB.subBlockIds (db : DB) (blockId : String) : Option (List String) :=
  match db.get OType_Block blockId with
  | some row =>
    match row.data with
    | .Block b => some b.SubBlockIds
    | _ => none
  | none => none

/-- The block stored under `blockId`, if the block has a row. -/
def DB.block (db : DB) (blockId : String) : Option Block :=
  match db.get OType_Block blockId with
  | some row =>
    match row.data with
    | .Block b => some b
    | _ => none
  | none => none

/-- The function literal that `MoveBlockToTab` runs in its transaction; `s0` is the
state it is entered with, and calls with `tx.Context()` are calls inside the
transaction. -/
def MoveBlockToTab_fn (currentTabId newTabId blockId : String) (s0 : State) :
    (Unit × Option GoError) × State :=
    let rb := DBGet_Block true s0 blockId
    match rb.1.1 with
    | none => (((), some (.errorf "block not found: %q" [blockId])), rb.2)
    | some block =>
      let rc := DBGet_Tab true rb.2 currentTabId
      match rc.1.1 with
      | none => (((), some (.errorf "current tab not found: %q" [currentTabId])), rc.2)
      | some currentTab =>
        let rn := DBGet_Tab true rc.2 newTabId
        match rn.1.1 with
        | none => (((), some (.errorf "new tab not found: %q" [newTabId])), rn.2)
        | some newTab =>
          let blockIdx := utilfn.FindStringInSlice currentTab.BlockIds blockId
          if blockIdx = -1 then
            (((), some (.errorf "block not found in current tab: %q" [blockId])), rn.2)
          else
            let currentTab1 : Tab :=
              { currentTab with
                BlockIds := utilfn.RemoveElemFromSlice currentTab.BlockIds blockId }
            let newTab1 : Tab := { newTab with BlockIds := newTab.BlockIds ++ [blockId] }
            let block1 : Block :=
              { block with ParentORef := (MakeORef OType_Tab newTabId).String }
            let s1 := (DBUpdate true rn.2 (.Block block1)).2
            let s2 := (DBUpdate true s1 (.Tab currentTab1)).2
            let s3 := (DBUpdate true s2 (.Tab newTab1)).2
            (((), none), s3)

/-- Go `func MoveBlockToTab(ctx, currentTabId string, newTabId string, blockId string) error`. -/
def MoveBlockToTab (inTx : Bool) (st : State) (currentTabId newTabId blockId : String) :
    Option GoError × State :=
  let r := WithTx inTx st () (MoveBlockToTab_fn currentTabId newTabId blockId)
  (r.1.2, r.2)

end wstore

namespace score

open starobj wstore

/-! ## Blocks (`pkg/score/block.go`) -/

/-- The composite literal `&starobj.Block{OID: blockId, ParentORef:
starobj.MakeORef(starobj.OType_Tab, tabId).String(), RuntimeOpts: rtOpts, Meta:
blockDef.Meta}` of `createBlockObj`; the other fields are zero. -/
def createBlockObj_blockData (tabId : String) (blockDef : BlockDef)
    (rtOpts : Option RuntimeOpts) (blockId : String) : Block :=
  { OID := blockId
    ParentORef := (MakeORef OType_Tab tabId).String
    Version := 0
    RuntimeOpts := rtOpts
    Meta := blockDef.Meta
    SubBlockIds := [] }

/-- The function literal that `createBlockObj` runs in its transaction.
`blockId` is the value of `uuid.NewString()`. -/
def createBlockObj_fn (tabId : String) (blockDef : BlockDef) (rtOpts : Option RuntimeOpts)
    (blockId : String) (s0 : State) : (Option Block × Option GoError) × State :=
    let rt := DBGet_Tab true s0 tabId
    match rt.1.1 with
    | none => ((none, some (.errorf "tab not found: %q" [tabId])), rt.2)
    | some tab =>
      let blockData : Block := createBlockObj_blockData tabId blockDef rtOpts blockId
      let ri := DBInsert true rt.2 (.Block blockData)
      let tab1 : Tab := { tab with BlockIds := tab.BlockIds ++ [blockId] }
      let s2 := (DBUpdate true ri.2 (.Tab tab1)).2
      match ri.1.1 with
      | .Block b => ((some b, none), s2)
      | _ => ((some blockData, none), s2)

/-- Go `func createBlockObj(ctx, tabId string, blockDef *starobj.BlockDef, rtOpts
*starobj.RuntimeOpts) (*starobj.Block, error)`.  `blockId` is the value of
`uuid.NewString()`. -/
def createBlockObj (inTx : Bool) (st : State) (tabId : String) (blockDef : BlockDef)
    (rtOpts : Option RuntimeOpts) (blockId : String) : (Option Block × Option GoError) × State :=
  WithTxRtn inTx st none (createBlockObj_fn tabId blockDef rtOpts blockId)

/-- The statement `if parentORef != nil { ... }` of `deleteBlockObj`: the parent
is updated when it exists; the result is `parentBlockCount`. -/
def deleteBlockObj_parent (s : State) (blockId : String) (parentORef : Option ORef) :
    Int × State :=
  match parentORef with
  | none => (-1, s)
  | some oref =>
    if oref.OType = OType_Tab then
      let rt := DBGet_Tab true s oref.OID
      match rt.1.1 with
      | some tab =>
        let tab1 : Tab :=
          { tab with BlockIds := utilfn.RemoveElemFromSlice tab.BlockIds blockId }
        ((tab1.BlockIds.length : Int), (DBUpdate true rt.2 (.Tab tab1)).2)
      | none => (-1, rt.2)
    else if oref.OType = OType_Block then
      let rp := DBGet_Block true s oref.OID
      match rp.1.1 with
      | some parentBlock =>
        let parentBlock1 : Block :=
          { parentBlock with
            SubBlockIds := utilfn.RemoveElemFromSlice parentBlock.SubBlockIds blockId }
        ((parentBlock1.SubBlockIds.length : Int), (DBUpdate true rp.2 (.Block parentBlock1)).2)
      | none => (-1, rp.2)
    else (-1, s)

/-- The function literal that `deleteBlockObj` runs in its transaction. -/
def deleteBlockObj_fn (blockId : String) (s0 : State) : (Int × Option GoError) × State :=
    let rb := DBGet_Block true s0 blockId
    match rb.1.2 with
    | some err => ((-1, some (.wrap "error getting block: %w" err)), rb.2)
    | none =>
      match rb.1.1 with
      | none => ((-1, some (.errorf "block not found: %q" [blockId])), rb.2)
      | some block =>
        if block.SubBlockIds.length > 0 then
          ((-1, some (.errorf "block has subblocks, must delete subblocks first" [])), rb.2)
        else
          let rp := deleteBlockObj_parent rb.2 blockId (ParseORefNoErr block.ParentORef)
          let s2 := (DBDelete true rp.2 OType_Block blockId).2
          ((rp.1, none), s2)

/-- Go `func deleteBlockObj(ctx, blockId string) (int, error)`. -/
def deleteBlockObj (inTx : Bool) (st : State) (blockId : String) :
    (Int × Option GoError) × State :=
  WithTxRtn inTx st 0 (deleteBlockObj_fn blockId)

end score

namespace wstore

open starobj

/-- The state the body of a transaction is entered with when the transaction
it runs in has not failed: a fresh update frame, no error. -/
def State.enterTx (st : State) : State :=
  { db := st.db, txErr := none, updates := ContextUpdatesBeginTx st.updates }

/-- The table `db_block` has a row for the block `b`, and `oref` is what
`ParseORef` makes, without error, of the `ParentORef` of the block stored in
that row. -/
def DB.parentIs (db : DB) (b : String) (oref : ORef) : Prop :=
  ∃ row blk, db.get OType_Block b = some row ∧ row.data = .Block blk
    ∧ ParseORef blk.ParentORef = (oref, none)

/-- Relation `ReachesTab db b k t`: following the parent references stored in
the rows of the blocks from block `b`, the first `k - 1` references are
block-typed and the `k`-th is the reference of tab `t`; every block on the way
has a row and every reference is one that `ParseORef` accepts. -/
inductive ReachesTab (db : DB) : String → Nat → String → Prop where
  | tab (b t : String) :
      db.parentIs b { OType := "tab", OID := t } → ReachesTab db b 1 t
  | block (b b1 t : String) (k : Nat) :
      db.parentIs b { OType := "block", OID := b1 } →
      ReachesTab db b1 k t → ReachesTab db b (k + 1) t

/-- Every tab row holds a duplicate-free `BlockIds`. -/
def DB.tabsNodup (db : DB) : Bool :=
  db.all (fun row =>
    match row.data with
    | .Tab t => decide t.BlockIds.Nodup
    | _ => true)

/-- The list of child ids of the tab or block that `oref` names: `BlockIds` of a
tab, `SubBlockIds` of a block. -/
def DB.childIds (db : DB) (oref : ORef) : Option (List String) :=
  if oref.OType = OType_Tab then db.tabBlockIds oref.OID
  else if oref.OType = OType_Block then db.subBlockIds oref.OID
  else none

end wstore


namespace sconfig

open starobj

/-! ## Merging metadata maps (`pkg/sconfig/settingsconfig.go`)

A Go map of type `MetaMapType` is an association list read by first match; a
map value that may be the nil map is an `Option MetaMapType`, `none` being
nil.  A `range` loop visits the entries of the list in order; Go leaves the
order open, and a Go map holds every key once. -/

/-- Go `v, ok := m[k]` on a map that is not nil: `none` when `k` is absent,
`some none` when `k` is present with a nil value. -/
def mapGet : MetaMapType → String → Option (Option String)
  | [], _ => none
  | (k1, v) :: rest, k => if k1 = k then some v else mapGet rest k

/-- Go `delete(m, k)`. -/
def mapDelete (m : MetaMapType) (k : String) : MetaMapType :=
  m.filter (fun e => e.1 != k)

/-- Go `m[k] = v`. -/
def mapSet (m : MetaMapType) (k : String) (v : Option String) : MetaMapType :=
  (k, v) :: mapDelete m k

/-- Go `v, ok := m[k]` on a map that may be nil; reading a nil map finds no key. -/
def lookup : Option MetaMapType → String → Option (Option String)
  | none, _ => none
  | some m, k => mapGet m k

/-- The keys of a map are pairwise different. -/
def keysNodup (m : Option MetaMapType) : Prop :=
  match m with
  | none => True
  | some l => (l.map Prod.fst).Nodup

instance (m : Option MetaMapType) : Decidable (keysNodup m) := by
  unfold keysNodup; cases m <;> infer_instance

/-- The body of the loop of `mergeMetaMapSimple` for the entry `(k, v)`:
`if v == nil { delete(m, k); continue }; m[k] = v`. -/
def mergeMetaMapSimple_step (m : MetaMapType) (e : String × Option String) : MetaMapType :=
  match e.2 with
  | none => mapDelete m e.1
  | some v => mapSet m e.1 (some v)

/-- Go `func mergeMetaMapSimple(m, toMerge starobj.MetaMapType) starobj.MetaMapType`;
the source changes `m` in place and returns it. -/
def mergeMetaMapSimple (m toMerge : Option MetaMapType) : Option MetaMapType :=
  match m, toMerge with
  | none, _ => toMerge
  | some _, none => m
  | some l, some t =>
    let l1 := t.foldl mergeMetaMapSimple_step l
    if l1.length = 0 then none else some l1

/-- The entry of a merged map, from the entry of `toMerge` and the entry of `m`. -/
def overlay (tv mv : Option (Option String)) : Option (Option String) :=
  match tv with
  | some (some v) => some (some v)
  | some none => none
  | none => mv

end sconfig


/-! ## Error texts -/

/-- Library function `fmt.Sprintf` for the formats of this program: a verb is a
percent sign and one letter and prints the next argument, which is given as the
text it prints; a verb without an argument prints nothing. -/
def sprintfChars : List Char → List String → List Char
  | [], _ => []
  | [c], _ => [c]
  | c :: d :: rest, args =>
    if c = '%' then
      match args with
      | [] => sprintfChars rest []
      | a :: more => a.data ++ sprintfChars rest more
    else c :: sprintfChars (d :: rest) args

/-- Go `err.Error()`: the text of an error. -/
def GoError.Error : GoError → String
  | .errorf format args => String.mk (sprintfChars format.data args)
  | .wrap format inner => String.mk (sprintfChars format.data [inner.Error])
  | .sql msg => msg

namespace service

open starobj

/-! ## Types and values seen through `reflect` (`pkg/service/service.go`) -/

/-- Go `reflect.Kind`. -/
inductive Kind where
  | Invalid | Bool | Int | Int8 | Int16 | Int32 | Int64
  | Uint | Uint8 | Uint16 | Uint32 | Uint64 | Uintptr
  | Float32 | Float64 | Complex64 | Complex128
  | Array | Chan | Func | Interface | Map | Ptr | Slice | String | Struct | UnsafePointer
  deriving DecidableEq, Repr

/-- The kinds of the Go types that have no component type. -/
inductive Basic where
  | Bool | Int | Int8 | Int16 | Int32 | Int64
  | Uint | Uint8 | Uint16 | Uint32 | Uint64 | Uintptr
  | Float32 | Float64 | Complex64 | Complex128 | String | UnsafePointer
  deriving DecidableEq, Repr

/-- A Go type as `reflect.Type` shows it.  Struct and interface types carry
their name, by which Go tells defined types apart; a struct carries the types
of its fields, a function type the types of its parameters and results.  The
values are the types of finite depth: a Go type that contains itself
(`type T struct { Next *T }`) has no value here, and what the functions below
do on such a type is not modelled. -/
inductive RType where
  | basic (b : Basic)
  | ptr (elem : RType)
  | slice (elem : RType)
  | array (len : Nat) (elem : RType)
  | chan (elem : RType)
  | func (ins outs : List RType)
  | map (key elem : RType)
  | struct (name : String) (fields : List RType)
  | iface (name : String)
  deriving Repr

/-- Go `Basic` kinds as `reflect.Kind`. -/
def Basic.Kind : Basic → Kind
  | .Bool => .Bool | .Int => .Int | .Int8 => .Int8 | .Int16 => .Int16
  | .Int32 => .Int32 | .Int64 => .Int64 | .Uint => .Uint | .Uint8 => .Uint8
  | .Uint16 => .Uint16 | .Uint32 => .Uint32 | .Uint64 => .Uint64
  | .Uintptr => .Uintptr | .Float32 => .Float32 | .Float64 => .Float64
  | .Complex64 => .Complex64 | .Complex128 => .Complex128
  | .String => .String | .UnsafePointer => .UnsafePointer

/-- Go `Type.Kind()`. -/
def RType.Kind : RType → Kind
  | .basic b => b.Kind
  | .ptr _ => .Ptr
  | .slice _ => .Slice
  | .array _ _ => .Array
  | .chan _ => .Chan
  | .func _ _ => .Func
  | .map _ _ => .Map
  | .struct _ _ => .Struct
  | .iface _ => .Interface

/-- The name that `%s` prints for a basic type. -/
def basicName : Basic → String
  | .Bool => "bool" | .Int => "int" | .Int8 => "int8" | .Int16 => "int16"
  | .Int32 => "int32" | .Int64 => "int64" | .Uint => "uint" | .Uint8 => "uint8"
  | .Uint16 => "uint16" | .Uint32 => "uint32" | .Uint64 => "uint64"
  | .Uintptr => "uintptr" | .Float32 => "float32" | .Float64 => "float64"
  | .Complex64 => "complex64" | .Complex128 => "complex128"
  | .String => "string" | .UnsafePointer => "unsafe.Pointer"

/-- Go `Type.String()`, which `%s` prints (a function type is printed without
its signature). -/
def RType.String : RType → String
  | .basic b => basicName b
  | .ptr e => "*" ++ e.String
  | .slice e => "[]" ++ e.String
  | .array n e => "[" ++ toString n ++ "]" ++ e.String
  | .chan e => "chan " ++ e.String
  | .func _ _ => "func"
  | .map k e => "map[" ++ k.String ++ "]" ++ e.String
  | .struct name _ => name
  | .iface name => name

/-- Go `var contextRType`. -/
def contextRType : RType := .iface "context.Context"

/-- Go `var errorRType`. -/
def errorRType : RType := .iface "error"

/-- Go `var starObjRType`. -/
def starObjRType : RType := .iface "starobj.StarObj"

/-- Go `var starObjSliceRType`. -/
def starObjSliceRType : RType := .slice starObjRType

/-- Go `var starObjMapRType`. -/
def starObjMapRType : RType := .map (.basic .String) starObjRType

/-- Go `var starObjUpdateRType`: the struct `StarObjUpdate`, with its fields
`UpdateType`, `OType`, `OID` and `Obj`. -/
def starObjUpdateRType : RType :=
  .struct "starobj.StarObjUpdate" [.basic .String, .basic .String, .basic .String, starObjRType]

/-- Go `var updatesRType`. -/
def updatesRType : RType := .slice starObjUpdateRType

/-- Go `var uiContextRType`: the struct `UIContext` (a window id and the id of
the active tab). -/
def uiContextRType : RType := .struct "starobj.UIContext" [.basic .String, .basic .String]

/-- Go `var wsCommandRType`. -/
def wsCommandRType : RType := .iface "webcmd.WSCommandType"

/-- Go `var orefRType`: the struct `ORef`, with its fields `OType` and `OID`. -/
def orefRType : RType := .struct "starobj.ORef" [.basic .String, .basic .String]

mutual
/-- Go `t == u` on `reflect.Type` values: the same type.  Defined types (here
structs and interfaces) are the same when they have the same name. -/
def RType.same : RType → RType → Bool
  | .basic a, .basic b => a == b
  | .ptr a, .ptr b => RType.same a b
  | .slice a, .slice b => RType.same a b
  | .array n a, .array m b => n == m && RType.same a b
  | .chan a, .chan b => RType.same a b
  | .func i1 o1, .func i2 o2 => RType.sameList i1 i2 && RType.sameList o1 o2
  | .map k1 e1, .map k2 e2 => RType.same k1 k2 && RType.same e1 e2
  | .struct n _, .struct m _ => n == m
  | .iface n, .iface m => n == m
  | _, _ => false
/-- Pointwise `same` on lists of types. -/
def RType.sameList : List RType → List RType → Bool
  | [], [] => true
  | a :: as, b :: bs => RType.same a b && RType.sameList as bs
  | _, _ => false
end

/-- A JSON value as `encoding/json` decodes it into a Go `any`: nil, `bool`,
`float64`, `string`, `[]any` or `map[string]any`. -/
inductive JsonArg where
  | null
  | bool (b : Bool)
  | number (mant : Int) (exp : Int)
  | string (s : String)
  | array (xs : List JsonArg)
  | object (kv : List (String × JsonArg))
  deriving Repr

/-- Go `reflect.TypeOf(jsonArg).Kind()` for a value that is not nil. -/
def JsonArg.Kind : JsonArg → Kind
  | .null => .Invalid
  | .bool _ => .Bool
  | .number _ _ => .Float64
  | .string _ => .String
  | .array _ => .Slice
  | .object _ => .Map

/-- The name that `%T` prints for a JSON value. -/
def JsonArg.goTypeName : JsonArg → String
  | .null => "<nil>"
  | .bool _ => "bool"
  | .number _ _ => "float64"
  | .string _ => "string"
  | .array _ => "[]interface {}"
  | .object _ => "map[string]interface {}"

/-- Modelled from the spec: `UIContext`, the window and the active tab of the
caller (`pkg/starobj/wtype.go` is not among the sources). -/
structure UIContext where
  WindowId : String
  ActiveTabId : String
  deriving DecidableEq, Repr

/-- A Go value held in an `any` or a `reflect.Value` on the native side of a
service call.  `decoded t j` is the value of type `t` that a decoding library
built from `j`. -/
inductive Native where
  | nil
  | zero (t : RType)
  | bool (b : Bool)
  | string (s : String)
  | int (k : Kind) (n : Int)
  | float32 (mant : Int) (exp : Int)
  | float64 (mant : Int) (exp : Int)
  | oref (o : ORef)
  | ctx
  | uiContext (u : UIContext)
  | error (e : GoError)
  | updates (us : List StarObjUpdate)
  | decoded (t : RType) (j : JsonArg)
  | slice (xs : List Native)
  | map (kv : List (String × Native))
  deriving Repr

/-- Go `v == nil` for an `any`. -/
def Native.isNil : Native → Bool
  | .nil => true
  | _ => false

/-! ## Converting arguments (`pkg/service/service.go`)

A `float64` is the number `mant * 2 ^ exp`; every finite `float64` has this
form.  `int` and `uint` are 64 bits wide. -/

/-- What this program takes from outside `pkg/service`: the decoders
(`utilfn.DoMapStructure`, `starobj.FromJsonMap`, `webcmd.ParseWSCommandMap`),
the encoder `starobj.ToJsonMap`, and the value of a conversion from `float64` to
an integer type that cannot hold the number, which Go leaves to the
implementation. -/
structure Extern where
  DoMapStructure : RType → JsonArg → Native × Option GoError
  FromJsonMap : List (String × JsonArg) → Native × Option GoError
  ParseWSCommandMap : List (String × JsonArg) → Native × Option GoError
  ToJsonMap : Native → Native × Option GoError
  outOfRange : Kind → Int → Int → Int

/-- The integer part of `mant * 2 ^ exp`: the fraction is dropped (rounding
towards zero). -/
def truncFloat (mant exp : Int) : Int :=
  if 0 ≤ exp then mant * 2 ^ exp.toNat else Int.tdiv mant (2 ^ (-exp).toNat)

/-- The least and the greatest value of an integer kind. -/
def intRange : Kind → Option (Int × Int)
  | .Int => some (-(2 ^ 63), 2 ^ 63 - 1)
  | .Int8 => some (-(2 ^ 7), 2 ^ 7 - 1)
  | .Int16 => some (-(2 ^ 15), 2 ^ 15 - 1)
  | .Int32 => some (-(2 ^ 31), 2 ^ 31 - 1)
  | .Int64 => some (-(2 ^ 63), 2 ^ 63 - 1)
  | .Uint => some (0, 2 ^ 64 - 1)
  | .Uint8 => some (0, 2 ^ 8 - 1)
  | .Uint16 => some (0, 2 ^ 16 - 1)
  | .Uint32 => some (0, 2 ^ 32 - 1)
  | .Uint64 => some (0, 2 ^ 64 - 1)
  | _ => none

/-- An integer lies in the range of a kind. -/
def inRange (k : Kind) (n : Int) : Bool :=
  match intRange k with
  | some (lo, hi) => decide (lo ≤ n) && decide (n ≤ hi)
  | none => false

/-- Go conversion `T(x)` of a `float64` to the integer type of kind `k`: "the
fraction is discarded (truncation towards zero)"; "if the value cannot be
represented by the type the result is implementation-dependent". -/
def floatToInt (ext : Extern) (k : Kind) (mant exp : Int) : Int :=
  if inRange k (truncFloat mant exp) then truncFloat mant exp else ext.outOfRange k mant exp

/-- Go `func convertNumber(argType reflect.Type, jsonArg float64) (any, error)`. -/
def convertNumber (ext : Extern) (argType : RType) (mant exp : Int) : Native × Option GoError :=
  match argType.Kind with
  | .Int => (.int .Int (floatToInt ext .Int mant exp), none)
  | .Int8 => (.int .Int8 (floatToInt ext .Int8 mant exp), none)
  | .Int16 => (.int .Int16 (floatToInt ext .Int16 mant exp), none)
  | .Int32 => (.int .Int32 (floatToInt ext .Int32 mant exp), none)
  | .Int64 => (.int .Int64 (floatToInt ext .Int64 mant exp), none)
  | .Uint => (.int .Uint (floatToInt ext .Uint mant exp), none)
  | .Uint8 => (.int .Uint8 (floatToInt ext .Uint8 mant exp), none)
  | .Uint16 => (.int .Uint16 (floatToInt ext .Uint16 mant exp), none)
  | .Uint32 => (.int .Uint32 (floatToInt ext .Uint32 mant exp), none)
  | .Uint64 => (.int .Uint64 (floatToInt ext .Uint64 mant exp), none)
  | .Float32 => (.float32 mant exp, none)
  | .Float64 => (.float64 mant exp, none)
  | _ => (.nil, some (.errorf "invalid number type %s" [argType.String]))

/-- Go `func convertComplex(argType reflect.Type, jsonArg any) (any, error)`. -/
def convertComplex (ext : Extern) (argType : RType) (jsonArg : JsonArg) : Native × Option GoError :=
  let r := ext.DoMapStructure argType jsonArg
  match r.2 with
  | some err => (.nil, some err)
  | none => (r.1, none)

/-- Go `func isSpecialStarArgType(argType reflect.Type) bool`. -/
def isSpecialStarArgType (argType : RType) : Bool :=
  argType.same starObjRType || argType.same starObjSliceRType
    || argType.same starObjMapRType || argType.same wsCommandRType

/-- The error `fmt.Errorf("cannot convert %T to %s", jsonArg, argType)`. -/
def cannotConvert (jsonArg : JsonArg) (argType : RType) : GoError :=
  .errorf "cannot convert %T to %s" [jsonArg.goTypeName, argType.String]

/-- Go `func convertWSCommand(argType reflect.Type, jsonArg any) (any, error)`. -/
def convertWSCommand (ext : Extern) (argType : RType) (jsonArg : JsonArg) :
    Native × Option GoError :=
  match jsonArg with
  | .object kv =>
    let r := ext.ParseWSCommandMap kv
    match r.2 with
    | some err => (.nil, some (.wrap "error parsing command map: %w" err))
    | none => (r.1, none)
  | _ => (.nil, some (cannotConvert jsonArg argType))

/-- The loop of `convertSpecial` over the elements of a JSON array, from index
`idx` on; `acc` holds the objects decoded so far. -/
def convertSpecial_slice (ext : Extern) (jsonArg : JsonArg) :
    List JsonArg → Nat → List Native → Native × Option GoError
  | [], _, acc => (.slice acc, none)
  | .object kv :: rest, idx, acc =>
    let r := ext.FromJsonMap kv
    match r.2 with
    | some err =>
      (.nil, some (.errorf "cannot convert %T to %s (idx %d) error: %v"
        [jsonArg.goTypeName, starObjSliceRType.String, toString idx, err.Error]))
    | none => convertSpecial_slice ext jsonArg rest (idx + 1) (acc ++ [r.1])
  | elem :: _, idx, _ =>
    (.nil, some (.errorf "cannot convert %T to %s (idx %d is not a map, is %T)"
      [jsonArg.goTypeName, starObjSliceRType.String, toString idx, elem.goTypeName]))

/-- The loop of `convertSpecial` over the entries of a JSON object; `acc` holds
the objects decoded so far. -/
def convertSpecial_map (ext : Extern) (jsonArg : JsonArg) :
    List (String × JsonArg) → List (String × Native) → Native × Option GoError
  | [], acc => (.map acc, none)
  | (key, .object kv) :: rest, acc =>
    let r := ext.FromJsonMap kv
    match r.2 with
    | some err =>
      (.nil, some (.errorf "cannot convert %T to %s (key %s) error: %v"
        [jsonArg.goTypeName, starObjMapRType.String, key, err.Error]))
    | none => convertSpecial_map ext jsonArg rest (acc ++ [(key, r.1)])
  | (key, elem) :: _, _ =>
    (.nil, some (.errorf "cannot convert %T to %s (key %s is not a map, is %T)"
      [jsonArg.goTypeName, starObjMapRType.String, key, elem.goTypeName]))

/-- Go `func convertSpecial(argType reflect.Type, jsonArg any) (any, error)`. -/
def convertSpecial (ext : Extern) (argType : RType) (jsonArg : JsonArg) : Native × Option GoError :=
  if argType.same orefRType then
    match jsonArg with
    | .string s =>
      let r := ParseORef s
      match r.2 with
      | some err => (.nil, some (.wrap "invalid oref string: %v" err))
      | none => (.oref r.1, none)
    | _ => (.nil, some (cannotConvert jsonArg argType))
  else if argType.same wsCommandRType then
    convertWSCommand ext argType jsonArg
  else if argType.same starObjRType then
    match jsonArg with
    | .object kv => ext.FromJsonMap kv
    | _ => (.nil, some (cannotConvert jsonArg argType))
  else if argType.same starObjSliceRType then
    match jsonArg with
    | .array xs => convertSpecial_slice ext jsonArg xs 0 []
    | _ => (.nil, some (cannotConvert jsonArg argType))
  else if argType.same starObjMapRType then
    match jsonArg with
    | .object kv => convertSpecial_map ext jsonArg kv []
    | _ => (.nil, some (cannotConvert jsonArg argType))
  else
    (.nil, some (.errorf "invalid special star argument type %s" [argType.String]))

/-- Go `argType.Key().Kind()` of a map type. -/
def keyKind : RType → Kind
  | .map k _ => k.Kind
  | _ => .Invalid

/-- Go `argType.Elem().Kind()` of a pointer type. -/
def elemKind : RType → Kind
  | .ptr e => e.Kind
  | .slice e => e.Kind
  | .array _ e => e.Kind
  | .chan e => e.Kind
  | .map _ e => e.Kind
  | _ => .Invalid

/-- Go `argType.Key().String()` of a map type. -/
def keyString : RType → String
  | .map k _ => k.String
  | _ => ""

/-- Go `func convertArgument(argType reflect.Type, jsonArg any) (any, error)`. -/
def convertArgument (ext : Extern) (argType : RType) (jsonArg : JsonArg) : Native × Option GoError :=
  match jsonArg with
  | .null => (.zero argType, none)
  | _ =>
    if isSpecialStarArgType argType then convertSpecial ext argType jsonArg
    else
      match argType.Kind with
      | .String =>
        match jsonArg with
        | .string s => (.string s, none)
        | _ => (.nil, some (cannotConvert jsonArg argType))
      | .Bool =>
        match jsonArg with
        | .bool b => (.bool b, none)
        | _ => (.nil, some (cannotConvert jsonArg argType))
      | .Int | .Int8 | .Int16 | .Int32 | .Int64
      | .Uint | .Uint8 | .Uint16 | .Uint32 | .Uint64
      | .Float32 | .Float64 =>
        match jsonArg with
        | .number mant exp => convertNumber ext argType mant exp
        | _ => (.nil, some (cannotConvert jsonArg argType))
      | .Map =>
        if keyKind argType ≠ .String then
          (.nil, some (.errorf "invalid map key type %s" [keyString argType]))
        else if jsonArg.Kind ≠ .Map then (.nil, some (cannotConvert jsonArg argType))
        else convertComplex ext argType jsonArg
      | .Slice =>
        if jsonArg.Kind ≠ .Slice then (.nil, some (cannotConvert jsonArg argType))
        else convertComplex ext argType jsonArg
      | .Struct =>
        if jsonArg.Kind ≠ .Map then (.nil, some (cannotConvert jsonArg argType))
        else convertComplex ext argType jsonArg
      | .Ptr =>
        if elemKind argType ≠ .Struct then
          (.nil, some (.errorf "invalid pointer type %s" [argType.String]))
        else if jsonArg.Kind ≠ .Map then (.nil, some (cannotConvert jsonArg argType))
        else convertComplex ext argType jsonArg
      | _ => (.nil, some (.errorf "invalid argument type %s" [argType.String]))

/-! ## Calling a service method (`pkg/service/service.go`) -/

/-- A method of a service as `reflect` shows it: the types of its parameters
(the receiver is bound) and what a call returns, each result with its declared
type. -/
structure Method where
  In : List RType
  Call : List Native → List (RType × Native)

/-- Go `var ServiceMap`: the services by name, each with its methods by name. -/
abbrev ServiceMapType := List (String × List (String × Method))

/-- Go `type WebCallType struct`. -/
structure WebCallType where
  Service : String
  Method : String
  UIContext : Option UIContext
  Args : List JsonArg

/-- Go `type WebReturnType struct`. -/
structure WebReturnType where
  Success : Bool
  Error : String
  Data : Native
  Updates : List StarObjUpdate

/-- The loop of `convertSpecialForReturn` over a slice of objects. -/
def convertSpecialForReturn_slice (ext : Extern) : List Native → List Native → Native × Option GoError
  | [], acc => (.slice acc, none)
  | elem :: rest, acc =>
    let r := ext.ToJsonMap elem
    match r.2 with
    | some err => (.nil, some err)
    | none => convertSpecialForReturn_slice ext rest (acc ++ [r.1])

/-- The loop of `convertSpecialForReturn` over a map of objects. -/
def convertSpecialForReturn_map (ext : Extern) :
    List (String × Native) → List (String × Native) → Native × Option GoError
  | [], acc => (.map acc, none)
  | (key, elem) :: rest, acc =>
    let r := ext.ToJsonMap elem
    match r.2 with
    | some err => (.nil, some err)
    | none => convertSpecialForReturn_map ext rest (acc ++ [(key, r.1)])

/-- Go `func convertSpecialForReturn(argType reflect.Type, nativeArg any) (any, error)`. -/
def convertSpecialForReturn (ext : Extern) (argType : RType) (nativeArg : Native) :
    Native × Option GoError :=
  if argType.same starObjRType then ext.ToJsonMap nativeArg
  else if argType.same starObjSliceRType then
    match nativeArg with
    | .slice xs => convertSpecialForReturn_slice ext xs []
    | _ => (.slice [], none)
  else if argType.same starObjMapRType then
    match nativeArg with
    | .map kv => convertSpecialForReturn_map ext kv []
    | _ => (.map [], none)
  else (.nil, some (.errorf "invalid special star argument type %s" [argType.String]))

/-- Go `func isNilable(val reflect.Value) bool`, on the kind of the value. -/
def isNilable (k : Kind) : Bool :=
  match k with
  | .Ptr | .Slice | .Map | .Interface | .Chan | .Func => true
  | _ => false

/-- The body of the loop of `convertReturnValues` for one returned value. -/
def convertReturnValues_step (ext : Extern) (rtn : WebReturnType) (val : RType × Native) :
    WebReturnType :=
  if isNilable val.1.Kind && val.2.isNil then rtn
  else if val.1.same errorRType then
    match val.2 with
    | .error e => { rtn with Error := e.Error }
    | _ => rtn
  else if val.1.same updatesRType then
    match val.2 with
    | .updates us => { rtn with Updates := us }
    | _ => rtn
  else if isSpecialStarArgType val.1 then
    let r := convertSpecialForReturn ext val.1 val.2
    match r.2 with
    | some err =>
      { rtn with Error := (GoError.wrap "cannot convert special return value: %v" err).Error }
    | none => { rtn with Data := r.1 }
  else { rtn with Data := val.2 }

/-- Go `func convertReturnValues(rtnVals []reflect.Value) *WebReturnType`. -/
def convertReturnValues (ext : Extern) (rtnVals : List (RType × Native)) : WebReturnType :=
  let rtn : WebReturnType := { Success := false, Error := "", Data := .nil, Updates := [] }
  if rtnVals.length = 0 then rtn
  else
    let rtn1 := rtnVals.foldl (convertReturnValues_step ext) rtn
    if rtn1.Error = "" then { rtn1 with Success := true } else rtn1

/-- Go `func webErrorRtn(err error) *WebReturnType`. -/
def webErrorRtn (err : GoError) : WebReturnType :=
  { Success := false, Error := err.Error, Data := .nil, Updates := [] }

/-- The loop of `CallService` over the parameters of the method from index `idx`
on: `argIdx` JSON arguments are used up, `valueArgs` are the values collected. -/
def CallService_loop (ext : Extern) (webCall : WebCallType) :
    List RType → Nat → Nat → List Native → List Native × Option GoError
  | [], _, _, valueArgs => (valueArgs, none)
  | argType :: rest, idx, argIdx, valueArgs =>
    if idx = 0 ∧ argType.same contextRType = true then
      CallService_loop ext webCall rest (idx + 1) argIdx (valueArgs ++ [.ctx])
    else if argType.same uiContextRType then
      match webCall.UIContext with
      | none =>
        (valueArgs, some (.errorf "missing UIContext for %s.%s" [webCall.Service, webCall.Method]))
      | some u => CallService_loop ext webCall rest (idx + 1) argIdx (valueArgs ++ [.uiContext u])
    else
      match webCall.Args[argIdx]? with
      | none =>
        (valueArgs, some (.errorf "not enough arguments passed %s.%s idx:%d (type %T)"
          [webCall.Service, webCall.Method, toString idx, "*reflect.rtype"]))
      | some jsonArg =>
        let r := convertArgument ext argType jsonArg
        match r.2 with
        | some err =>
          (valueArgs, some (.errorf "cannot convert argument %s.%s type:%T idx:%d error:%v"
            [webCall.Service, webCall.Method, "*reflect.rtype", toString idx, err.Error]))
        | none => CallService_loop ext webCall rest (idx + 1) (argIdx + 1) (valueArgs ++ [r.1])

/-- Go `reflect.ValueOf(ServiceMap[service]).MethodByName(method)`: `none` when
the service or the method does not exist. -/
def findMethod (ServiceMap : ServiceMapType) (service method : String) : Option Method :=
  match ServiceMap.lookup service with
  | none => none
  | some methods => methods.lookup method

/-- What a call of `CallService` did: the result it returned and, when it
reached `method.Call`, the values it called the method with. -/
structure CallOutcome where
  rtn : WebReturnType
  called : Option (List Native)

/-- Go `func CallService(ctx context.Context, webCall WebCallType) *WebReturnType`. -/
def CallService (ext : Extern) (ServiceMap : ServiceMapType) (webCall : WebCallType) : CallOutcome :=
  match ServiceMap.lookup webCall.Service with
  | none =>
    { rtn := webErrorRtn (.errorf "invalid service: %q" [webCall.Service]), called := none }
  | some methods =>
    match methods.lookup webCall.Method with
    | none =>
      { rtn := webErrorRtn (.errorf "invalid method: %s.%s" [webCall.Service, webCall.Method]),
        called := none }
    | some method =>
      let r := CallService_loop ext webCall method.In 0 0 []
      match r.2 with
      | some err => { rtn := webErrorRtn err, called := none }
      | none => { rtn := convertReturnValues ext (method.Call r.1), called := some r.1 }

/-! ## Validating method signatures (`pkg/service/service.go`) -/

mutual
/-- Go `func baseValidateServiceArg(argType reflect.Type) error`, on the types
of finite depth; the recursion of the source follows the components of the
type and keeps no record of the types it has visited. -/
def baseValidateServiceArg (argType : RType) : Option GoError :=
  if argType.same starObjUpdateRType then none
  else
    match argType with
    | .ptr elem => baseValidateServiceArg elem
    | .slice elem => baseValidateServiceArg elem
    | .array _ elem => baseValidateServiceArg elem
    | .map key elem =>
      if key.Kind ≠ .String then some (.errorf "invalid map key type %s" [key.String])
      else baseValidateServiceArg elem
    | .struct _ fields => baseValidateServiceArg_fields fields
    | .iface name => some (.errorf "invalid argument type %s: contains interface" [name])
    | .chan elem => some (.errorf "invalid argument type %s" [(RType.chan elem).String])
    | .func ins outs => some (.errorf "invalid argument type %s" [(RType.func ins outs).String])
    | .basic b =>
      match b with
      | .Complex128 | .Complex64 | .Uintptr | .UnsafePointer =>
        some (.errorf "invalid argument type %s" [basicName b])
      | _ => none
/-- The loop of `baseValidateServiceArg` over the fields of a struct: the first
error is returned. -/
def baseValidateServiceArg_fields : List RType → Option GoError
  | [] => none
  | field :: rest =>
    match baseValidateServiceArg field with
    | some err => some err
    | none => baseValidateServiceArg_fields rest
end

/-- Go `func validateMethodArg(argType reflect.Type) error`. -/
def validateMethodArg (argType : RType) : Option GoError :=
  if isSpecialStarArgType argType || argType.same contextRType then none
  else baseValidateServiceArg argType

/-! ## Notions used to state the properties of the service layer -/

/-- The number `mant * 2 ^ exp` is an integer in the range of the kind `k`: it
has no fractional part and does not lie outside the range. -/
def representable (k : Kind) (mant exp : Int) : Bool :=
  (decide (0 ≤ exp) || decide (mant % 2 ^ (-exp).toNat = 0)) && inRange k (truncFloat mant exp)

/-- The number of parameters, counted from index `idx`, that a method declares
apart from the leading context and any `UIContext` parameter. -/
def declaredArgs : List RType → Nat → Nat
  | [], _ => 0
  | argType :: rest, idx =>
    (if (idx = 0 ∧ argType.same contextRType = true) ∨ argType.same uiContextRType = true
      then 0 else 1) + declaredArgs rest (idx + 1)

/-- Relation `Contains t u`: the type `u` occurs in `t`, at any depth inside
pointers, slices, arrays, map values and struct fields, the fields of
`StarObjUpdate` left aside. -/
inductive Contains : RType → RType → Prop where
  | here (t : RType) : Contains t t
  | ptr (elem u : RType) : Contains elem u → Contains (.ptr elem) u
  | slice (elem u : RType) : Contains elem u → Contains (.slice elem) u
  | array (n : Nat) (elem u : RType) : Contains elem u → Contains (.array n elem) u
  | mapValue (key elem u : RType) : Contains elem u → Contains (.map key elem) u
  | field (name : String) (fields : List RType) (f u : RType) :
      name ≠ "starobj.StarObjUpdate" → f ∈ fields → Contains f u →
      Contains (.struct name fields) u

/-- A channel, function or interface type. -/
def isChanFuncInterface (t : RType) : Bool :=
  match t.Kind with
  | .Chan | .Func | .Interface => true
  | _ => false

end service


namespace starobj

/-! ## Metadata of an entity and the updates of a request -/

/-- Go `func GetMeta(starObj StarObj) MetaMapType` (every entity type is
registered); a nil map reads as the empty map. -/
def GetMeta : StarObj → MetaMapType
  | .Tab t => t.Meta
  | .Block b => b.Meta
  | .LayoutState l => l.Meta

/-- Go `func SetMeta(starObj StarObj, meta map[string]any)`; the object is
mutated in place in the source and returned here. -/
def SetMeta : StarObj → MetaMapType → StarObj
  | .Tab t, meta => .Tab { t with Meta := meta }
  | .Block b, meta => .Block { b with Meta := meta }
  | .LayoutState l, meta => .LayoutState { l with Meta := meta }

/-- Go `MetaKey_View`, the key of the view of a block ("namespace-prefixed keys
(`view`, `cmd:cwd`, ...)"). -/
def MetaKey_View : String := "view"

/-- Modelled from the spec: `MetaMapType.GetString(key, def)`, the value under
the key when it is there and is not nil, and `def` otherwise. -/
def MetaMapType.GetString (m : MetaMapType) (key : String) (dflt : String) : String :=
  match m.lookup key with
  | some (some s) => s
  | _ => dflt

/-- Modelled from the spec: `ContextWithUpdates`, the context gets an update
buffer of its own, empty at first. -/
def ContextWithUpdates : List UpdateFrame := [[]]

/-- Modelled from the spec: `ContextGetUpdatesRtn`, "on commit the buffer is
handed to the caller": the records collected in the buffer of the context. -/
def ContextGetUpdatesRtn (stack : List UpdateFrame) : List StarObjUpdate :=
  match stack with
  | [] => []
  | top :: _ => top

end starobj

namespace wstore

open starobj

/-! ## Metadata updates and selections (`pkg/wstore/wstore.go`, `pkg/wstore/wstore_dbops.go`)

`starobj.MergeMeta` (`pkg/starobj/metamap.go`) is not among the sources; the
functions that call it take it as the parameter `MergeMeta`. -/

/-- The function literal that `UpdateObjectMeta` runs in its transaction. -/
def UpdateObjectMeta_fn (MergeMeta : MetaMapType → MetaMapType → Bool → MetaMapType)
    (oref : ORef) (meta : MetaMapType) (mergeSpecial : Bool) (s0 : State) :
    (Unit × Option GoError) × State :=
  if oref.IsEmpty then (((), some (.errorf "empty object reference" [])), s0)
  else
    let r := DBGetORef true s0 oref
    match r.1.1 with
    | none => (((), some ErrNotFound), r.2)
    | some obj =>
      let objMeta := GetMeta obj
      let newMeta := MergeMeta objMeta meta mergeSpecial
      let obj1 := SetMeta obj newMeta
      let s1 := (DBUpdate true r.2 obj1).2
      (((), none), s1)

/-- Go `func UpdateObjectMeta(ctx, oref starobj.ORef, meta starobj.MetaMapType,
mergeSpecial bool) error`. -/
def UpdateObjectMeta (MergeMeta : MetaMapType → MetaMapType → Bool → MetaMapType)
    (inTx : Bool) (st : State) (oref : ORef) (meta : MetaMapType) (mergeSpecial : Bool) :
    Option GoError × State :=
  let r := WithTx inTx st () (UpdateObjectMeta_fn MergeMeta oref meta mergeSpecial)
  (r.1.2, r.2)

/-- Call `tx.Select(&rows, "SELECT oid, version, data FROM db_<otype> WHERE oid IN
(SELECT value FROM json_each(?))", oids)`: the rows of the table with one of the
ids; nothing is run once the transaction has an error. -/
def txSelectOIDs (st : State) (otype : String) (oids : List String) : List Row :=
  match st.txErr with
  | some _ => []
  | none => st.db.filter (fun r => GetOType r.data == otype && oids.contains (GetOID r.data))

/-- Go `func dbSelectOIDs(ctx, otype string, oids []string) ([]starobj.StarObj, error)`. -/
def dbSelectOIDs (inTx : Bool) (st : State) (otype : String) (oids : List String) :
    (List StarObj × Option GoError) × State :=
  WithTxRtn inTx st [] (fun s =>
    (((txSelectOIDs s otype oids).map (fun row => SetVersion row.data row.version), none), s))

/-- Statement `oidsByType[otype] = append(oidsByType[otype], oid)` of
`DBSelectORefs`; a type without an entry gets one at the end. -/
def oidsByType_add : List (String × List String) → String → String → List (String × List String)
  | [], otype, oid => [(otype, [oid])]
  | (t, oids) :: rest, otype, oid =>
    if t = otype then (t, oids ++ [oid]) :: rest else (t, oids) :: oidsByType_add rest otype oid

/-- The first loop of `DBSelectORefs`: the ids of the references by type. -/
def oidsByType (orefs : List ORef) : List (String × List String) :=
  orefs.foldl (fun m oref => oidsByType_add m oref.OType oref.OID) []

/-- The loop of `DBSelectORefs` over the types, inside its transaction. -/
def DBSelectORefs_loop : List (String × List String) → State → List StarObj →
    (List StarObj × Option GoError) × State
  | [], s, rtn => ((rtn, none), s)
  | (otype, oids) :: rest, s, rtn =>
    let r := dbSelectOIDs true s otype oids
    match r.1.2 with
    | some err => (([], some err), r.2)
    | none => DBSelectORefs_loop rest r.2 (rtn ++ r.1.1)

/-- Go `func DBSelectORefs(ctx, orefs []starobj.ORef) ([]starobj.StarObj, error)`. -/
def DBSelectORefs (inTx : Bool) (st : State) (orefs : List ORef) :
    (List StarObj × Option GoError) × State :=
  WithTxRtn inTx st [] (fun s => DBSelectORefs_loop (oidsByType orefs) s [])

/-! ### `DBResolveEasyOID` -/

/-- An ASCII letter in lower case, any other character as it is. -/
def asciiLower (c : Char) : Char :=
  if 'A' ≤ c ∧ c ≤ 'Z' then Char.ofNat (c.toNat + 32) else c

/-- The operator `text LIKE pattern` of SQLite without an escape character: a
percent sign in the pattern stands for any sequence of characters, an underscore
for any one character, and any other character for itself, upper and lower case
of the ASCII letters being the same. -/
def sqlLike : List Char → List Char → Bool
  | [], text => text.isEmpty
  | p :: ps, text =>
    if p = '%' then text.tails.any (fun rest => sqlLike ps rest)
    else
      match text with
      | [] => false
      | c :: cs => (p = '_' || asciiLower p == asciiLower c) && sqlLike ps cs

/-- Call `tx.GetString("SELECT oid FROM db_<otype> WHERE oid LIKE ?", pattern)`:
the id of the first row of the table that matches, the empty string when there
is none or the transaction has an error. -/
def txGetOidLike (st : State) (otype pattern : String) : String :=
  match st.txErr with
  | some _ => ""
  | none =>
    match st.db.find? (fun r => GetOType r.data == otype && sqlLike pattern.data (GetOID r.data).data) with
    | some r => GetOID r.data
    | none => ""

/-- Call `tx.GetString("SELECT oid FROM db_<otype> WHERE oid = ?", oid)`. -/
def txGetOidEq (st : State) (otype oid : String) : String :=
  match st.txErr with
  | some _ => ""
  | none =>
    match st.db.get otype oid with
    | some r => GetOID r.data
    | none => ""

/-- Modelled from the spec: `starobj.AllStarObjTypes()`, by the type tags of the
registered types ("scans all type tables"); the order is that of the data model. -/
def AllStarObjTypes : List String := ["client", "window", "workspace", "tab", "layout", "block"]

/-- The loop of `DBResolveEasyOID` over the types that are left. -/
def DBResolveEasyOID_loop (s : State) (oid : String) : List String → Option ORef × Option GoError
  | [] => (none, some ErrNotFound)
  | otype :: rest =>
    let fullOID :=
      if (goBytes oid).length = 8 then txGetOidLike s otype (oid ++ "%")
      else txGetOidEq s otype oid
    if fullOID ≠ "" then (some (MakeORef otype fullOID), none)
    else DBResolveEasyOID_loop s oid rest

/-- Go `func DBResolveEasyOID(ctx, oid string) (*starobj.ORef, error)`. -/
def DBResolveEasyOID (inTx : Bool) (st : State) (oid : String) :
    (Option ORef × Option GoError) × State :=
  WithTxRtn inTx st none (fun s => (DBResolveEasyOID_loop s oid AllStarObjTypes, s))

/-- The input holds a percent sign or an underscore. -/
def hasWildcard (oid : String) : Bool :=
  oid.data.any (fun c => c = '%' || c = '_')

/-- The id begins with the input, upper and lower case of the ASCII letters
being the same. -/
def beginsWithFold (oid id : String) : Bool :=
  (oid.data.map asciiLower).isPrefixOf (id.data.map asciiLower)

/-- The test that `DBResolveEasyOID` puts to the ids of a table: the `LIKE`
pattern for an input of 8 bytes, equality for any other input. -/
def easyMatch (oid id : String) : Bool :=
  if (goBytes oid).length = 8 then sqlLike (oid ++ "%").data id.data else decide (id = oid)

/-- A context made from `context.Background()`: no transaction and no update
buffer. -/
def background (db : DB) : State := { db := db, txErr := none, updates := [] }

/-- Go `DBGet[*starobj.LayoutState](ctx, id)`. -/
def DBGet_LayoutState (inTx : Bool) (st : State) (id : String) :
    (Option LayoutState × Option GoError) × State :=
  let r := DBGetORef inTx st { OType := OType_LayoutState, OID := id }
  match r.1.2 with
  | some err => ((none, some err), r.2)
  | none =>
    match r.1.1 with
    | some (.LayoutState l) => ((some l, none), r.2)
    | _ => ((none, none), r.2)

end wstore

namespace objectservice

open starobj wstore

/-! ## The object service (`pkg/service/objectservice/objectservice.go`)

A method of the service makes its context from `context.Background()`: it takes
the database and returns it next to its results. -/

/-- Go `func parseORef(oref string) (*starobj.ORef, error)`. -/
def parseORef (oref : String) : Option ORef × Option GoError :=
  match stringsSplitColon oref with
  | [f0, f1] => (some { OType := f0, OID := f1 }, none)
  | _ => (none, some (.errorf "invalid object reference: %q" [oref]))

/-- Go `func (svc *ObjectService) GetObject(orefStr string) (starobj.StarObj, error)`. -/
def GetObject (db : DB) (orefStr : String) : (Option StarObj × Option GoError) × DB :=
  match parseORef orefStr with
  | (some oref, none) =>
    let r := DBGetORef false (background db) oref
    match r.1.2 with
    | some err => ((none, some (.wrap "error getting object: %w" err)), r.2.db)
    | none => ((r.1.1, none), r.2.db)
  | (_, err) => ((none, err), db)

/-- The loop of `GetObjects` over the reference strings; `orefArr` holds the
references parsed so far. -/
def GetObjects_parse : List String → List ORef → List ORef × Option GoError
  | [], orefArr => (orefArr, none)
  | orefStr :: rest, orefArr =>
    match parseORef orefStr with
    | (some orefObj, none) => GetObjects_parse rest (orefArr ++ [orefObj])
    | (_, err) => ([], err)

/-- Go `func (svc *ObjectService) GetObjects(orefStrArr []string) ([]starobj.StarObj, error)`. -/
def GetObjects (db : DB) (orefStrArr : List String) : (List StarObj × Option GoError) × DB :=
  let p := GetObjects_parse orefStrArr []
  match p.2 with
  | some err => (([], some err), db)
  | none =>
    let r := DBSelectORefs false (background db) p.1
    (r.1, r.2.db)

/-- Go `func (svc *ObjectService) UpdateObjectMeta(uiContext starobj.UIContext,
orefStr string, meta starobj.MetaMapType) (starobj.UpdatesRtnType, error)`. -/
def UpdateObjectMeta (MergeMeta : MetaMapType → MetaMapType → Bool → MetaMapType)
    (db : DB) (orefStr : String) (meta : MetaMapType) :
    (List StarObjUpdate × Option GoError) × DB :=
  let ctx : State := { background db with updates := ContextWithUpdates }
  match parseORef orefStr with
  | (some oref, none) =>
    let r := wstore.UpdateObjectMeta MergeMeta false ctx oref meta false
    match r.1 with
    | some err => (([], some (.wrap "error updating %q meta: %w" err)), r.2.db)
    | none => ((ContextGetUpdatesRtn r.2.updates, none), r.2.db)
  | (_, some err) => (([], some (.wrap "error parsing object reference: %w" err)), db)
  | (_, none) => (([], none), db)

end objectservice


namespace score

open starobj wstore

/-! ## Creating a block (`pkg/score/block.go`) -/

/-- What `CreateBlock` uses of the file store `filestore.WFS`: `MakeFile(ctx,
zoneId, name, meta, opts)` and `WriteFile(ctx, zoneId, name, data)`, each with
the error it returns.  The file store is apart from the object store. -/
structure FileStore where
  MakeFile : String → String → MetaMapType → Option GoError
  WriteFile : String → String → String → Option GoError

/-- The loop of `CreateBlock` that uploads the files of the block definition. -/
def CreateBlock_files (fs : FileStore) (newBlockOID : String) :
    List (String × FileDef) → Option GoError
  | [] => none
  | (fileName, fileDef) :: rest =>
    match fs.MakeFile newBlockOID fileName fileDef.Meta with
    | some err => some (.wrap "error making blockfile %q: %w" err)
    | none =>
      match fs.WriteFile newBlockOID fileName fileDef.Content with
      | some err => some (.wrap "error writing blockfile %q: %w" err)
      | none => CreateBlock_files fs newBlockOID rest

/-- Go `func CreateBlock(ctx, tabId string, blockDef *starobj.BlockDef, rtOpts
*starobj.RuntimeOpts) (rtnBlock *starobj.Block, rtnErr error)`.  `blockId` is the
value of `uuid.NewString()`.  The deferred function runs when an error is
returned after the block was created: it calls `deleteBlockObj` and drops the
zone of the block in the file store.  The telemetry goroutine does not touch the
object store. -/
def CreateBlock (fs : FileStore) (inTx : Bool) (st : State) (tabId : String)
    (blockDef : Option BlockDef) (rtOpts : Option RuntimeOpts) (blockId : String) :
    (Option Block × Option GoError) × State :=
  match blockDef with
  | none => ((none, some (.errorf "blockDef is nil" [])), st)
  | some bd =>
    if bd.Meta.GetString MetaKey_View "" = "" then
      ((none, some (.errorf "no view provided for new block" [])), st)
    else
      let r := createBlockObj inTx st tabId bd rtOpts blockId
      match r.1.2, r.1.1 with
      | some err, _ => ((none, some (.wrap "error creating block: %w" err)), r.2)
      | none, none => ((none, none), r.2)
      | none, some blockData =>
        match CreateBlock_files fs blockData.OID bd.Files with
        | some err =>
          if blockData.OID ≠ "" then ((none, some err), (deleteBlockObj inTx r.2 blockData.OID).2)
          else ((none, some err), r.2)
        | none => ((some blockData, none), r.2)

/-! ## Deleting a block (`pkg/score/block.go`) -/

/-- Go `DBMustGet[*starobj.Block](ctx, id)`: as `DBGet`, with `ErrNotFound` when
there is no row. -/
def DBMustGet_Block (inTx : Bool) (st : State) (id : String) :
    (Option Block × Option GoError) × State :=
  let r := DBGetORef inTx st { OType := OType_Block, OID := id }
  match r.1.2 with
  | some err => ((none, some err), r.2)
  | none =>
    match r.1.1 with
    | some (.Block b) => ((some b, none), r.2)
    | _ => ((none, some ErrNotFound), r.2)

/-- What `DeleteBlock` uses of tabs and workspaces, which the store modelled
here does not hold: `wstore.DBFindWorkspaceForTabId(ctx, tabId)` and
`DeleteTab(ctx, workspaceId, tabId, recursive)` (`DeleteTab` and
`SendActiveTabUpdate` are not among the sources). -/
structure TabOps where
  DBFindWorkspaceForTabId : State → String → (String × Option GoError) × State
  DeleteTab : State → String → String → Bool → (String × Option GoError) × State

/-- The result of a run of `DeleteBlock`: the error returned, the state, and
the ids of the blocks whose close event was sent (and whose controller is
stopped), in order. -/
abbrev DeleteBlockResult := (Option GoError × State) × List String

/-- The loop of `DeleteBlock` over the sub-blocks; `del` is the recursive call
`DeleteBlock(ctx, subBlockId, recursive)`. -/
def DeleteBlock_subs (del : State → List String → String → Option (Option DeleteBlockResult)) :
    List String → State → List String → Option (Option DeleteBlockResult)
  | [], s, closed => some (some ((none, s), closed))
  | subBlockId :: rest, s, closed =>
    match del s closed subBlockId with
    | none => none
    | some none => some none
    | some (some ((some err, s1), closed1)) =>
      some (some ((some (.wrap "error deleting subblock %s: %w" err), s1), closed1))
    | some (some ((none, s1), closed1)) => DeleteBlock_subs del rest s1 closed1

/-- The end of `DeleteBlock`, after `deleteBlockObj`: `parentORef` is the result
of `ParseORefNoErr(block.ParentORef)`, a nil pointer when the reference does not
parse; `parentORef.OType` is read only when `recursive` holds.  The inner
`none` is a nil dereference. -/
def DeleteBlock_parent (ops : TabOps) (s : State) (closed : List String) (blockId : String)
    (recursive : Bool) (parentORef : Option ORef) (parentBlockCount : Int) :
    Option DeleteBlockResult :=
  if recursive then
    match parentORef with
    | none => none
    | some oref =>
      if oref.OType = OType_Tab ∧ parentBlockCount = 0 then
        let rw := ops.DBFindWorkspaceForTabId s oref.OID
        match rw.1.2 with
        | some err =>
          some ((some (.wrap "error finding workspace for tab to delete %s: %w" err), rw.2), closed)
        | none =>
          let rd := ops.DeleteTab rw.2 rw.1.1 oref.OID true
          match rd.1.2 with
          | some err => some ((some (.wrap "error deleting tab %s: %w" err), rd.2), closed)
          | none => some ((none, rd.2), closed ++ [blockId])
      else some ((none, s), closed ++ [blockId])
  else some ((none, s), closed ++ [blockId])

/-- Go `func DeleteBlock(ctx, blockId string, recursive bool) error`.  `fuel`
bounds the depth of the recursion into sub-blocks; the outer `none` is a run
that the fuel does not cover, the inner `none` a nil dereference. -/
def DeleteBlock (ops : TabOps) (inTx : Bool) (recursive : Bool) :
    Nat → State → List String → String → Option (Option DeleteBlockResult)
  | 0, _, _, _ => none
  | fuel + 1, st, closed, blockId =>
    let rb := DBMustGet_Block inTx st blockId
    match rb.1.2, rb.1.1 with
    | some err, _ => some (some ((some (.wrap "error getting block: %w" err), rb.2), closed))
    | none, none => some (some ((none, rb.2), closed))
    | none, some block =>
      match DeleteBlock_subs (fun s c id => DeleteBlock ops inTx recursive fuel s c id)
          block.SubBlockIds rb.2 closed with
      | none => none
      | some none => some none
      | some (some ((some err, s1), closed1)) => some (some ((some err, s1), closed1))
      | some (some ((none, s1), closed1)) =>
        let rd := deleteBlockObj inTx s1 blockId
        match rd.1.2 with
        | some err => some (some ((some (.wrap "error deleting block: %w" err), rd.2), closed1))
        | none =>
          some (DeleteBlock_parent ops rd.2 closed1 blockId recursive
            (ParseORefNoErr block.ParentORef) rd.1.1)

end score

namespace wcore

open starobj wstore

/-! ## Layout actions (`pkg/wcore/layout.go`)

A function that dereferences a nil pointer has no result (`none`). -/

/-- Go `LayoutActionDataType_Insert`. -/
def LayoutActionDataType_Insert : String := "insert"

/-- Go `LayoutActionDataType_Replace`. -/
def LayoutActionDataType_Replace : String := "replace"

/-- Go `LayoutActionDataType_SplitHorizontal`. -/
def LayoutActionDataType_SplitHorizontal : String := "splithorizontal"

/-- Go `LayoutActionDataType_SplitVertical`. -/
def LayoutActionDataType_SplitVertical : String := "splitvertical"

/-- Go `func GetLayoutIdForTab(ctx, tabId string) (string, error)`; `DBGet`
returns a nil tab without an error when the tab has no row, and
`tabObj.LayoutState` is read all the same. -/
def GetLayoutIdForTab (inTx : Bool) (st : State) (tabId : String) :
    Option ((String × Option GoError) × State) :=
  let r := DBGet_Tab inTx st tabId
  match r.1.2, r.1.1 with
  | some err, _ =>
    some (("", some (.wrap "unable to get layout id for given tab id %s: %w" err)), r.2)
  | none, none => none
  | none, some tabObj => some ((tabObj.LayoutState, none), r.2)

/-- Go `func QueueLayoutAction(ctx, layoutStateId string, actions
...starobj.LayoutActionData) error`. -/
def QueueLayoutAction (inTx : Bool) (st : State) (layoutStateId : String)
    (actions : List LayoutActionData) : Option (Option GoError × State) :=
  let r := DBGet_LayoutState inTx st layoutStateId
  match r.1.2, r.1.1 with
  | some err, _ =>
    some (some (.wrap "unable to get layout state for given id %s: %w" err), r.2)
  | none, none => none
  | none, some layoutStateObj =>
    let pending : List LayoutActionData :=
      match layoutStateObj.PendingBackendActions with
      | none => actions
      | some old => old ++ actions
    let u := DBUpdate inTx r.2
      (.LayoutState { layoutStateObj with PendingBackendActions := some pending })
    match u.1.2 with
    | some err => some (some (.wrap "unable to update layout state with new actions: %w" err), u.2)
    | none => some (none, u.2)

/-- Go `func QueueLayoutActionForTab(ctx, tabId string, actions
...starobj.LayoutActionData) error`. -/
def QueueLayoutActionForTab (inTx : Bool) (st : State) (tabId : String)
    (actions : List LayoutActionData) : Option (Option GoError × State) :=
  match GetLayoutIdForTab inTx st tabId with
  | none => none
  | some r =>
    match r.1.2 with
    | some err => some (some err, r.2)
    | none => QueueLayoutAction inTx r.2 r.1.1 actions

end wcore

namespace wps

open starobj

/-! ## Events

`pkg/wps` is not among the sources.  The broker is the list of the events
published so far. -/

/-- Go `wps.Event_StarObjUpdate`. -/
def Event_StarObjUpdate : String := "starobj:update"

/-- Modelled from the spec: `StarEvent`, the event shape "{event: string,
sender?: route-id, scopes: [ORef-string], data: any}", for the events that carry
an update record. -/
structure StarEvent where
  Event : String
  Scopes : List String
  Data : StarObjUpdate
  deriving DecidableEq, Repr

/-- Modelled from the spec: `Broker.Publish(event)`; the event joins the events
published. -/
def Publish (events : List StarEvent) (event : StarEvent) : List StarEvent :=
  events ++ [event]

/-- Modelled from the spec: `Broker.SendUpdateEvents(updates)`, which "converts
object-store update records into `starobj:update` events and publishes each,
scoped to the record's ORef". -/
def SendUpdateEvents (events : List StarEvent) (updates : List StarObjUpdate) : List StarEvent :=
  updates.foldl (fun evs u =>
    Publish evs
      { Event := Event_StarObjUpdate, Scopes := [(MakeORef u.OType u.OID).String], Data := u })
    events

end wps

namespace wshserver

open starobj wstore wps

/-! ## Commands of the RPC server (`pkg/wshrpc/wshserver/wshserver.go`)

A command takes the state of its context and the events published so far, and
returns both next to its results.  A command that runs into a nil dereference
has no result (`none`). -/

/-- Modelled from the spec: `wshrpc.CommandSetMetaData`, the argument of
`SetMetaCommand` (`pkg/wshrpc` declares it; the fields read are `ORef` and
`Meta`). -/
structure CommandSetMetaData where
  ORef : ORef
  Meta : MetaMapType

/-- Go `func sendStarObjUpdate(oref starobj.ORef)`; `none` when `DBGetORef`
returns a nil object, on which `starObj.GetOType()` is called. -/
def sendStarObjUpdate (db : DB) (events : List StarEvent) (oref : ORef) :
    Option (List StarEvent) :=
  let r := DBGetORef false (background db) oref
  match r.1.2 with
  | some _ => some events
  | none =>
    match r.1.1 with
    | none => none
    | some starObj =>
      some (Publish events
        { Event := Event_StarObjUpdate, Scopes := [oref.String],
          Data := { UpdateType := UpdateType_Update, OType := GetOType starObj,
                    OID := GetOID starObj, Obj := some starObj } })

/-- Go `func (ws *WshServer) SetMetaCommand(ctx, data wshrpc.CommandSetMetaData) error`. -/
def SetMetaCommand (MergeMeta : MetaMapType → MetaMapType → Bool → MetaMapType)
    (st : State) (events : List StarEvent) (data : CommandSetMetaData) :
    Option ((Option GoError × State) × List StarEvent) :=
  let oref := data.ORef
  let r := wstore.UpdateObjectMeta MergeMeta false st oref data.Meta false
  match r.1 with
  | some err => some ((some (.wrap "error updating object meta: %w" err), r.2), events)
  | none =>
    match sendStarObjUpdate r.2.db events oref with
    | none => none
    | some events1 => some ((none, r.2), events1)

/-! ### The producer of `StreamTestCommand`

The goroutine started by `StreamTestCommand` is a step function: it stands at a
statement and moves on when the consumer receives from the channel or when the
sleep is over.  The context of the call is an input that the goroutine has no
statement for. -/

/-- The statement at which the goroutine of `StreamTestCommand` stands: the send
`rtn <- ...{Response: i}`, which waits for the consumer; the `time.Sleep` after
that send; the end, after `close(rtn)`. -/
inductive StreamTestPc where
  | send (i : Nat)
  | sleep (i : Nat)
  | done
  deriving DecidableEq, Repr

/-- What happens around the goroutine: the consumer receives from the channel,
the sleep is over, the context of the call is cancelled. -/
inductive StreamTestInput where
  | receive
  | wake
  | cancel
  deriving DecidableEq, Repr

/-- What the goroutine does to its channel: a chunk is handed over, the channel
is closed. -/
inductive StreamTestOutput where
  | chunk (v : Nat)
  | close
  deriving DecidableEq, Repr

/-- One step of the goroutine of `StreamTestCommand`, the loop `for i := 1; i <=
5; i++ { rtn <- ...{Response: i}; time.Sleep(1 * time.Second) }` followed by
`close(rtn)`. -/
def StreamTestCommand_step (pc : StreamTestPc) (input : StreamTestInput) :
    StreamTestPc × List StreamTestOutput :=
  match pc, input with
  | .send i, .receive => (.sleep i, [.chunk i])
  | .sleep i, .wake => if i + 1 ≤ 5 then (.send (i + 1), []) else (.done, [.close])
  | _, _ => (pc, [])

/-- The goroutine run from a statement on a sequence of inputs: what it does to
its channel, in order. -/
def StreamTestCommand_run : StreamTestPc → List StreamTestInput → List StreamTestOutput
  | _, [] => []
  | pc, input :: rest =>
    (StreamTestCommand_step pc input).2 ++ StreamTestCommand_run (StreamTestCommand_step pc input).1 rest

/-- Go `func (ws *WshServer) StreamTestCommand(ctx) chan
wshrpc.RespOrErrorUnion[int]`: the goroutine starts at the first send. -/
def StreamTestCommand (inputs : List StreamTestInput) : List StreamTestOutput :=
  StreamTestCommand_run (.send 1) inputs

/-- What the goroutine has still to do to its channel from a statement on. -/
def StreamTest_rest : StreamTestPc → List StreamTestOutput
  | .send i => ((List.range (6 - i)).map (fun k => StreamTestOutput.chunk (i + k))) ++ [.close]
  | .sleep i => ((List.range (5 - i)).map (fun k => StreamTestOutput.chunk (i + 1 + k))) ++ [.close]
  | .done => []

/-- The statements that the goroutine reaches. -/
def StreamTest_reached : StreamTestPc → Bool
  | .send i => decide (1 ≤ i) && decide (i ≤ 5)
  | .sleep i => decide (1 ≤ i) && decide (i ≤ 5)
  | .done => true

/-- Modelled from the spec: `wshrpc.CommandCreateBlockData`, the argument of
`CreateBlockCommand` (`pkg/wshrpc` declares it), with the fields that the
command reads. -/
structure CommandCreateBlockData where
  TabId : String
  BlockDef : Option BlockDef
  RtOpts : Option RuntimeOpts := none
  Magnified : Bool := false
  Ephemeral : Bool := false
  TargetBlockId : String := ""
  TargetAction : String := ""

/-- The end of `CreateBlockCommand`, from `wcore.QueueLayoutActionForTab` on. -/
def CreateBlockCommand_queue (s : State) (events : List StarEvent) (tabId : String)
    (blockData : Block) (layoutAction : LayoutActionData) :
    Option (((Option ORef × Option GoError) × State) × List StarEvent) :=
  match wcore.QueueLayoutActionForTab false s tabId [layoutAction] with
  | none => none
  | some rq =>
    match rq.1 with
    | some err => some (((none, some (.wrap "error queuing layout action: %w" err)), rq.2), events)
    | none =>
      let updates := ContextGetUpdatesRtn rq.2.updates
      some (((some { OType := OType_Block, OID := blockData.OID }, none), rq.2),
        SendUpdateEvents events updates)

/-- Go `func (ws *WshServer) CreateBlockCommand(ctx, data
wshrpc.CommandCreateBlockData) (*starobj.ORef, error)`.  `pkg/wcore/block.go` is
not among the sources: `wcore.CreateBlock` is taken to be the `CreateBlock` of
`pkg/score/block.go`, and `wcore.DeleteBlock`, which reaches tabs, workspaces
and block controllers, is the parameter `DeleteBlock`.  `blockId` is the value
of `uuid.NewString()`. -/
def CreateBlockCommand (fs : score.FileStore)
    (DeleteBlock : State → String → Bool → Option GoError × State) (blockId : String)
    (st : State) (events : List StarEvent) (data : CommandCreateBlockData) :
    Option (((Option ORef × Option GoError) × State) × List StarEvent) :=
  let ctx : State := { st with updates := ContextWithUpdates }
  let tabId := data.TabId
  let rc := score.CreateBlock fs false ctx tabId data.BlockDef data.RtOpts blockId
  match rc.1.2, rc.1.1 with
  | some err, _ => some (((none, some (.wrap "error creating block: %w" err)), rc.2), events)
  | none, none => none
  | none, some blockData =>
    if data.TargetBlockId ≠ "" then
      if data.TargetAction = "replace" then
        let rd := DeleteBlock rc.2 data.TargetBlockId false
        match rd.1 with
        | some err =>
          some (((none,
            some (.wrap "error deleting block (trying to do block replace): %w" err)), rd.2),
            events)
        | none =>
          CreateBlockCommand_queue rd.2 events tabId blockData
            { ActionType := wcore.LayoutActionDataType_Replace,
              TargetBlockId := data.TargetBlockId, BlockId := blockData.OID, Focused := true }
      else if data.TargetAction = "splitright" then
        CreateBlockCommand_queue rc.2 events tabId blockData
          { ActionType := wcore.LayoutActionDataType_SplitHorizontal, BlockId := blockData.OID,
            TargetBlockId := data.TargetBlockId, Position := "after" }
      else if data.TargetAction = "splitleft" then
        CreateBlockCommand_queue rc.2 events tabId blockData
          { ActionType := wcore.LayoutActionDataType_SplitHorizontal, BlockId := blockData.OID,
            TargetBlockId := data.TargetBlockId, Position := "before" }
      else if data.TargetAction = "splitup" then
        CreateBlockCommand_queue rc.2 events tabId blockData
          { ActionType := wcore.LayoutActionDataType_SplitVertical, BlockId := blockData.OID,
            TargetBlockId := data.TargetBlockId, Position := "before" }
      else if data.TargetAction = "splitdown" then
        CreateBlockCommand_queue rc.2 events tabId blockData
          { ActionType := wcore.LayoutActionDataType_SplitVertical, BlockId := blockData.OID,
            TargetBlockId := data.TargetBlockId, Position := "after" }
      else
        some (((none, some (.errorf "invalid target action: %s" [data.TargetAction])), rc.2),
          events)
    else
      CreateBlockCommand_queue rc.2 events tabId blockData
        { ActionType := wcore.LayoutActionDataType_Insert, BlockId := blockData.OID,
          Magnified := data.Magnified, Ephemeral := data.Ephemeral, Focused := true }

end wshserver


namespace wshserver

open starobj

/-! ### `WshActivityCommand`

`pkg/telemetry` is not among the sources: the command returns what it hands to
`telemetry.GoUpdateActivityWrap` and `telemetry.GoRecordTEventWrap`. -/

/-- Go `wshActivityRe.MatchString(key)` for `wshActivityRe =
regexp.MustCompile("^[a-z:#]+$")`: a non-empty string of ASCII lower-case
letters, colons and number signs. -/
def wshActivityRe_MatchString (s : String) : Bool :=
  !s.data.isEmpty &&
    s.data.all (fun c => (decide ('a' ≤ c) && decide (c ≤ 'z')) || c == ':' || c == '#')

/-- Modelled from the spec: `telemetrydata.TEventProps`, with the two properties
that `WshActivityCommand` sets. -/
structure TEventProps where
  WshCmd : String
  WshHadError : Bool
  deriving DecidableEq, Repr

/-- The body of the loop of `WshActivityCommand` for the entry `(key, value)`;
`delete(data, key)` removes the entry from the map that is being ranged over. -/
def WshActivityCommand_step (acc : List (String × Int) × TEventProps) (e : String × Int) :
    List (String × Int) × TEventProps :=
  let key := e.1
  let value := e.2
  let data1 := if (goBytes key).length > 20 then acc.1.filter (fun x => x.1 != key) else acc.1
  let data2 := if !wshActivityRe_MatchString key then data1.filter (fun x => x.1 != key) else data1
  let data3 := if value ≠ 1 then data2.filter (fun x => x.1 != key) else data2
  if "#error".data.isSuffixOf key.data then (data3, { acc.2 with WshHadError := true })
  else (data3, { acc.2 with WshCmd := key })

/-- Go `func (ws *WshServer) WshActivityCommand(ctx, data map[string]int) error`.
The map is a list of entries with different keys, ranged over in the order of the
list.  The result is `none` when nothing is recorded, and else the `WshCmds` of
the activity update and the `Props` of the `wsh:run` event; the error returned is
nil in every case. -/
def WshActivityCommand (data : List (String × Int)) :
    Option (List (String × Int) × TEventProps) :=
  if data.length = 0 then none
  else some (data.foldl WshActivityCommand_step (data, { WshCmd := "", WshHadError := false }))

end wshserver

namespace sconfig

open starobj

/-! ## Reading a config file (`pkg/sconfig/settingsconfig.go`)

The bytes of a file are a list of numbers.  An index outside a slice makes Go
panic: the function has no result (`none`). -/

/-- A space, tab, line feed or carriage return. -/
def isWSByte (b : Nat) : Bool := b = 32 || b = 9 || b = 10 || b = 13

/-- The loop `for i := n - 1; i >= 0; i--` of `goBackWS`: the index of the last
byte before `n` that is no white space, 0 when there is none. -/
def goBackWS_loop (barr : List Nat) : Nat → Option Int
  | 0 => some 0
  | i + 1 =>
    match barr[i]? with
    | none => none
    | some b => if isWSByte b then goBackWS_loop barr i else some (i : Int)

/-- Go `func goBackWS(barr []byte, offset int) int`. -/
def goBackWS (barr : List Nat) (offset : Int) : Option Int :=
  let offset1 := if offset ≥ (barr.length : Int) then offset - 1 else offset
  goBackWS_loop barr offset1.toNat

/-- Go `barr[offset]`. -/
def byteAt (barr : List Nat) (offset : Int) : Option Nat :=
  if offset < 0 then none else barr[offset.toNat]?

/-- Go `func isTrailingCommaError(barr []byte, offset int) bool`; 125 is the
closing brace, 44 the comma. -/
def isTrailingCommaError (barr : List Nat) (offset : Int) : Option Bool :=
  let offset1 := if offset ≥ (barr.length : Int) then offset - 1 else offset
  match goBackWS barr offset1 with
  | none => none
  | some offset2 =>
    match byteAt barr offset2 with
    | none => none
    | some b =>
      if b = 125 then
        match goBackWS barr offset2 with
        | none => none
        | some offset3 =>
          match byteAt barr offset3 with
          | none => none
          | some c => some (decide (c = 44))
      else some false

/-- Go `type ConfigError struct`. -/
structure ConfigError where
  File : String
  Err : String
  deriving DecidableEq, Repr

/-- What `json.Unmarshal(barr, &rtn)` does: it fills `rtn`, or returns a
`*json.SyntaxError` with its `Offset` and leaves `rtn` nil, or returns another
error. -/
inductive UnmarshalResult where
  | ok (rtn : Option MetaMapType)
  | syntaxError (Offset : Int) (msg : String)
  | otherError (msg : String) (rtn : Option MetaMapType)
  deriving DecidableEq, Repr

/-- What `readConfigHelper` takes from outside the package: the decoder
`json.Unmarshal` and `utilfn.GetLineColFromOffset` (`pkg/util/utilfn` is not
among the sources). -/
structure ReadEnv where
  Unmarshal : List Nat → UnmarshalResult
  GetLineColFromOffset : List Nat → Int → Int × Int

/-- An error of `fs.ReadFile`: its text and whether `os.IsNotExist` holds for it. -/
structure ReadError where
  text : String
  notExist : Bool
  deriving DecidableEq, Repr

/-- Go `func readConfigHelper(fileName string, barr []byte, readErr error)
(starobj.MetaMapType, []ConfigError)`. -/
def readConfigHelper (env : ReadEnv) (fileName : String) (barr : List Nat)
    (readErr : Option ReadError) : Option (Option MetaMapType × List ConfigError) :=
  let cerrs : List ConfigError :=
    match readErr with
    | some e => if !e.notExist then [{ File := fileName, Err := e.text }] else []
    | none => []
  if barr.length = 0 then some (none, cerrs)
  else
    match env.Unmarshal barr with
    | .ok rtn => some (rtn, cerrs)
    | .otherError msg rtn => some (rtn, cerrs ++ [{ File := fileName, Err := msg }])
    | .syntaxError Offset msg =>
      let offset := if Offset > 0 then Offset - 1 else Offset
      let lc := env.GetLineColFromOffset barr offset
      match isTrailingCommaError barr offset with
      | none => none
      | some isTrailingComma =>
        let err : GoError :=
          if isTrailingComma then
            .errorf "json syntax error at line %d, col %d: probably an extra trailing comma: %v"
              [toString lc.1, toString lc.2, msg]
          else
            .errorf "json syntax error at line %d, col %d: %v" [toString lc.1, toString lc.2, msg]
        some (none, cerrs ++ [{ File := fileName, Err := err.Error }])

end sconfig


namespace starbase

/-! ## Environment variables (`pkg/starbase/starbase.go`)

The process environment is a list of pairs of a name and a value, read by first
match. -/

/-- Go `StarConfigHomeEnvVar`. -/
def StarConfigHomeEnvVar : String := "STARTERM_CONFIG_HOME"

/-- Go `StarDataHomeEnvVar`. -/
def StarDataHomeEnvVar : String := "STARTERM_DATA_HOME"

/-- Go `StarAppPathVarName`. -/
def StarAppPathVarName : String := "STARTERM_APP_PATH"

/-- Go `StarDevVarName`. -/
def StarDevVarName : String := "STARTERM_DEV"

/-- Go `StarDevViteVarName`. -/
def StarDevViteVarName : String := "STARTERM_DEV_VITE"

/-- The process environment. -/
abbrev Environ := List (String × String)

/-- Library function `os.LookupEnv(key)`: the value of the variable, `none` when
it is unset. -/
def LookupEnv (env : Environ) (key : String) : Option String :=
  env.lookup key

/-- Library function `os.Getenv(key)`: the value of the variable, empty when it
is unset. -/
def Getenv (env : Environ) (key : String) : String :=
  (LookupEnv env key).getD ""

/-- Library function `os.Unsetenv(key)`. -/
def Unsetenv (env : Environ) (key : String) : Environ :=
  env.filter (fun e => e.1 != key)

/-- The package variables `ConfigHome_VarCache`, `DataHome_VarCache`,
`AppPath_VarCache` and `Dev_VarCache`. -/
structure VarCache where
  ConfigHome_VarCache : String
  DataHome_VarCache : String
  AppPath_VarCache : String
  Dev_VarCache : String
  deriving DecidableEq, Repr

/-- Go `func CacheAndRemoveEnvVars() error`, on the package variables and the
process environment. -/
def CacheAndRemoveEnvVars (cache : VarCache) (env : Environ) :
    Option GoError × VarCache × Environ :=
  let cache1 := { cache with ConfigHome_VarCache := Getenv env StarConfigHomeEnvVar }
  if cache1.ConfigHome_VarCache = "" then
    (some (.errorf (StarConfigHomeEnvVar ++ " not set") []), cache1, env)
  else
    let env1 := Unsetenv env StarConfigHomeEnvVar
    let cache2 := { cache1 with DataHome_VarCache := Getenv env1 StarDataHomeEnvVar }
    if cache2.DataHome_VarCache = "" then
      (some (.errorf "%s not set" [StarDataHomeEnvVar]), cache2, env1)
    else
      let env2 := Unsetenv env1 StarDataHomeEnvVar
      let cache3 := { cache2 with AppPath_VarCache := Getenv env2 StarAppPathVarName }
      let env3 := Unsetenv env2 StarAppPathVarName
      let cache4 := { cache3 with Dev_VarCache := Getenv env3 StarDevVarName }
      let env4 := Unsetenv env3 StarDevVarName
      let env5 := Unsetenv env4 StarDevViteVarName
      (none, cache4, env5)

end starbase


namespace wshcmd

/-! ## The wrapped writer of `wsh` (`cmd/wsh/cmd/wshcmd-root.go`)

A byte is a number; 10 is the line feed, 13 the carriage return.  An
assignment to an index outside the buffer makes Go panic: the function has no
result (`none`). -/

/-- Go `buf[i] = b`. -/
def setByte (buf : List Nat) (i : Nat) (b : Nat) : Option (List Nat) :=
  if i < buf.length then some (buf.set i b) else none

/-- The variables of the second loop of `Write`: the buffer, `writeIdx`, and in
`written` the indices that have been assigned to so far, in order. -/
structure WriteLoop where
  buf : List Nat
  writeIdx : Nat
  written : List Nat
  deriving DecidableEq, Repr

/-- The second loop of `Write`, over the bytes of `p` that are left. -/
def Write_fill : List Nat → WriteLoop → Option WriteLoop
  | [], st => some st
  | b :: rest, st =>
    if b = 10 then
      match setByte st.buf st.writeIdx 13 with
      | none => none
      | some buf1 =>
        match setByte buf1 (st.writeIdx + 1) 10 with
        | none => none
        | some buf2 =>
          Write_fill rest
            { buf := buf2, writeIdx := st.writeIdx + 2,
              written := st.written ++ [st.writeIdx, st.writeIdx + 1] }
    else
      match setByte st.buf st.writeIdx b with
      | none => none
      | some buf1 =>
        Write_fill rest
          { buf := buf1, writeIdx := st.writeIdx + 1, written := st.written ++ [st.writeIdx] }

/-- The first loop of `Write`: the number of line feeds in `p`. -/
def Write_count (p : List Nat) : Nat :=
  p.foldl (fun count b => if b = 10 then count + 1 else count) 0

/-- Go `func (w *WrappedWriter) Write(p []byte) (n int, err error)`: the bytes
handed to `w.dest.Write`, whose results are returned, and the indices of the
buffer that were assigned to (none when `p` itself is handed on). -/
def Write (UsingTermWshMode : Bool) (p : List Nat) : Option (List Nat × List Nat) :=
  if !UsingTermWshMode then some (p, [])
  else
    let count := Write_count p
    if count = 0 then some (p, [])
    else
      let buf := List.replicate (p.length + count) 0
      match Write_fill p { buf := buf, writeIdx := 0, written := [] } with
      | none => none
      | some st => some (st.buf, st.written)

/-- The bytes of `p` with every line feed replaced by a carriage return and a
line feed. -/
def crlf (p : List Nat) : List Nat :=
  p.flatMap (fun b => if b = 10 then [13, 10] else [b])

end wshcmd


namespace filepath

open starobj

/-! ## Paths (`path/filepath` on a system whose separator is the slash) -/

/-- The loop of `filepath.Clean` over the elements of a path: empty elements and
`.` are dropped, `..` takes the element before it away, stays when there is none
to take (or another `..`), and is dropped at the root.  `acc` holds the elements
kept so far, the last one first. -/
def cleanElems (rooted : Bool) : List String → List String → List String
  | [], acc => acc.reverse
  | e :: rest, acc =>
    if e = "" ∨ e = "." then cleanElems rooted rest acc
    else if e = ".." then
      match acc with
      | [] => if rooted then cleanElems rooted rest [] else cleanElems rooted rest [".."]
      | top :: below =>
        if top = ".." then cleanElems rooted rest (".." :: acc)
        else cleanElems rooted rest below
    else cleanElems rooted rest (e :: acc)

/-- Library function `filepath.Clean(path)`: "the shortest path name equivalent
to path by purely lexical processing". -/
def Clean (path : String) : String :=
  if path = "" then "."
  else
    let rooted := path.data.head? = some '/'
    let body := "/".intercalate (cleanElems rooted ((splitChars '/' path.data).map String.mk) [])
    if rooted then "/" ++ body
    else if body = "" then "." else body

/-- Library function `filepath.Join(elem...)`: the elements from the first one
that is not empty on, joined by slashes and cleaned; the empty string when all
are empty. -/
def Join : List String → String
  | [] => ""
  | e :: rest => if e = "" then Join rest else Clean ("/".intercalate (e :: rest))

/-- Library function `filepath.IsAbs(path)`. -/
def IsAbs (path : String) : Bool := path.data.head? = some '/'

/-- Library function `filepath.Abs(path)`; `cwd` is what `os.Getwd()` returns,
`none` when it fails. -/
def Abs (cwd : Option String) (path : String) : String × Option GoError :=
  if IsAbs path then (Clean path, none)
  else
    match cwd with
    | none => ("", some (.errorf "getwd" []))
    | some wd => (Join [wd, path], none)

end filepath

namespace starbase

/-! ## The home directory (`pkg/starbase/starbase.go`) -/

/-- Go `func GetHomeDir() string`; `homeVar` is what `os.UserHomeDir()` returns,
`none` when it fails. -/
def GetHomeDir (homeVar : Option String) : String :=
  match homeVar with
  | none => "/"
  | some home => home

/-- Go `func ExpandHomeDir(pathStr string) (string, error)` where
`runtime.GOOS` is not `windows`. -/
def ExpandHomeDir (homeVar cwd : Option String) (pathStr : String) : String × Option GoError :=
  if pathStr ≠ "~" ∧ !("~/".data.isPrefixOf pathStr.data) then (filepath.Clean pathStr, none)
  else
    let homeDir := GetHomeDir homeVar
    if pathStr = "~" then (homeDir, none)
    else
      let expandedPath := filepath.Clean (filepath.Join [homeDir, String.mk (pathStr.data.drop 2)])
      let r := filepath.Abs cwd (filepath.Join [homeDir, expandedPath])
      if r.2 ≠ none ∨ !(homeDir.data.isPrefixOf r.1.data) then
        ("", some (.errorf "potential path traversal detected for path %s" [pathStr]))
      else (expandedPath, none)

end starbase


namespace sconfig

open starobj

/-! ## Layers of config files (`pkg/sconfig/settingsconfig.go`)

`starobj.MergeMeta` (`pkg/starobj/metamap.go`) is not among the sources; the
functions that can reach it take it as the parameter `MergeMeta`. -/

/-- An entry of a directory (`fs.DirEntry`): its name and whether it is a
directory. -/
structure DirEntry where
  Name : String
  IsDir : Bool
  deriving DecidableEq, Repr

/-- What the config reader uses of a file system (`fs.FS`): `fs.ReadDir`, whose
error is dropped by the caller (an unreadable directory has no entries), and
`fs.ReadFile`. -/
structure ConfigFS where
  ReadDir : String → List DirEntry
  ReadFile : String → List Nat × Option ReadError

/-- Go `func readConfigFileFS(fsys fs.FS, logPrefix string, fileName string)
(starobj.MetaMapType, []ConfigError)`; `filepath.ToSlash` changes nothing where
the separator is the slash. -/
def readConfigFileFS (env : ReadEnv) (fsys : ConfigFS) (logPrefix fileName : String) :
    Option (Option MetaMapType × List ConfigError) :=
  let r := fsys.ReadFile fileName
  let r1 := match r.2 with
    | some _ => fsys.ReadFile fileName
    | none => r
  readConfigHelper env (logPrefix ++ fileName) r1.1 r1.2

/-- Go `func mergeMetaMap(m, toMerge starobj.MetaMapType, simpleMerge bool)
starobj.MetaMapType`. -/
def mergeMetaMap (MergeMeta : Option MetaMapType → Option MetaMapType → Bool → Option MetaMapType)
    (m toMerge : Option MetaMapType) (simpleMerge : Bool) : Option MetaMapType :=
  if simpleMerge then mergeMetaMapSimple m toMerge else MergeMeta m toMerge true

/-- Go `func selectDirEntsBySuffix(dirEnts []fs.DirEntry, fileNameSuffix string)
[]fs.DirEntry`. -/
def selectDirEntsBySuffix (dirEnts : List DirEntry) (fileNameSuffix : String) : List DirEntry :=
  dirEnts.filter (fun ent => !ent.IsDir && fileNameSuffix.data.isSuffixOf ent.Name.data)

/-- Go `a <= b` on strings, by the characters from the left (which for UTF-8
is the order of the bytes). -/
def lexLE : List Char → List Char → Bool
  | [], _ => true
  | _ :: _, [] => false
  | c :: cs, d :: ds => if c < d then true else if d < c then false else lexLE cs ds

/-- The order that `SortFileNameDescend` sorts by: the name of `a` is not
before the name of `b`. -/
def nameGE (a b : DirEntry) : Prop := lexLE b.Name.data a.Name.data = true

instance : DecidableRel nameGE := fun a b => by unfold nameGE; infer_instance

/-- Go `func SortFileNameDescend(files []fs.DirEntry)`: `sort.Slice` with `less`
the names in descending order.  The entries of a directory have different
names, so the sorted order is one only. -/
def SortFileNameDescend (files : List DirEntry) : List DirEntry :=
  files.insertionSort nameGE

/-- The loop of `readConfigFilesForDir` over the entries that are left. -/
def readConfigFilesForDir_loop (env : ReadEnv)
    (MergeMeta : Option MetaMapType → Option MetaMapType → Bool → Option MetaMapType)
    (fsys : ConfigFS) (logPrefix dirName : String) (simpleMerge : Bool) :
    List DirEntry → Option MetaMapType → List ConfigError →
      Option (Option MetaMapType × List ConfigError)
  | [], rtn, errs => some (rtn, errs)
  | ent :: rest, rtn, errs =>
    match readConfigFileFS env fsys logPrefix (filepath.Join [dirName, ent.Name]) with
    | none => none
    | some (fileVal, cerrs) =>
      readConfigFilesForDir_loop env MergeMeta fsys logPrefix dirName simpleMerge rest
        (mergeMetaMap MergeMeta rtn fileVal simpleMerge) (errs ++ cerrs)

/-- Go `func readConfigFilesForDir(fsys fs.FS, logPrefix string, dirName string,
fileName string, simpleMerge bool) (starobj.MetaMapType, []ConfigError)`. -/
def readConfigFilesForDir (env : ReadEnv)
    (MergeMeta : Option MetaMapType → Option MetaMapType → Bool → Option MetaMapType)
    (fsys : ConfigFS) (logPrefix dirName fileName : String) (simpleMerge : Bool) :
    Option (Option MetaMapType × List ConfigError) :=
  let dirEnts := fsys.ReadDir dirName
  let suffixEnts := selectDirEntsBySuffix dirEnts (fileName ++ ".json")
  readConfigFilesForDir_loop env MergeMeta fsys logPrefix dirName simpleMerge
    (SortFileNameDescend suffixEnts) none []

/-- Go `func readConfigPartForFS(fsys fs.FS, logPrefix string, partName string,
simpleMerge bool) (starobj.MetaMapType, []ConfigError)`. -/
def readConfigPartForFS (env : ReadEnv)
    (MergeMeta : Option MetaMapType → Option MetaMapType → Bool → Option MetaMapType)
    (fsys : ConfigFS) (logPrefix partName : String) (simpleMerge : Bool) :
    Option (Option MetaMapType × List ConfigError) :=
  match readConfigFilesForDir env MergeMeta fsys logPrefix partName "" simpleMerge with
  | none => none
  | some (rtn, errs) =>
    match readConfigFileFS env fsys logPrefix (partName ++ ".json") with
    | none => none
    | some (config, errs1) => some (mergeMetaMap MergeMeta rtn config simpleMerge, errs ++ errs1)

/-- Go `func readConfigPart(partName string, simpleMerge bool)
(starobj.MetaMapType, []ConfigError)`; `defaultsFS` is `defaultconfig.ConfigFS`,
`homeFS` the directory `starbase.GetStarConfigDir()`. -/
def readConfigPart (env : ReadEnv)
    (MergeMeta : Option MetaMapType → Option MetaMapType → Bool → Option MetaMapType)
    (defaultsFS homeFS : ConfigFS) (partName : String) (simpleMerge : Bool) :
    Option (Option MetaMapType × List ConfigError) :=
  match readConfigPartForFS env MergeMeta defaultsFS "defaults:" partName simpleMerge with
  | none => none
  | some (defaultConfigs, cerrs) =>
    match readConfigPartForFS env MergeMeta homeFS "" partName simpleMerge with
    | none => none
    | some (homeConfigs, cerrs1) =>
      some (mergeMetaMap MergeMeta defaultConfigs homeConfigs simpleMerge, cerrs ++ cerrs1)

/-! ### Notions used to state the layering -/

/-- Go `m[k]`: the value under the key, nil (`none`) when the key is absent. -/
def valueOf (m : Option MetaMapType) (k : String) : Option String :=
  (lookup m k).join

/-- The map sets the key: the key is present, be it with a nil value. -/
def sets (m : Option MetaMapType) (k : String) : Bool :=
  (lookup m k).isSome

/-- The value that a sequence of maps gives a key, later maps going before
earlier ones: the value in the last map that sets the key, and `start` when no
map sets it. -/
def layered (maps : List (Option MetaMapType)) (start : Option String) (k : String) :
    Option String :=
  maps.foldl (fun cur m => if sets m k then valueOf m k else cur) start

/-- The decoder yields Go maps, whose keys are pairwise different, and the
`Offset` of a syntax error counts bytes of the input that were read. -/
def DecodesMaps (env : ReadEnv) : Prop :=
  ∀ barr : List Nat,
    match env.Unmarshal barr with
    | .ok rtn => keysNodup rtn
    | .otherError _ rtn => keysNodup rtn
    | .syntaxError Offset _ => 0 ≤ Offset ∧ Offset ≤ (barr.length : Int)

/-- The map that a config file is read as (nil when it cannot be read). -/
def fileVal (env : ReadEnv) (fsys : ConfigFS) (logPrefix fileName : String) :
    Option MetaMapType :=
  match readConfigFileFS env fsys logPrefix fileName with
  | some (v, _) => v
  | none => none

/-- The maps of the files `<partName>/*.json`, in the order in which they are
merged: by descending file name. -/
def dirFiles (env : ReadEnv) (fsys : ConfigFS) (logPrefix partName : String) :
    List (Option MetaMapType) :=
  (SortFileNameDescend (selectDirEntsBySuffix (fsys.ReadDir partName) ".json")).map
    (fun ent => fileVal env fsys logPrefix (filepath.Join [partName, ent.Name]))

/-- The maps of the files of a part: those of `<partName>/*.json` followed by
the map of `<partName>.json`. -/
def partFiles (env : ReadEnv) (fsys : ConfigFS) (logPrefix partName : String) :
    List (Option MetaMapType) :=
  dirFiles env fsys logPrefix partName ++ [fileVal env fsys logPrefix (partName ++ ".json")]

end sconfig

/-! ## Portable layouts (`pkg/wcore/layout.go`) -/

namespace starobj

/-- Modelled from the spec: the meta key `controller` of a block ("meta (view,
controller, cwd, connection, ...)"); the constants of `pkg/starobj` are not
among the sources. -/
def MetaKey_Controller : String := "controller"

/-- Modelled from the spec: the meta key `url` of a web block
(`{view:"web", url:"https://example"}`). -/
def MetaKey_Url : String := "url"

/-- Modelled from the spec: the meta key `file` of a preview block, named like
the keys `view` and `url`. -/
def MetaKey_File : String := "file"

end starobj

namespace wcore

open starobj wstore

/-- Go `LayoutActionDataType_InsertAtIndex`. -/
def LayoutActionDataType_InsertAtIndex : String := "insertatindex"

/-- Go `LayoutActionDataType_ClearTree`. -/
def LayoutActionDataType_ClearTree : String := "clear"

/-- An element of Go `type PortableLayout []struct`; `Size` and `BlockDef` are
pointers, `none` being nil. -/
structure PortableLayoutEntry where
  IndexArr : List Int
  Size : Option Nat := none
  BlockDef : Option BlockDef
  Focused : Bool := false
  deriving DecidableEq, Repr

/-- Go `type PortableLayout []struct`. -/
abbrev PortableLayout := List PortableLayoutEntry

/-- Go `func GetStarterLayout() PortableLayout`. -/
def GetStarterLayout : PortableLayout :=
  [ { IndexArr := [0], Focused := true, BlockDef := some { Meta :=
        [(MetaKey_View, some "term"), (MetaKey_Controller, some "shell")] } },
    { IndexArr := [1], BlockDef := some { Meta := [(MetaKey_View, some "sysinfo")] } },
    { IndexArr := [1, 1], BlockDef := some { Meta :=
        [(MetaKey_View, some "web"),
          (MetaKey_Url, some "https://github.com/commandlinedev/starterm")] } },
    { IndexArr := [1, 2], BlockDef := some { Meta :=
        [(MetaKey_View, some "preview"), (MetaKey_File, some "~")] } },
    { IndexArr := [2], BlockDef := some { Meta := [(MetaKey_View, some "tips")] } },
    { IndexArr := [2, 1], BlockDef := some { Meta := [(MetaKey_View, some "help")] } },
    { IndexArr := [2, 2], BlockDef := some { Meta := [(MetaKey_View, some "starai")] } } ]

/-- Go `func GetNewTabLayout() PortableLayout`. -/
def GetNewTabLayout : PortableLayout :=
  [ { IndexArr := [0], Focused := true, BlockDef := some { Meta :=
        [(MetaKey_View, some "term"), (MetaKey_Controller, some "shell")] } } ]

/-- The type of `func CreateBlock(ctx context.Context, tabId string, blockDef
*starobj.BlockDef, rtOpts *starobj.RuntimeOpts) (*starobj.Block, error)` of
`pkg/wcore/block.go`, which is not among the sources: the functions of
`layout.go` that call it take it as the parameter `CreateBlock`. -/
abbrev CreateBlockFn :=
  Bool → State → String → Option BlockDef → Option RuntimeOpts →
    (Option Block × Option GoError) × State

/-- Modelled from the spec: what a call of `CreateBlock` for a tab does when it
returns a block and no error ("create block row", "Response contains ORef
`block:<uuid>`.  Then `GetMeta(block:<uuid>)` returns" the meta of the block
definition.  "Tab's `blockIds` now ends with `<uuid>`").  The block definition
is given and the tab has a row; the id of the block is new; afterwards the tab
lists that id last and is otherwise as before, the id has a row of version 1
with a block of that id whose parent is the tab and whose meta is that of the
definition, and the rows of the other blocks and of the other tables are as
before. -/
def CreateBlockSpec (CreateBlock : CreateBlockFn) : Prop :=
  ∀ (inTx : Bool) (st : State) (tabId : String) (blockDef : Option BlockDef)
    (rtOpts : Option RuntimeOpts) (b : Block) (st1 : State),
    tabId ≠ "" →
    CreateBlock inTx st tabId blockDef rtOpts = ((some b, none), st1) →
    ∃ bd row t row1 t1 blk,
      blockDef = some bd
      ∧ st.db.get OType_Tab tabId = some row ∧ row.data = .Tab t
      ∧ st.db.get OType_Block b.OID = none
      ∧ st1.db.get OType_Tab tabId = some row1 ∧ row1.data = .Tab t1
      ∧ t1.BlockIds = t.BlockIds ++ [b.OID] ∧ t1.LayoutState = t.LayoutState
      ∧ st1.db.get OType_Block b.OID = some { version := 1, data := .Block blk }
      ∧ blk.OID = b.OID ∧ blk.ParentORef = "tab:" ++ tabId ∧ blk.Meta = bd.Meta
      ∧ (∀ id r, st.db.get OType_Block id = some r → st1.db.get OType_Block id = some r)
      ∧ (∀ otype oid, otype ≠ OType_Tab → otype ≠ OType_Block →
          st1.db.get otype oid = st.db.get otype oid)

/-- The loop `for i := 0; i < len(layout); i++` of `ApplyPortableLayout`, from
index `i` on, the list being `layout[i:]` and `actions` the elements
`actions[0 .. i]` assigned so far; `&starobj.RuntimeOpts{}` is the zero value.
The result is the error of the first `CreateBlock` that fails, or the actions;
no result (`none`) stands for reading `blockData.OID` of a nil block. -/
def ApplyPortableLayout_loop (CreateBlock : CreateBlockFn) (inTx : Bool) (tabId : String) :
    PortableLayout → State → List LayoutActionData →
      Option ((Option GoError × List LayoutActionData) × State)
  | [], st, actions => some ((none, actions), st)
  | layoutAction :: rest, st, actions =>
    let rc := CreateBlock inTx st tabId layoutAction.BlockDef
      (some { TermRows := 0, TermCols := 0 })
    match rc.1.2, rc.1.1 with
    | some err, _ =>
      some ((some (.wrap "unable to create block to apply portable layout to tab %s: %w" err),
        actions), rc.2)
    | none, none => none
    | none, some blockData =>
      ApplyPortableLayout_loop CreateBlock inTx tabId rest rc.2
        (actions ++ [{ ActionType := LayoutActionDataType_InsertAtIndex,
                       BlockId := blockData.OID,
                       IndexArr := some layoutAction.IndexArr,
                       NodeSize := layoutAction.Size,
                       Focused := layoutAction.Focused }])

/-- Go `func ApplyPortableLayout(ctx context.Context, tabId string, layout
PortableLayout) error`; `CreateBlock` is the function of that name of
`pkg/wcore/block.go`. -/
def ApplyPortableLayout (CreateBlock : CreateBlockFn) (inTx : Bool) (st : State)
    (tabId : String) (layout : PortableLayout) : Option (Option GoError × State) :=
  match ApplyPortableLayout_loop CreateBlock inTx tabId layout st
      [{ ActionType := LayoutActionDataType_ClearTree }] with
  | none => none
  | some ((some err, _), st1) => some (some err, st1)
  | some ((none, actions), st1) =>
    match QueueLayoutActionForTab inTx st1 tabId actions with
    | none => none
    | some (some err, st2) =>
      some (some (.wrap "unable to queue layout actions for portable layout: %w" err), st2)
    | some (none, st2) => some (none, st2)

end wcore

/-! ## Sample data -/

namespace sample

open starobj wstore

/-- A tab id. -/
def tabId : String := "11111111-1111-1111-1111-111111111111"

/-- A second tab id. -/
def tabId2 : String := "33333333-3333-3333-3333-333333333333"

/-- A block id. -/
def blockId : String := "22222222-2222-2222-2222-222222222222"

/-- A second block id. -/
def blockId2 : String := "44444444-4444-4444-4444-444444444444"

/-- A tab that holds the block `blockId`. -/
def tab : Tab :=
  { OID := tabId, Version := 4, Name := "T", LayoutState := "", BlockIds := [blockId],
    Meta := [] }

/-- An empty tab. -/
def tab2 : Tab :=
  { OID := tabId2, Version := 1, Name := "U", LayoutState := "", BlockIds := [], Meta := [] }

/-- The block `blockId`, a child of `tab`. -/
def block : Block :=
  { OID := blockId, ParentORef := "tab:11111111-1111-1111-1111-111111111111", Version := 2,
    RuntimeOpts := none, Meta := [("view", some "term")], SubBlockIds := [] }

/-- A store with the rows of `tab`, `tab2` and `block`, and an empty update buffer. -/
def state : State :=
  { db := [{ version := 4, data := .Tab tab }, { version := 1, data := .Tab tab2 },
      { version := 2, data := .Block block }]
    txErr := none
    updates := [[]] }

/-- A store without rows. -/
def emptyState : State := { db := [], txErr := none, updates := [[]] }

/-- Two successive contents of `tab` to be written by `DBUpdate`. -/
def tabUpdates : List StarObj :=
  [.Tab { tab with Name := "first" }, .Tab { tab with Name := "second" }]

/-- A block with one sub-block, child of `tab`. -/
def parentBlock : Block :=
  { OID := blockId, ParentORef := "tab:11111111-1111-1111-1111-111111111111", Version := 2,
    RuntimeOpts := none, Meta := [], SubBlockIds := [blockId2] }

/-- The sub-block of `parentBlock`. -/
def subBlock : Block :=
  { OID := blockId2, ParentORef := "block:22222222-2222-2222-2222-222222222222", Version := 1,
    RuntimeOpts := none, Meta := [], SubBlockIds := [] }

/-- A store with `tab`, `parentBlock` and `subBlock`. -/
def nestedState : State :=
  { db := [{ version := 4, data := .Tab tab }, { version := 2, data := .Block parentBlock },
      { version := 1, data := .Block subBlock }]
    txErr := none
    updates := [[]] }

/-- A store in which two different tabs list the block `blockId`. -/
def sharedState : State :=
  { db := [{ version := 4, data := .Tab tab },
      { version := 1, data := .Tab { tab2 with BlockIds := [blockId] } },
      { version := 2, data := .Block block }]
    txErr := none
    updates := [[]] }

/-- A store with one tab, whose id has letters. -/
def hexState : State :=
  { db := [{ version := 1,
             data := .Tab { tab2 with OID := "abcdef12-0000-4000-8000-000000000000" } }]
    txErr := none
    updates := [[]] }

/-- A block without a parent reference. -/
def orphanBlock : Block :=
  { OID := blockId, ParentORef := "", Version := 2, RuntimeOpts := none, Meta := [],
    SubBlockIds := [] }

/-- A store with `tab2` and `orphanBlock`. -/
def orphanState : State :=
  { db := [{ version := 1, data := .Tab tab2 }, { version := 2, data := .Block orphanBlock }]
    txErr := none
    updates := [[]] }

/-- A block definition. -/
def blockDef : BlockDef := { Meta := [("view", some "web"), ("url", some "https://example")] }

/-- Decoders that accept every input and a conversion that gives 0 outside the
range. -/
def ext : service.Extern :=
  { DoMapStructure := fun t j => (.decoded t j, none),
    FromJsonMap := fun kv => (.decoded service.starObjRType (.object kv), none),
    ParseWSCommandMap := fun kv => (.decoded service.wsCommandRType (.object kv), none),
    ToJsonMap := fun v => (v, none),
    outOfRange := fun _ _ _ => 0 }

/-- The bytes of the config file `{"a": 1,}` with a line feed at its end: an
object with a trailing comma. -/
def trailingComma : List Nat := [123, 34, 97, 34, 58, 32, 49, 44, 125, 10]

/-- A decoder that reports a syntax error raised at the closing brace of
`trailingComma`, with the offset just past that byte, and a line and column
function that puts every offset on line 1. -/
def readEnv : sconfig.ReadEnv :=
  { Unmarshal := fun _ => .syntaxError 9 "invalid character",
    GetLineColFromOffset := fun _ offset => (1, offset + 1) }

/-- A file store that takes every file. -/
def fileStore : score.FileStore :=
  { MakeFile := fun _ _ _ => none, WriteFile := fun _ _ _ => none }

/-- A method `Echo(ctx context.Context, s string) string`. -/
def echoMethod : service.Method :=
  { In := [service.contextRType, .basic .String],
    Call := fun args => [(.basic .String, args.getD 1 .nil)] }

/-- A service map with one service `test`, which has the method `Echo`. -/
def serviceMap : service.ServiceMapType := [("test", [("Echo", echoMethod)])]

/-- The bytes of the JSON document `{"k":"1"}`. -/
def jsonK1 : List Nat := [123, 34, 107, 34, 58, 34, 49, 34, 125]

/-- The bytes of the JSON document `{"x":"1"}`. -/
def jsonX1 : List Nat := [123, 34, 120, 34, 58, 34, 49, 34, 125]

/-- The bytes of the JSON document `{"k":null}`. -/
def jsonKNull : List Nat := [123, 34, 107, 34, 58, 110, 117, 108, 108, 125]

/-- A decoder for the three documents above; every other input is reported as a
syntax error at its first byte. -/
def decodeEnv : sconfig.ReadEnv :=
  { Unmarshal := fun barr =>
      if barr = jsonK1 then .ok (some [("k", some "1")])
      else if barr = jsonX1 then .ok (some [("x", some "1")])
      else if barr = jsonKNull then .ok (some [("k", none)])
      else .syntaxError 0 "invalid character",
    GetLineColFromOffset := fun _ offset => (1, offset + 1) }

/-- The error of reading a file that does not exist. -/
def notExistError : sconfig.ReadError := { text := "file does not exist", notExist := true }

/-- Bundled defaults: the one file `widgets.json` with `{"k":"1"}` (the section
`widgets` of `FullConfigType` has no `merge` tag and is read with simple
merge). -/
def defaultsFS : sconfig.ConfigFS :=
  { ReadDir := fun _ => [],
    ReadFile := fun name =>
      if name = "widgets.json" then (jsonK1, none) else ([], some notExistError) }

/-- A user config directory: `widgets/a.json` with `{"x":"1"}` and
`widgets.json` with `{"k":null}`. -/
def homeFS : sconfig.ConfigFS :=
  { ReadDir := fun name =>
      if name = "widgets" then [{ Name := "a.json", IsDir := false }] else [],
    ReadFile := fun name =>
      if name = "widgets/a.json" then (jsonX1, none)
      else if name = "widgets.json" then (jsonKNull, none)
      else ([], some notExistError) }

/-- A user config directory with the single file `widgets.json`, which holds
`{"k":null}`. -/
def homeSingleFS : sconfig.ConfigFS :=
  { ReadDir := fun _ => [],
    ReadFile := fun name =>
      if name = "widgets.json" then (jsonKNull, none) else ([], some notExistError) }

/-- The id of a layout state. -/
def layoutId : String := "55555555-5555-5555-5555-555555555555"

/-- A tab with the block `blockId` and the layout state `layoutId`. -/
def layoutTab : Tab :=
  { OID := tabId, Version := 4, Name := "T", LayoutState := layoutId, BlockIds := [blockId],
    Meta := [] }

/-- The layout state `layoutId`, with one action pending. -/
def layoutState : LayoutState :=
  { OID := layoutId, Version := 3,
    PendingBackendActions := some [{ ActionType := "insert", BlockId := blockId }], Meta := [] }

/-- A store with the rows of `layoutTab`, `block` and `layoutState`. -/
def layoutStore : State :=
  { db := [{ version := 4, data := .Tab layoutTab }, { version := 2, data := .Block block },
      { version := 3, data := .LayoutState layoutState }]
    txErr := none
    updates := [[]] }

/-- Values of `uuid.NewString()`, told apart by the number of rows that the
store holds at the call. -/
def uuids (i : Nat) : String :=
  if i = 3 then "aaaaaaaa-0000-4000-8000-000000000000"
  else if i = 4 then "aaaaaaaa-0000-4000-8000-000000000001"
  else if i = 5 then "aaaaaaaa-0000-4000-8000-000000000002"
  else if i = 6 then "aaaaaaaa-0000-4000-8000-000000000003"
  else if i = 7 then "aaaaaaaa-0000-4000-8000-000000000004"
  else if i = 8 then "aaaaaaaa-0000-4000-8000-000000000005"
  else if i = 9 then "aaaaaaaa-0000-4000-8000-000000000006"
  else "aaaaaaaa-0000-4000-8000-000000000007"

/-- A `CreateBlock` for `ApplyPortableLayout`: the `CreateBlock` of
`pkg/score/block.go` with the file store `fileStore` and the ids `uuids`. -/
def createBlock : wcore.CreateBlockFn :=
  fun inTx st tabId blockDef rtOpts =>
    score.CreateBlock fileStore inTx st tabId blockDef rtOpts (uuids st.db.length)

end sample

/-! # Theorems -/

/-! ## Entities and the update buffer -/

namespace starobj

theorem GetOType_SetVersion (val : StarObj) (n : Int) :
    GetOType (SetVersion val n) = GetOType val := by
  cases val <;> rfl

theorem GetOID_SetVersion (val : StarObj) (n : Int) :
    GetOID (SetVersion val n) = GetOID val := by
  cases val <;> rfl

theorem GetVersion_SetVersion (val : StarObj) (n : Int) :
    GetVersion (SetVersion val n) = n := by
  cases val <;> rfl

end starobj

namespace wstore

open starobj

theorem tab_of_otype (val : StarObj) (h : GetOType val = OType_Tab) :
    ∃ t, val = .Tab t := by
  cases val with
  | Tab t => exact ⟨t, rfl⟩
  | Block b => simp [GetOType, OType_Tab, OType_Block] at h
  | LayoutState l => simp [GetOType, OType_Tab, OType_LayoutState] at h

theorem block_of_otype (val : StarObj) (h : GetOType val = OType_Block) :
    ∃ b, val = .Block b := by
  cases val with
  | Tab t => simp [GetOType, OType_Tab, OType_Block] at h
  | Block b => exact ⟨b, rfl⟩
  | LayoutState l => simp [GetOType, OType_Block, OType_LayoutState] at h

end wstore

namespace starobj

theorem rollback_begin (u : List UpdateFrame) :
    ContextUpdatesRollbackTx (ContextUpdatesBeginTx u) = u := by
  cases u <;> rfl

theorem commit_begin (u : List UpdateFrame) :
    ContextUpdatesCommitTx (ContextUpdatesBeginTx u) = u := by
  cases u <;> rfl

end starobj

namespace wstore

open starobj

theorem mem_put (frame : UpdateFrame) (u : StarObjUpdate) : u ∈ frame.put u := by
  unfold UpdateFrame.put
  split
  · rename_i h
    simp only [List.any_eq_true] at h
    obtain ⟨x, hx, hxu⟩ := h
    simp only [List.mem_map]
    exact ⟨x, hx, by simp [hxu]⟩
  · simp

/-- A transaction that records one update hands exactly that record to the frame
of its caller. -/
theorem commit_add_begin (u : List UpdateFrame) (x : StarObjUpdate) :
    ContextUpdatesCommitTx (ContextAddUpdate (ContextUpdatesBeginTx u) x) =
      ContextAddUpdate u x := by
  cases u with
  | nil => rfl
  | cons top rest =>
    simp [ContextUpdatesBeginTx, ContextAddUpdate, ContextUpdatesCommitTx, UpdateFrame.put]

end wstore

/-! ## Object references (C4, C5) -/

namespace starobj

theorem splitChars_ne_nil (sep : Char) (l : List Char) : splitChars sep l ≠ [] := by
  cases l with
  | nil => simp [splitChars]
  | cons c cs =>
    unfold splitChars
    split
    · simp
    · split <;> simp

theorem splitChars_length (sep : Char) (l : List Char) :
    (splitChars sep l).length = l.count sep + 1 := by
  induction l with
  | nil => simp [splitChars]
  | cons c cs ih =>
    unfold splitChars
    by_cases h : c = sep
    · subst h
      simp [ih]
    · have hne := splitChars_ne_nil sep cs
      rw [if_neg h]
      cases hs : splitChars sep cs with
      | nil => exact absurd hs hne
      | cons f fs =>
        rw [hs] at ih
        simp only [List.length_cons] at ih ⊢
        rw [List.count_cons_of_ne (Ne.symm h)]
        exact ih

theorem splitChars_no_sep (sep : Char) (l : List Char) (h : sep ∉ l) :
    splitChars sep l = [l] := by
  induction l with
  | nil => rfl
  | cons c cs ih =>
    simp only [List.mem_cons, not_or] at h
    unfold splitChars
    rw [if_neg (Ne.symm h.1), ih h.2]

theorem splitChars_append (sep : Char) (a b : List Char) (h : sep ∉ a) :
    splitChars sep (a ++ sep :: b) = a :: splitChars sep b := by
  induction a with
  | nil => simp [splitChars]
  | cons c cs ih =>
    simp only [List.mem_cons, not_or] at h
    simp only [List.cons_append]
    rw [splitChars, if_neg (Ne.symm h.1), ih h.2]

/-- Two fields: the input is the first field, the separator, the second field. -/
theorem splitChars_eq_pair (sep : Char) (l a b : List Char) :
    splitChars sep l = [a, b] ↔ l = a ++ sep :: b ∧ sep ∉ a ∧ sep ∉ b := by
  constructor
  · induction l generalizing a with
    | nil => simp [splitChars]
    | cons c cs ih =>
      intro h
      unfold splitChars at h
      by_cases hc : c = sep
      · subst hc
        rw [if_pos rfl] at h
        simp only [List.cons.injEq] at h
        obtain ⟨ha, hb⟩ := h
        subst ha
        have hcount := splitChars_length c cs
        rw [hb] at hcount
        simp only [List.length_singleton, self_eq_add_left, List.count_eq_zero] at hcount
        have := splitChars_no_sep c cs hcount
        rw [this] at hb
        simp only [List.cons.injEq, and_true] at hb
        subst hb
        simp [hcount]
      · rw [if_neg hc] at h
        cases hs : splitChars sep cs with
        | nil => exact absurd hs (splitChars_ne_nil sep cs)
        | cons f fs =>
          rw [hs] at h
          simp only [List.cons.injEq] at h
          obtain ⟨ha, hb⟩ := h
          subst ha
          subst hb
          obtain ⟨h1, h2, h3⟩ := ih f hs
          refine ⟨by simp [h1], ?_, h3⟩
          simp only [List.mem_cons, not_or]
          exact ⟨Ne.symm hc, h2⟩
  · rintro ⟨rfl, ha, hb⟩
    rw [splitChars_append sep a b ha, splitChars_no_sep sep b hb]

theorem stringsSplitColon_eq_pair (s otype oid : String) :
    stringsSplitColon s = [otype, oid] ↔
      s = otype ++ ":" ++ oid ∧ ':' ∉ otype.data ∧ ':' ∉ oid.data := by
  have hpair := splitChars_eq_pair ':' s.data otype.data oid.data
  constructor
  · intro h
    have h2 : splitChars ':' s.data = [otype.data, oid.data] := by
      have := congrArg (List.map String.data) h
      simpa [stringsSplitColon, List.map_map, Function.comp_def] using this
    obtain ⟨h3, h4, h5⟩ := hpair.mp h2
    refine ⟨?_, h4, h5⟩
    apply String.ext
    simp [h3]
  · rintro ⟨h1, h2, h3⟩
    have h4 : s.data = otype.data ++ ':' :: oid.data := by
      rw [h1]; simp
    have := hpair.mpr ⟨h4, h2, h3⟩
    simp [stringsSplitColon, this]

theorem ValidOTypes_facts (otype : String) (h : ValidOTypes otype = true) :
    otypeRe_MatchString otype = true ∧ otype ≠ "" ∧ ':' ∉ otype.data := by
  simp only [ValidOTypes, Bool.or_eq_true, decide_eq_true_eq] at h
  rcases h with ((((h | h) | h) | h) | h) | h <;> subst h <;> decide

theorem uuidParseOk_ne_empty (oid : String) (h : uuidParseOk oid = true) : oid ≠ "" := by
  rintro rfl
  revert h
  decide

/-- The result of `ParseORef` on a string that splits into the two fields
`otype` and `oid`. -/
theorem ParseORef_of_pair (s otype oid : String) (h : stringsSplitColon s = [otype, oid]) :
    ParseORef s =
      if !otypeRe_MatchString otype then
        (ORef.zero, some (.errorf "invalid object type: %q" [otype]))
      else if !ValidOTypes otype then
        (ORef.zero, some (.errorf "unknown object type: %q" [otype]))
      else if !uuidParseOk oid then
        (ORef.zero, some (.errorf "invalid object id: %q" [oid]))
      else ({ OType := otype, OID := oid }, none) := by
  simp only [ParseORef, h]

/-- The result of `ParseORef` on a string that does not split into two fields. -/
theorem ParseORef_of_not_pair (s : String)
    (h : ∀ otype oid, stringsSplitColon s ≠ [otype, oid]) :
    ParseORef s = (ORef.zero, some (.errorf "invalid object reference: %q" [s])) := by
  unfold ParseORef
  split
  · rename_i otype oid heq
    exact absurd heq (h otype oid)
  · rfl

/-- A reference that `ParseORef` accepts splits into its two fields, a registered
type and a parseable UUID. -/
theorem ParseORef_ok_fields (s : String) (o : ORef) (h : ParseORef s = (o, none)) :
    stringsSplitColon s = [o.OType, o.OID] ∧ ValidOTypes o.OType = true ∧
      uuidParseOk o.OID = true := by
  by_cases hp : ∃ otype oid, stringsSplitColon s = [otype, oid]
  · obtain ⟨otype, oid, hsplit⟩ := hp
    rw [ParseORef_of_pair s otype oid hsplit] at h
    cases h1 : otypeRe_MatchString otype <;> cases h2 : ValidOTypes otype <;>
      cases h3 : uuidParseOk oid <;> simp [h1, h2, h3] at h
    subst h
    exact ⟨hsplit, h2, h3⟩
  · rw [ParseORef_of_not_pair s (fun otype oid h => hp ⟨otype, oid, h⟩)] at h
    simp at h

/-- The formatted reference of a registered type and a parseable UUID without a
colon is parsed back to the two. -/
theorem ParseORef_format (otype oid : String) (hv : ValidOTypes otype = true)
    (hu : uuidParseOk oid = true) (hc : ':' ∉ oid.data) :
    ParseORef (otype ++ ":" ++ oid) = ({ OType := otype, OID := oid }, none) := by
  obtain ⟨hre, -, hcolon⟩ := ValidOTypes_facts otype hv
  have hsplit := (stringsSplitColon_eq_pair (otype ++ ":" ++ oid) otype oid).mpr ⟨rfl, hcolon, hc⟩
  rw [ParseORef_of_pair _ otype oid hsplit]
  simp [hre, hv, hu]

/-- C5.  `ParseORef s` returns no error exactly when `s` splits on `:` into
exactly two fields, the first of which matches `^[a-z]+$` and is a registered
type and the second of which is a parseable UUID; with an error it returns the
zero `ORef`; without one it returns the `ORef` of exactly these two fields.
Splitting into exactly the two fields `otype` and `oid` means that `s` is
`otype`, a colon and `oid`, neither field holding a colon. -/
theorem ParseORef_spec (s : String) :
    ((ParseORef s).2 = none ↔
      ∃ otype oid, stringsSplitColon s = [otype, oid] ∧ otypeRe_MatchString otype = true ∧
        ValidOTypes otype = true ∧ uuidParseOk oid = true) ∧
    ((ParseORef s).2 ≠ none → (ParseORef s).1 = ORef.zero) ∧
    (∀ otype oid, stringsSplitColon s = [otype, oid] → (ParseORef s).2 = none →
      (ParseORef s).1 = { OType := otype, OID := oid }) ∧
    (∀ otype oid, stringsSplitColon s = [otype, oid] ↔
      s = otype ++ ":" ++ oid ∧ ':' ∉ otype.data ∧ ':' ∉ oid.data) := by
  refine ⟨?_, ?_, ?_, fun otype oid => stringsSplitColon_eq_pair s otype oid⟩
  · constructor
    · intro hok
      by_cases hp : ∃ otype oid, stringsSplitColon s = [otype, oid]
      · obtain ⟨otype, oid, hsplit⟩ := hp
        refine ⟨otype, oid, hsplit, ?_⟩
        rw [ParseORef_of_pair s otype oid hsplit] at hok
        cases h1 : otypeRe_MatchString otype <;> cases h2 : ValidOTypes otype <;>
          cases h3 : uuidParseOk oid <;> simp [h1, h2, h3] at hok ⊢
      · rw [ParseORef_of_not_pair s (fun otype oid h => hp ⟨otype, oid, h⟩)] at hok
        simp at hok
    · rintro ⟨otype, oid, hsplit, h1, h2, h3⟩
      rw [ParseORef_of_pair s otype oid hsplit]
      simp [h1, h2, h3]
  · intro herr
    by_cases hp : ∃ otype oid, stringsSplitColon s = [otype, oid]
    · obtain ⟨otype, oid, hsplit⟩ := hp
      rw [ParseORef_of_pair s otype oid hsplit] at herr ⊢
      cases h1 : otypeRe_MatchString otype <;> cases h2 : ValidOTypes otype <;>
        cases h3 : uuidParseOk oid <;> simp [h1, h2, h3] at herr ⊢
    · rw [ParseORef_of_not_pair s (fun otype oid h => hp ⟨otype, oid, h⟩)]
  · intro otype oid hsplit hok
    rw [ParseORef_of_pair s otype oid hsplit] at hok ⊢
    cases h1 : otypeRe_MatchString otype <;> cases h2 : ValidOTypes otype <;>
      cases h3 : uuidParseOk oid <;> simp [h1, h2, h3] at hok ⊢

/-- C5, instance: a reference to the sample tab is accepted, one with an upper-case
type tag is rejected with the zero `ORef`. -/
theorem ParseORef_spec_witness :
    (ParseORef "tab:11111111-1111-1111-1111-111111111111").2 = none ∧
      (ParseORef "Tab:11111111-1111-1111-1111-111111111111").1 = ORef.zero :=
  ⟨(ParseORef_spec "tab:11111111-1111-1111-1111-111111111111").1.mpr
      ⟨"tab", "11111111-1111-1111-1111-111111111111", by decide, by decide, by decide,
        by decide⟩,
    (ParseORef_spec "Tab:11111111-1111-1111-1111-111111111111").2.1 (by decide)⟩

theorem MakeORef_String (otype oid : String) (h1 : otype ≠ "") (h2 : oid ≠ "") :
    (MakeORef otype oid).String = otype ++ ":" ++ oid := by
  simp [MakeORef, ORef.String, h1, h2]

/-- C4 (amended).  For every registered object type `otype` and every `oid` that is
a parseable UUID, `ParseORef(MakeORef(otype, oid).String())` returns
`ORef{OType: otype, OID: oid}` without error exactly when `oid` holds no colon. -/
theorem ParseORef_roundtrip (otype oid : String) (hv : ValidOTypes otype = true)
    (hu : uuidParseOk oid = true) :
    ParseORef (MakeORef otype oid).String = ({ OType := otype, OID := oid }, none) ↔
      ':' ∉ oid.data := by
  obtain ⟨hre, hne, hcolon⟩ := ValidOTypes_facts otype hv
  have hoid := uuidParseOk_ne_empty oid hu
  rw [MakeORef_String otype oid hne hoid]
  constructor
  · intro h
    have hsplit := (ParseORef_ok_fields _ _ h).1
    exact ((stringsSplitColon_eq_pair _ _ _).mp hsplit).2.2
  · intro h
    have hsplit := (stringsSplitColon_eq_pair (otype ++ ":" ++ oid) otype oid).mpr ⟨rfl, hcolon, h⟩
    rw [ParseORef_of_pair _ otype oid hsplit]
    simp [hre, hv, hu]

/-- C4, witness: the tab type and a UUID in the standard form. -/
theorem ParseORef_roundtrip_witness :
    ParseORef (MakeORef "tab" sample.tabId).String =
      ({ OType := "tab", OID := sample.tabId }, none) :=
  (ParseORef_roundtrip "tab" sample.tabId (by decide) (by decide)).mpr (by decide)

/-- C4, counterexample: `tab` is a registered type and
`urn:uuid:00000000-0000-0000-0000-000000000000` is a parseable UUID, but the
formatted reference has four fields and `ParseORef` rejects it. -/
theorem ParseORef_roundtrip_counterexample :
    ValidOTypes "tab" = true ∧
      uuidParseOk "urn:uuid:00000000-0000-0000-0000-000000000000" = true ∧
      (MakeORef "tab" "urn:uuid:00000000-0000-0000-0000-000000000000").String =
        "tab:urn:uuid:00000000-0000-0000-0000-000000000000" ∧
      ParseORef (MakeORef "tab" "urn:uuid:00000000-0000-0000-0000-000000000000").String ≠
        ({ OType := "tab", OID := "urn:uuid:00000000-0000-0000-0000-000000000000" }, none) ∧
      (ParseORef (MakeORef "tab" "urn:uuid:00000000-0000-0000-0000-000000000000").String).2 =
        some (.errorf "invalid object reference: %q"
          ["tab:urn:uuid:00000000-0000-0000-0000-000000000000"]) := by
  decide

theorem ParseORefNoErr_some (s : String) (oref : ORef) (h : ParseORefNoErr s = some oref) :
    ValidOTypes oref.OType = true ∧ uuidParseOk oref.OID = true ∧ oref.OID ≠ "" ∧
      s = oref.OType ++ ":" ++ oref.OID := by
  unfold ParseORefNoErr at h
  cases hp : ParseORef s with
  | mk o e =>
    rw [hp] at h
    cases e with
    | some e => simp at h
    | none =>
      simp only [Option.some.injEq] at h
      subst h
      obtain ⟨hsplit, hv, hu⟩ := ParseORef_ok_fields s o hp
      exact ⟨hv, hu, uuidParseOk_ne_empty _ hu, ((stringsSplitColon_eq_pair _ _ _).mp hsplit).1⟩

end starobj

/-! ## Tables -/

namespace wstore

open starobj

theorem inTable_self (val : StarObj) (v : Int) :
    Row.inTable (GetOType val) (GetOID val) { version := v, data := val } = true := by
  simp [Row.inTable]

theorem get_some_inTable (db : DB) (otype oid : String) (row : Row)
    (h : db.get otype oid = some row) :
    GetOType row.data = otype ∧ GetOID row.data = oid ∧ row ∈ db := by
  simp only [DB.get] at h
  have h1 := List.find?_some h
  have h2 := List.mem_of_find?_eq_some h
  simp only [Row.inTable, Bool.and_eq_true, beq_iff_eq] at h1
  exact ⟨h1.1, h1.2, h2⟩

theorem get_none_forall (db : DB) (otype oid : String) (h : db.get otype oid = none) :
    ∀ r ∈ db, Row.inTable otype oid r = false := by
  intro r hr
  simp only [DB.get, List.find?_eq_none] at h
  simpa using h r hr

theorem any_inTable_iff (db : DB) (otype oid : String) :
    db.any (Row.inTable otype oid) = (db.get otype oid).isSome := by
  induction db with
  | nil => rfl
  | cons r rest ih =>
    simp only [DB.get] at ih
    by_cases h : r.inTable otype oid = true
    · simp [DB.get, List.find?, h]
    · simp only [Bool.not_eq_true] at h
      simp [DB.get, List.find?, h, ih]

/-- The updated row is found under the key of the object, one version higher. -/
theorem get_update_same (db : DB) (val : StarObj) :
    DB.get (db.update (GetOType val) (GetOID val) val) (GetOType val) (GetOID val) =
    (db.get (GetOType val) (GetOID val)).map
      (fun r => { version := r.version + 1, data := val }) := by
  unfold DB.update
  induction db with
  | nil => rfl
  | cons r rest ih =>
    simp only [DB.get] at ih
    by_cases h : r.inTable (GetOType val) (GetOID val) = true
    · simp [DB.get, List.find?, h, inTable_self]
    · simp only [Bool.not_eq_true] at h
      simp [DB.get, List.find?, h, ih]

/-- Rows under other keys are not touched by the update of `(otype, oid)`. -/
theorem get_update_other (db : DB) (val : StarObj) (otype oid : String)
    (hne : ¬ (otype = GetOType val ∧ oid = GetOID val)) :
    DB.get (db.update (GetOType val) (GetOID val) val) otype oid = db.get otype oid := by
  unfold DB.update
  induction db with
  | nil => rfl
  | cons r rest ih =>
    simp only [DB.get] at ih
    by_cases h : r.inTable (GetOType val) (GetOID val) = true
    · have h1 : Row.inTable otype oid { version := r.version + 1, data := val } = false := by
        simp only [Row.inTable, Bool.and_eq_false_imp, beq_iff_eq, beq_eq_false_iff_ne]
        intro h1 h2
        exact hne ⟨h1.symm, h2.symm⟩
      have h2 : Row.inTable otype oid r = false := by
        simp only [Row.inTable, Bool.and_eq_true, beq_iff_eq] at h
        simp only [Row.inTable, Bool.and_eq_false_imp, beq_iff_eq, beq_eq_false_iff_ne]
        intro h1 h2
        exact hne ⟨h1.symm.trans h.1, h2.symm.trans h.2⟩
      simp [DB.get, List.find?, h, h1, h2, ih]
    · simp only [Bool.not_eq_true] at h
      by_cases h3 : Row.inTable otype oid r = true
      · simp [DB.get, List.find?, h, h3]
      · simp only [Bool.not_eq_true] at h3
        simp [DB.get, List.find?, h, h3, ih]

/-- An `UPDATE` that matches no row leaves the table as it is. -/
theorem update_absent (db : DB) (otype oid : String) (jsonData : StarObj)
    (h : db.get otype oid = none) :
    db.update otype oid jsonData = db := by
  unfold DB.update
  have hall := get_none_forall db otype oid h
  conv_rhs => rw [← List.map_id db]
  apply List.map_congr_left
  intro r hr
  simp [hall r hr]

theorem get_append_new (db : DB) (otype oid : String) (row : Row)
    (hnone : db.get otype oid = none) (hrow : row.inTable otype oid = true) :
    DB.get (db ++ [row]) otype oid = some row := by
  simp only [DB.get] at hnone ⊢
  simp [List.find?_append, hnone, hrow]

theorem get_append_old (db : DB) (otype oid : String) (row new : Row)
    (h : db.get otype oid = some row) :
    DB.get (db ++ [new]) otype oid = some row := by
  simp only [DB.get] at h ⊢
  simp [List.find?_append, h]

theorem get_append_other (db : DB) (otype oid : String) (new : Row)
    (h : new.inTable otype oid = false) :
    DB.get (db ++ [new]) otype oid = db.get otype oid := by
  simp only [DB.get]
  cases hf : List.find? (Row.inTable otype oid) db <;> simp [List.find?_append, hf, h]

theorem get_delete_same (db : DB) (otype oid : String) :
    DB.get (db.delete otype oid) otype oid = none := by
  simp only [DB.get, DB.delete, List.find?_eq_none, List.mem_filter]
  rintro r ⟨-, hr⟩
  simpa using hr

theorem get_delete_other (db : DB) (otype oid otype1 oid1 : String)
    (hne : ¬ (otype1 = otype ∧ oid1 = oid)) :
    DB.get (db.delete otype oid) otype1 oid1 = db.get otype1 oid1 := by
  unfold DB.delete
  induction db with
  | nil => rfl
  | cons r rest ih =>
    simp only [DB.get] at ih
    by_cases h : r.inTable otype oid = true
    · have h2 : Row.inTable otype1 oid1 r = false := by
        simp only [Row.inTable, Bool.and_eq_true, beq_iff_eq] at h
        simp only [Row.inTable, Bool.and_eq_false_imp, beq_iff_eq, beq_eq_false_iff_ne]
        intro h1 h2
        exact hne ⟨h1.symm.trans h.1, h2.symm.trans h.2⟩
      simp [DB.get, List.filter, List.find?, h, h2, ih]
    · simp only [Bool.not_eq_true] at h
      by_cases h3 : Row.inTable otype1 oid1 r = true
      · simp [DB.get, List.filter, List.find?, h, h3]
      · simp only [Bool.not_eq_true] at h3
        simp [DB.get, List.filter, List.find?, h, h3, ih]

theorem block_eq_some (db : DB) (blockId : String) (b : Block) :
    db.block blockId = some b ↔
      ∃ row, db.get OType_Block blockId = some row ∧ row.data = .Block b := by
  unfold DB.block
  cases hg : db.get OType_Block blockId with
  | none => simp
  | some row =>
    cases hd : row.data <;> simp [hd]

theorem tabBlockIds_eq_some (db : DB) (tabId : String) (ids : List String) :
    db.tabBlockIds tabId = some ids ↔
      ∃ row t, db.get OType_Tab tabId = some row ∧ row.data = .Tab t ∧ t.BlockIds = ids := by
  unfold DB.tabBlockIds
  cases hg : db.get OType_Tab tabId with
  | none => simp
  | some row =>
    cases hd : row.data <;> simp [hd]

theorem subBlockIds_eq_some (db : DB) (blockId : String) (ids : List String) :
    db.subBlockIds blockId = some ids ↔
      ∃ row b, db.get OType_Block blockId = some row ∧ row.data = .Block b ∧
        b.SubBlockIds = ids := by
  unfold DB.subBlockIds
  cases hg : db.get OType_Block blockId with
  | none => simp
  | some row =>
    cases hd : row.data <;> simp [hd]

/-- The child ids that an entity holds: `BlockIds` of a tab, `SubBlockIds` of a block. -/
theorem childIds_of_get (db : DB) (oref : ORef) (row : Row)
    (hot : oref.OType = OType_Tab ∨ oref.OType = OType_Block)
    (hget : db.get oref.OType oref.OID = some row) :
    db.childIds oref = some (match row.data with
      | .Tab t => t.BlockIds
      | .Block b => b.SubBlockIds
      | .LayoutState _ => []) := by
  have hty := (get_some_inTable _ _ _ _ hget).1
  rcases hot with h | h
  · rw [h] at hget hty
    obtain ⟨t, ht⟩ := tab_of_otype _ hty
    simp [DB.childIds, h, DB.tabBlockIds, hget, ht]
  · rw [h] at hget hty
    obtain ⟨b, hb⟩ := block_of_otype _ hty
    have hne : ¬ (OType_Block = OType_Tab) := by decide
    simp [DB.childIds, h, hne, DB.subBlockIds, hget, hb]

theorem tabsNodup_update (db : DB) (otype oid : String) (val : StarObj)
    (hdb : db.tabsNodup = true) (hval : ∀ t, val = .Tab t → t.BlockIds.Nodup) :
    (db.update otype oid val).tabsNodup = true := by
  simp only [DB.tabsNodup, DB.update, List.all_eq_true, List.mem_map] at hdb ⊢
  rintro r ⟨r0, hr0, rfl⟩
  by_cases h : r0.inTable otype oid = true
  · simp only [h, if_true]
    cases val with
    | Tab t => simpa using hval t rfl
    | Block b => rfl
    | LayoutState l => rfl
  · simp only [h]
    exact hdb r0 hr0

theorem tabsNodup_row (db : DB) (row : Row) (t : Tab) (hdb : db.tabsNodup = true)
    (hrow : row ∈ db) (hdata : row.data = .Tab t) : t.BlockIds.Nodup := by
  simp only [DB.tabsNodup, List.all_eq_true] at hdb
  have := hdb row hrow
  simpa [hdata] using this

end wstore

/-! ## Transactions -/

namespace wstore

open starobj

/-- A transaction body that returns no error: its state is committed. -/
theorem WithTx_ok {ρ : Type} (inTx : Bool) (st : State) (keep : ρ)
    (fn : State → (ρ × Option GoError) × State)
    (htx : inTx = false ∨ st.txErr = none)
    (hfn : (fn st.enterTx).1.2 = none) (hfe : (fn st.enterTx).2.txErr = none) :
    WithTx inTx st keep fn =
      (((fn st.enterTx).1.1, none),
        { db := (fn st.enterTx).2.db
          txErr := none
          updates := ContextUpdatesCommitTx (fn st.enterTx).2.updates }) := by
  simp only [State.enterTx] at hfn hfe
  cases inTx
  · simp [WithTx, txwrapWithTx, State.enterTx, hfn, hfe]
  · have hst : st.txErr = none := by simpa using htx
    simp [WithTx, txwrapWithTx, State.enterTx, hst, hfn, hfe]

/-- A transaction body that fails: outside an enclosing transaction the database
is rolled back; inside one the error stays in the transaction. -/
theorem WithTx_err {ρ : Type} (inTx : Bool) (st : State) (keep : ρ)
    (fn : State → (ρ × Option GoError) × State) (e : GoError)
    (htx : inTx = false ∨ st.txErr = none)
    (hfn : (fn st.enterTx).1.2 = some e) (hfe : (fn st.enterTx).2.txErr = none) :
    (WithTx inTx st keep fn).1.2 = some e ∧
      (WithTx inTx st keep fn).2.db = (if inTx then (fn st.enterTx).2.db else st.db) := by
  simp only [State.enterTx] at hfn hfe
  cases inTx
  · simp [WithTx, txwrapWithTx, State.enterTx, hfn, hfe]
  · have hst : st.txErr = none := by simpa using htx
    simp [WithTx, txwrapWithTx, State.enterTx, hst, hfn, hfe]

theorem WithTx_failed {ρ : Type} (st : State) (keep : ρ)
    (fn : State → (ρ × Option GoError) × State) (e : GoError) (htx : st.txErr = some e) :
    WithTx true st keep fn = ((keep, some e), st) := by
  cases st
  simp_all [WithTx, txwrapWithTx, rollback_begin]

/-- A transaction whose body leaves an error in the `TxWrap` returns an error. -/
theorem WithTx_txErr {ρ : Type} (inTx : Bool) (st : State) (keep : ρ)
    (fn : State → (ρ × Option GoError) × State)
    (htx : inTx = false ∨ st.txErr = none) (hfe : (fn st.enterTx).2.txErr ≠ none) :
    (WithTx inTx st keep fn).1.2 ≠ none := by
  cases he : (fn st.enterTx).2.txErr with
  | none => exact absurd he hfe
  | some e =>
    simp only [State.enterTx] at he
    cases inTx
    · simp [WithTx, txwrapWithTx, he]
    · have hst : st.txErr = none := by simpa using htx
      simp [WithTx, txwrapWithTx, hst, he]

/-- The database after a transaction is the one before or the one its body made. -/
theorem WithTx_db_cases {ρ : Type} (inTx : Bool) (st : State) (keep : ρ)
    (fn : State → (ρ × Option GoError) × State) :
    (WithTx inTx st keep fn).2.db = st.db ∨
      (WithTx inTx st keep fn).2.db = (fn st.enterTx).2.db := by
  cases inTx
  · cases h1 : (fn st.enterTx).2.txErr <;> cases h2 : (fn st.enterTx).1.2 <;>
      simp only [State.enterTx] at h1 h2 <;>
      simp [WithTx, txwrapWithTx, State.enterTx, h1, h2]
  · cases he : st.txErr with
    | some e => left; rw [WithTx_failed st keep fn e he]
    | none =>
      right
      cases h1 : (fn st.enterTx).2.txErr <;> cases h2 : (fn st.enterTx).1.2 <;>
        simp only [State.enterTx] at h1 h2 <;>
        simp [WithTx, txwrapWithTx, State.enterTx, he, h1, h2]

theorem WithTxRtn_ok {RT : Type} (inTx : Bool) (st : State) (zero : RT)
    (fn : State → (RT × Option GoError) × State)
    (htx : inTx = false ∨ st.txErr = none)
    (hfn : (fn st.enterTx).1.2 = none) (hfe : (fn st.enterTx).2.txErr = none) :
    WithTxRtn inTx st zero fn =
      (((fn st.enterTx).1.1, none),
        { db := (fn st.enterTx).2.db
          txErr := none
          updates := ContextUpdatesCommitTx (fn st.enterTx).2.updates }) := by
  unfold WithTxRtn
  rw [WithTx_ok inTx st zero _ htx (by simp [hfn]) (by simp [hfn, hfe])]
  simp [hfn]

theorem WithTxRtn_err {RT : Type} (inTx : Bool) (st : State) (zero : RT)
    (fn : State → (RT × Option GoError) × State) (e : GoError)
    (htx : inTx = false ∨ st.txErr = none)
    (hfn : (fn st.enterTx).1.2 = some e) (hfe : (fn st.enterTx).2.txErr = none) :
    (WithTxRtn inTx st zero fn).1.2 = some e ∧
      (WithTxRtn inTx st zero fn).2.db = (if inTx then (fn st.enterTx).2.db else st.db) := by
  unfold WithTxRtn
  have := WithTx_err inTx st zero (fun s =>
    match (fn s).1.2 with
    | some e => ((zero, some e), (fn s).2)
    | none => (((fn s).1.1, none), (fn s).2)) e htx (by simp [hfn]) (by simp [hfn, hfe])
  simpa [hfn] using this

theorem WithTxRtn_err_val {RT : Type} (inTx : Bool) (st : State) (zero : RT)
    (fn : State → (RT × Option GoError) × State) (e : GoError)
    (htx : inTx = false ∨ st.txErr = none)
    (hfn : (fn st.enterTx).1.2 = some e) (hfe : (fn st.enterTx).2.txErr = none) :
    (WithTxRtn inTx st zero fn).1 = (zero, some e) := by
  simp only [State.enterTx] at hfn hfe
  cases inTx
  · simp [WithTxRtn, WithTx, txwrapWithTx, hfn, hfe]
  · have hst : st.txErr = none := by simpa using htx
    simp [WithTxRtn, WithTx, txwrapWithTx, hst, hfn, hfe]

theorem WithTxRtn_txErr {RT : Type} (inTx : Bool) (st : State) (zero : RT)
    (fn : State → (RT × Option GoError) × State)
    (htx : inTx = false ∨ st.txErr = none) (hfe : (fn st.enterTx).2.txErr ≠ none) :
    (WithTxRtn inTx st zero fn).1.2 ≠ none := by
  unfold WithTxRtn
  apply WithTx_txErr inTx st zero _ htx
  cases h : (fn st.enterTx).1.2 <;> simpa [h] using hfe

theorem WithTxRtn_ok_inv {RT : Type} (inTx : Bool) (st : State) (zero : RT)
    (fn : State → (RT × Option GoError) × State)
    (hok : (WithTxRtn inTx st zero fn).1.2 = none) : inTx = false ∨ st.txErr = none := by
  by_contra hne
  simp only [not_or, Bool.not_eq_false] at hne
  obtain ⟨hin, herr⟩ := hne
  subst hin
  cases he : st.txErr with
  | none => exact herr he
  | some e => simp [WithTxRtn, WithTx_failed st _ _ e he] at hok

end wstore

/-! ## Store operations -/

namespace wstore

open starobj

/-- Inside a transaction that has not failed `DBGetORef` returns the row of the
reference with the version of the column, and changes nothing. -/
theorem DBGetORef_run (st : State) (oref : ORef) (htx : st.txErr = none) :
    DBGetORef true st oref =
      (((st.db.get oref.OType oref.OID).map (fun row => SetVersion row.data row.version),
        none), st) := by
  cases st
  simp only at htx
  subst htx
  cases hg : DB.get _ oref.OType oref.OID <;>
    simp [DBGetORef, WithTxRtn, WithTx, txwrapWithTx, txGet, hg, commit_begin]

theorem DBGet_Tab_run (st : State) (id : String) (htx : st.txErr = none) :
    DBGet_Tab true st id =
      ((match st.db.get OType_Tab id with
        | some row =>
          match row.data with
          | .Tab t => some { t with Version := row.version }
          | _ => none
        | none => none, none), st) := by
  simp only [DBGet_Tab, DBGetORef_run st _ htx]
  cases hg : st.db.get OType_Tab id with
  | none => simp
  | some row =>
    obtain ⟨t, ht⟩ := tab_of_otype row.data (get_some_inTable _ _ _ _ hg).1
    simp [ht, SetVersion]

theorem DBGet_Block_run (st : State) (id : String) (htx : st.txErr = none) :
    DBGet_Block true st id =
      ((match st.db.get OType_Block id with
        | some row =>
          match row.data with
          | .Block b => some { b with Version := row.version }
          | _ => none
        | none => none, none), st) := by
  simp only [DBGet_Block, DBGetORef_run st _ htx]
  cases hg : st.db.get OType_Block id with
  | none => simp
  | some row =>
    obtain ⟨b, hb⟩ := block_of_otype row.data (get_some_inTable _ _ _ _ hg).1
    simp [hb, SetVersion]

theorem DBDelete_run (st : State) (otype id : String) (htx : st.txErr = none) :
    DBDelete true st otype id =
      (none, { db := st.db.delete otype id
               txErr := none
               updates := ContextAddUpdate st.updates
                 { UpdateType := UpdateType_Delete, OType := otype, OID := id,
                   Obj := none } }) := by
  cases st
  simp only at htx
  subst htx
  simp [DBDelete, WithTx, txwrapWithTx, txDelete, commit_add_begin]

/-- What `DBUpdate` does when the object has an id and the transaction it runs
in has not failed. -/
theorem DBUpdate_run (inTx : Bool) (st : State) (val : StarObj)
    (hoid : GetOID val ≠ "") (htx : inTx = false ∨ st.txErr = none) :
    DBUpdate inTx st val =
      ((SetVersion val (match st.db.get (GetOType val) (GetOID val) with
          | some r => r.version + 1
          | none => 0), none),
        { db := st.db.update (GetOType val) (GetOID val) val
          txErr := none
          updates := ContextUpdatesCommitTx (ContextAddUpdate (ContextUpdatesBeginTx st.updates)
            { UpdateType := UpdateType_Update, OType := GetOType val, OID := GetOID val,
              Obj := some (SetVersion val (match st.db.get (GetOType val) (GetOID val) with
                | some r => r.version + 1
                | none => 0)) }) }) := by
  rcases htx with h | h
  · subst h
    cases hg : st.db.get (GetOType val) (GetOID val) <;>
      simp [DBUpdate, hoid, WithTx, txwrapWithTx, txUpdateReturningVersion, hg]
  · cases inTx <;> cases hg : st.db.get (GetOType val) (GetOID val) <;>
      simp [DBUpdate, hoid, WithTx, txwrapWithTx, txUpdateReturningVersion, hg, h]

/-- Inside a transaction that has failed `DBUpdate` does nothing and returns the
error of the transaction. -/
theorem DBUpdate_failed_tx (st : State) (val : StarObj) (e : GoError)
    (hoid : GetOID val ≠ "") (htx : st.txErr = some e) :
    DBUpdate true st val = ((val, some e), st) := by
  cases st
  simp_all [DBUpdate, WithTx, txwrapWithTx, rollback_begin]

/-- A `DBUpdate` that returns no error had an object with an id and ran in a
transaction that had not failed. -/
theorem DBUpdate_ok_inv (inTx : Bool) (st : State) (val : StarObj)
    (hok : (DBUpdate inTx st val).1.2 = none) :
    GetOID val ≠ "" ∧ (inTx = false ∨ st.txErr = none) := by
  by_cases hoid : GetOID val = ""
  · simp [DBUpdate, hoid] at hok
  · refine ⟨hoid, ?_⟩
    cases inTx
    · exact Or.inl rfl
    · right
      cases htx : st.txErr with
      | none => rfl
      | some e => rw [DBUpdate_failed_tx st val e hoid htx] at hok; simp at hok

/-- The database after `DBUpdate` is the one before or the one with the row
of the object updated. -/
theorem DBUpdate_db_cases (inTx : Bool) (st : State) (val : StarObj) :
    (DBUpdate inTx st val).2.db = st.db ∨
      (DBUpdate inTx st val).2.db = st.db.update (GetOType val) (GetOID val) val := by
  by_cases hoid : GetOID val = ""
  · left; simp [DBUpdate, hoid]
  · by_cases htx : inTx = false ∨ st.txErr = none
    · right; rw [DBUpdate_run inTx st val hoid htx]
    · left
      simp only [not_or, Bool.not_eq_false] at htx
      obtain ⟨hin, herr⟩ := htx
      subst hin
      cases he : st.txErr with
      | none => exact absurd he herr
      | some e => rw [DBUpdate_failed_tx st val e hoid he]

theorem DBUpdate_tabsNodup (inTx : Bool) (st : State) (val : StarObj)
    (hdb : st.db.tabsNodup = true) (hval : ∀ t, val = .Tab t → t.BlockIds.Nodup) :
    (DBUpdate inTx st val).2.db.tabsNodup = true := by
  rcases DBUpdate_db_cases inTx st val with h | h <;> rw [h]
  · exact hdb
  · exact tabsNodup_update _ _ _ _ hdb hval

/-- What `DBInsert` does for a new id in a transaction that has not failed. -/
theorem DBInsert_run (inTx : Bool) (st : State) (val : StarObj)
    (hoid : GetOID val ≠ "") (htx : inTx = false ∨ st.txErr = none)
    (hnone : st.db.get (GetOType val) (GetOID val) = none) :
    DBInsert inTx st val =
      ((SetVersion val 1, none),
        { db := st.db ++ [{ version := 1, data := val }]
          txErr := none
          updates := ContextAddUpdate st.updates
            { UpdateType := UpdateType_Update, OType := GetOType val, OID := GetOID val,
              Obj := some (SetVersion val 1) } }) := by
  have hany : st.db.any (Row.inTable (GetOType val) (GetOID val)) = false := by
    rw [any_inTable_iff, hnone]; rfl
  rcases htx with h | h
  · subst h
    simp [DBInsert, hoid, WithTx, txwrapWithTx, txInsert, hany, commit_add_begin]
  · cases inTx <;>
      simp [DBInsert, hoid, WithTx, txwrapWithTx, txInsert, hany, h, commit_add_begin]

/-- Inside a transaction `DBInsert` under an id that has a row leaves the rows as
they are and makes the transaction fail. -/
theorem DBInsert_dup (st : State) (val : StarObj) (row : Row)
    (hoid : GetOID val ≠ "") (htx : st.txErr = none)
    (hsome : st.db.get (GetOType val) (GetOID val) = some row) :
    (DBInsert true st val).2.db = st.db ∧ (DBInsert true st val).2.txErr ≠ none := by
  have hany : st.db.any (Row.inTable (GetOType val) (GetOID val)) = true := by
    rw [any_inTable_iff, hsome]; rfl
  simp [DBInsert, hoid, WithTx, txwrapWithTx, txInsert, hany, htx]

end wstore

/-! ## Versions under `DBUpdate` (C1, C2) -/

namespace wstore

open starobj

/-- One successful `DBUpdate` of an entity whose row has version `v`: the row and
the object both get version `v + 1`. -/
theorem DBUpdate_step (inTx : Bool) (st : State) (val : StarObj) (v : Int)
    (hrow : st.db.rowVersion (GetOType val) (GetOID val) = some v)
    (hok : (DBUpdate inTx st val).1.2 = none) :
    (DBUpdate inTx st val).2.db.rowVersion (GetOType val) (GetOID val) = some (v + 1) ∧
      GetVersion (DBUpdate inTx st val).1.1 = v + 1 := by
  obtain ⟨hoid, htx⟩ := DBUpdate_ok_inv inTx st val hok
  rw [DBUpdate_run inTx st val hoid htx]
  simp only [DB.rowVersion] at hrow ⊢
  rw [get_update_same]
  cases hg : st.db.get (GetOType val) (GetOID val) with
  | none => simp [hg] at hrow
  | some r =>
    simp only [hg, Option.map_some', Option.some.injEq] at hrow
    simp [GetVersion_SetVersion, hrow]

theorem DBUpdateSeq_versions (inTx : Bool) (otype oid : String) :
    ∀ (vals : List StarObj) (st : State) (v : Int),
      st.db.rowVersion otype oid = some v →
      (∀ val ∈ vals, GetOType val = otype ∧ GetOID val = oid) →
      (∀ res ∈ (DBUpdateSeq inTx st vals).1, res.2 = none) →
      (∀ k, k ≤ vals.length →
        (DBUpdateSeq inTx st (vals.take k)).2.db.rowVersion otype oid = some (v + k)) ∧
      (∀ i, i < vals.length →
        ((DBUpdateSeq inTx st vals).1.get? i).map (fun res => GetVersion res.1) =
          some (v + i + 1)) := by
  intro vals
  induction vals with
  | nil =>
    intro st v hrow _ _
    constructor
    · intro k hk
      simp only [List.length_nil, Nat.le_zero_eq] at hk
      subst hk
      simpa [DBUpdateSeq] using hrow
    · intro i hi
      simp at hi
  | cons val rest ih =>
    intro st v hrow hid hok
    obtain ⟨hot, hoi⟩ := hid val (List.mem_cons_self _ _)
    subst hot
    subst hoi
    have hok0 : (DBUpdate inTx st val).1.2 = none :=
      hok (DBUpdate inTx st val).1 (by simp [DBUpdateSeq])
    obtain ⟨hrow1, hver1⟩ := DBUpdate_step inTx st val v hrow hok0
    obtain ⟨ihrow, ihver⟩ := ih (DBUpdate inTx st val).2 (v + 1) hrow1
      (fun x hx => hid x (List.mem_cons_of_mem _ hx))
      (fun res hres => hok res (by simp [DBUpdateSeq, hres]))
    constructor
    · intro k hk
      cases k with
      | zero => simpa [DBUpdateSeq] using hrow
      | succ k =>
        have := ihrow k (by simpa using hk)
        simp only [List.take_succ_cons, DBUpdateSeq, this]
        congr 1
        push_cast
        ring
    · intro i hi
      cases i with
      | zero => simp [DBUpdateSeq, hver1]
      | succ i =>
        have := ihver i (by simpa using hi)
        simp only [DBUpdateSeq, List.get?_cons_succ, this]
        congr 1
        push_cast
        ring

/-- C1 (version monotonicity).  Let an entity have a row with version `v`, and
let `DBUpdate` be called `k` times in a row for it (with any contents), every
call returning no error.  Then the `i`-th call (counting from 0) leaves both the
row and the in-memory object at version `v + i + 1`, one more than before that
call; after all `k` calls the row has version `v + k`, and the version never
decreases along the way. -/
theorem DBUpdate_version_monotone (inTx : Bool) (st : State) (vals : List StarObj)
    (otype oid : String) (v : Int)
    (hrow : st.db.rowVersion otype oid = some v)
    (hid : ∀ val ∈ vals, GetOType val = otype ∧ GetOID val = oid)
    (hok : ∀ res ∈ (DBUpdateSeq inTx st vals).1, res.2 = none) :
    (∀ i, i < vals.length →
        (DBUpdateSeq inTx st (vals.take i)).2.db.rowVersion otype oid = some (v + i) ∧
        (DBUpdateSeq inTx st (vals.take (i + 1))).2.db.rowVersion otype oid =
          some (v + i + 1) ∧
        ((DBUpdateSeq inTx st vals).1.get? i).map (fun res => GetVersion res.1) =
          some (v + i + 1)) ∧
      (DBUpdateSeq inTx st vals).2.db.rowVersion otype oid = some (v + vals.length) ∧
      (∀ j k, j ≤ k → k ≤ vals.length → ∀ vj vk,
        (DBUpdateSeq inTx st (vals.take j)).2.db.rowVersion otype oid = some vj →
        (DBUpdateSeq inTx st (vals.take k)).2.db.rowVersion otype oid = some vk →
        vj ≤ vk) := by
  obtain ⟨hrows, hvers⟩ := DBUpdateSeq_versions inTx otype oid vals st v hrow hid hok
  refine ⟨?_, ?_, ?_⟩
  · intro i hi
    refine ⟨hrows i (Nat.le_of_lt hi), ?_, hvers i hi⟩
    have := hrows (i + 1) hi
    simpa [Int.add_assoc] using this
  · simpa using hrows vals.length (Nat.le_refl _)
  · intro j k hjk hk vj vk hj hk2
    rw [hrows j (Nat.le_trans hjk hk)] at hj
    rw [hrows k hk] at hk2
    simp only [Option.some.injEq] at hj hk2
    omega

/-- C1, witness: the sample tab, stored with version 4, is updated twice. -/
theorem DBUpdate_version_monotone_witness :
    sample.state.db.rowVersion "tab" sample.tabId = some 4 ∧
      (DBUpdateSeq false sample.state sample.tabUpdates).2.db.rowVersion "tab" sample.tabId =
        some (4 + (2 : Nat)) :=
  ⟨by decide,
    (DBUpdate_version_monotone false sample.state sample.tabUpdates "tab" sample.tabId 4
      (by decide) (by decide) (by decide)).2.1⟩

/-- C2 (amended).  `DBUpdate` of an entity with a non-empty OID that has no row in
its type table does not fail: in a transaction that has not failed it returns
no error and leaves every table as it was, it stamps version 0 (what the
`UPDATE ... RETURNING version` without a row yields) on the object, and it puts
an update record for the object into the update buffer of the context. -/
theorem DBUpdate_missing_row (inTx : Bool) (st : State) (val : StarObj)
    (hoid : GetOID val ≠ "") (htx : inTx = false ∨ st.txErr = none)
    (hmiss : st.db.get (GetOType val) (GetOID val) = none) :
    (DBUpdate inTx st val).1.2 = none ∧
      (DBUpdate inTx st val).2.db = st.db ∧
      (DBUpdate inTx st val).1.1 = SetVersion val 0 ∧
      GetVersion (DBUpdate inTx st val).1.1 = 0 ∧
      (DBUpdate inTx st val).2.updates = ContextAddUpdate st.updates
        { UpdateType := UpdateType_Update, OType := GetOType val, OID := GetOID val,
          Obj := some (SetVersion val 0) } ∧
      ∀ top rest, st.updates = top :: rest →
        ∃ top1, (DBUpdate inTx st val).2.updates = top1 :: rest ∧
          { UpdateType := UpdateType_Update, OType := GetOType val, OID := GetOID val,
            Obj := some (SetVersion val 0) } ∈ top1 := by
  rw [DBUpdate_run inTx st val hoid htx]
  simp only [hmiss, update_absent st.db _ _ _ hmiss, commit_add_begin,
    GetVersion_SetVersion, true_and]
  intro top rest hst
  rw [hst]
  exact ⟨_, rfl, mem_put _ _⟩

/-- C2, witness: an update of the sample tab in a store without rows. -/
theorem DBUpdate_missing_row_witness :
    (DBUpdate false sample.emptyState (.Tab sample.tab)).1.2 = none ∧
      (DBUpdate false sample.emptyState (.Tab sample.tab)).2.db = sample.emptyState.db ∧
      GetVersion (DBUpdate false sample.emptyState (.Tab sample.tab)).1.1 = 0 :=
  have h := DBUpdate_missing_row false sample.emptyState (.Tab sample.tab) (by decide)
    (Or.inl rfl) (by decide)
  ⟨h.1, h.2.1, h.2.2.2.1⟩

/-- C2, counterexample: the store has no rows, the object is the sample tab with
version 4.  `DBUpdate` returns no error, the update buffer changes and the
version of the object changes, so it is not the case that the call fails,
records no update and leaves the version unchanged. -/
theorem DBUpdate_missing_row_counterexample :
    ¬ ((DBUpdate false sample.emptyState (.Tab sample.tab)).1.2 ≠ none ∧
        (DBUpdate false sample.emptyState (.Tab sample.tab)).2.updates =
          sample.emptyState.updates ∧
        GetVersion (DBUpdate false sample.emptyState (.Tab sample.tab)).1.1 =
          GetVersion (.Tab sample.tab)) ∧
      (DBUpdate false sample.emptyState (.Tab sample.tab)).1.2 = none ∧
      (DBUpdate false sample.emptyState (.Tab sample.tab)).2.updates ≠
        sample.emptyState.updates ∧
      GetVersion (DBUpdate false sample.emptyState (.Tab sample.tab)).1.1 = 0 ∧
      GetVersion (.Tab sample.tab) = 4 := by
  decide

end wstore

/-! ## `DBInsert` (C3) -/

namespace wstore

open starobj

/-- C3.  `DBInsert` of an entity whose OID is empty returns an error and leaves
the state as it was.  In a transaction that has not failed: for a non-empty OID
without a row it returns no error, adds exactly one row for the entity, with
version 1, and stamps version 1 on the object whatever version it carried; for
a non-empty OID that has a row it returns an error and leaves every row, the
existing one included, as it was. -/
theorem DBInsert_spec (inTx : Bool) (st : State) (val : StarObj) :
    (GetOID val = "" →
      (DBInsert inTx st val).1.2 ≠ none ∧ (DBInsert inTx st val).2 = st ∧
        (DBInsert inTx st val).1.1 = val) ∧
    (GetOID val ≠ "" → (inTx = false ∨ st.txErr = none) →
      st.db.get (GetOType val) (GetOID val) = none →
      (DBInsert inTx st val).1.2 = none ∧
        (DBInsert inTx st val).2.db = st.db ++ [{ version := 1, data := val }] ∧
        (DBInsert inTx st val).2.db.get (GetOType val) (GetOID val) =
          some { version := 1, data := val } ∧
        (DBInsert inTx st val).2.db.rowVersion (GetOType val) (GetOID val) = some 1 ∧
        (DBInsert inTx st val).1.1 = SetVersion val 1 ∧
        GetVersion (DBInsert inTx st val).1.1 = 1) ∧
    (GetOID val ≠ "" → (inTx = false ∨ st.txErr = none) →
      ∀ row, st.db.get (GetOType val) (GetOID val) = some row →
      (DBInsert inTx st val).1.2 ≠ none ∧
        (DBInsert inTx st val).2.db = st.db ∧
        (DBInsert inTx st val).2.db.get (GetOType val) (GetOID val) = some row) := by
  refine ⟨?_, ?_, ?_⟩
  · intro hoid
    simp [DBInsert, hoid]
  · intro hoid htx hnone
    have hany : st.db.any (Row.inTable (GetOType val) (GetOID val)) = false := by
      rw [any_inTable_iff, hnone]; rfl
    have hget := get_append_new st.db (GetOType val) (GetOID val)
      { version := 1, data := val } hnone (inTable_self val 1)
    have hrun : (DBInsert inTx st val).1 = (SetVersion val 1, none) ∧
        (DBInsert inTx st val).2.db = st.db ++ [{ version := 1, data := val }] := by
      rcases htx with h | h
      · subst h
        simp [DBInsert, hoid, WithTx, txwrapWithTx, txInsert, hany]
      · cases inTx <;> simp [DBInsert, hoid, WithTx, txwrapWithTx, txInsert, hany, h]
    obtain ⟨h1, h2⟩ := hrun
    simp [h1, h2, hget, DB.rowVersion, GetVersion_SetVersion]
  · intro hoid htx row hsome
    have hany : st.db.any (Row.inTable (GetOType val) (GetOID val)) = true := by
      rw [any_inTable_iff, hsome]; rfl
    have hrun : (DBInsert inTx st val).1.2 ≠ none ∧ (DBInsert inTx st val).2.db = st.db := by
      rcases htx with h | h
      · subst h
        simp [DBInsert, hoid, WithTx, txwrapWithTx, txInsert, hany]
      · cases inTx <;> simp [DBInsert, hoid, WithTx, txwrapWithTx, txInsert, hany, h]
    obtain ⟨h1, h2⟩ := hrun
    exact ⟨h1, h2, by rw [h2]; exact hsome⟩

/-- C3, witness: an insert with an empty OID, the insert of the sample tab into a
store without rows, and its insert into the sample store, which has its row. -/
theorem DBInsert_spec_witness :
    (DBInsert false sample.emptyState (.Tab { sample.tab with OID := "" })).1.2 ≠ none ∧
      (DBInsert false sample.emptyState (.Tab sample.tab)).2.db.rowVersion "tab" sample.tabId =
        some 1 ∧
      (DBInsert false sample.state (.Tab sample.tab)).2.db = sample.state.db :=
  ⟨((DBInsert_spec false sample.emptyState (.Tab { sample.tab with OID := "" })).1 rfl).1,
    ((DBInsert_spec false sample.emptyState (.Tab sample.tab)).2.1 (by decide) (Or.inl rfl)
      (by decide)).2.2.2.1,
    ((DBInsert_spec false sample.state (.Tab sample.tab)).2.2 (by decide) (Or.inl rfl)
      { version := 4, data := .Tab sample.tab } (by decide)).2.1⟩

end wstore

/-! ## `MoveBlockToTab` (C6) -/

namespace wstore

open starobj

/-- C6, counterexample.  The sample store has duplicate-free tab lists and its tab
`tabId` lists the block `blockId`: `MoveBlockToTab(tabId, tabId, blockId)` returns
no error and leaves the tab with the block listed twice.  In the store where
the tab `tabId2` lists the block as well, `MoveBlockToTab(tabId, tabId2, blockId)`
returns no error and leaves `tabId2` with the block listed twice. -/
theorem MoveBlockToTab_nodup_counterexample :
    (sample.state.db.tabsNodup = true ∧
      sample.state.db.tabBlockIds sample.tabId = some [sample.blockId] ∧
      (MoveBlockToTab false sample.state sample.tabId sample.tabId sample.blockId).1 = none ∧
      (MoveBlockToTab false sample.state sample.tabId sample.tabId sample.blockId).2.db.tabBlockIds
        sample.tabId = some [sample.blockId, sample.blockId] ∧
      (MoveBlockToTab false sample.state sample.tabId sample.tabId sample.blockId).2.db.tabsNodup =
        false) ∧
    (sample.sharedState.db.tabsNodup = true ∧
      (MoveBlockToTab false sample.sharedState sample.tabId sample.tabId2 sample.blockId).1 =
        none ∧
      (MoveBlockToTab false sample.sharedState sample.tabId sample.tabId2
        sample.blockId).2.db.tabBlockIds sample.tabId2 = some [sample.blockId, sample.blockId] ∧
      (MoveBlockToTab false sample.sharedState sample.tabId sample.tabId2
        sample.blockId).2.db.tabsNodup = false) := by
  decide

/-- The body of `MoveBlockToTab` keeps the tab lists duplicate-free when the new
tab does not list the block yet. -/
theorem MoveBlockToTab_fn_nodup (s : State) (currentTabId newTabId blockId : String)
    (htx : s.txErr = none) (hdb : s.db.tabsNodup = true)
    (hnew : ∀ ids, s.db.tabBlockIds newTabId = some ids → blockId ∉ ids) :
    (MoveBlockToTab_fn currentTabId newTabId blockId s).2.db.tabsNodup = true := by
  unfold MoveBlockToTab_fn
  simp only [DBGet_Block_run s _ htx, DBGet_Tab_run s _ htx]
  cases hgb : s.db.get OType_Block blockId with
  | none => simpa using hdb
  | some brow =>
    obtain ⟨b, hb⟩ := block_of_otype brow.data (get_some_inTable _ _ _ _ hgb).1
    cases hgc : s.db.get OType_Tab currentTabId with
    | none => simpa [hb] using hdb
    | some crow =>
      obtain ⟨ct, hct⟩ := tab_of_otype crow.data (get_some_inTable _ _ _ _ hgc).1
      cases hgn : s.db.get OType_Tab newTabId with
      | none => simpa [hb, hct] using hdb
      | some nrow =>
        obtain ⟨nt, hnt⟩ := tab_of_otype nrow.data (get_some_inTable _ _ _ _ hgn).1
        have hcnd := tabsNodup_row _ _ _ hdb (get_some_inTable _ _ _ _ hgc).2.2 hct
        have hnnd := tabsNodup_row _ _ _ hdb (get_some_inTable _ _ _ _ hgn).2.2 hnt
        have hnotin : blockId ∉ nt.BlockIds :=
          hnew nt.BlockIds ((tabBlockIds_eq_some _ _ _).mpr ⟨nrow, nt, hgn, hnt, rfl⟩)
        simp only [hb, hct, hnt]
        split
        · exact hdb
        · apply DBUpdate_tabsNodup
          · apply DBUpdate_tabsNodup
            · apply DBUpdate_tabsNodup _ _ _ hdb
              intro t ht; simp at ht
            · intro t ht
              simp only [StarObj.Tab.injEq] at ht
              subst ht
              exact List.Nodup.filter _ hcnd
          · intro t ht
            simp only [StarObj.Tab.injEq] at ht
            subst ht
            simp only
            rw [List.nodup_append]
            refine ⟨hnnd, List.nodup_singleton _, ?_⟩
            intro x hx hx2
            simp only [List.mem_singleton] at hx2
            subst hx2
            exact hnotin hx

theorem FindStringInSlice_not_mem (slice : List String) (val : String) (h : val ∉ slice) :
    utilfn.FindStringInSlice slice val = -1 := by
  have : slice.indexOf? val = none := by
    simp only [List.indexOf?, List.findIdx?_eq_none_iff]
    intro x hx
    simp only [beq_eq_false_iff_ne, ne_eq]
    rintro rfl
    exact h hx
  simp [utilfn.FindStringInSlice, this]

/-- The body of `MoveBlockToTab` for one and the same tab fails when the tab does
not list the block. -/
theorem MoveBlockToTab_fn_same_tab (s : State) (tabId blockId : String)
    (htx : s.txErr = none)
    (hnew : ∀ ids, s.db.tabBlockIds tabId = some ids → blockId ∉ ids) :
    (MoveBlockToTab_fn tabId tabId blockId s).1.2 ≠ none ∧
      (MoveBlockToTab_fn tabId tabId blockId s).2 = s := by
  unfold MoveBlockToTab_fn
  simp only [DBGet_Block_run s _ htx, DBGet_Tab_run s _ htx]
  cases hgb : s.db.get OType_Block blockId with
  | none => simp
  | some brow =>
    obtain ⟨b, hb⟩ := block_of_otype brow.data (get_some_inTable _ _ _ _ hgb).1
    cases hgc : s.db.get OType_Tab tabId with
    | none => simp [hb]
    | some crow =>
      obtain ⟨ct, hct⟩ := tab_of_otype crow.data (get_some_inTable _ _ _ _ hgc).1
      have hnotin : blockId ∉ ct.BlockIds :=
        hnew ct.BlockIds ((tabBlockIds_eq_some _ _ _).mpr ⟨crow, ct, hgc, hct, rfl⟩)
      simp [hb, hct, FindStringInSlice_not_mem _ _ hnotin]

/-- C6 (amended).  In every store state in which every tab's `BlockIds` is
duplicate-free and the tab `newTabId` does not already list `blockId`, for all
`currentTabId`, after `MoveBlockToTab` returns every tab's `BlockIds` is still
duplicate-free.  With `currentTabId` equal to `newTabId` the call then returns an
error: a move within one tab that succeeds is a move into a tab that lists the
block already. -/
theorem MoveBlockToTab_nodup (inTx : Bool) (st : State) (currentTabId newTabId blockId : String)
    (hdb : st.db.tabsNodup = true)
    (hnew : ∀ ids, st.db.tabBlockIds newTabId = some ids → blockId ∉ ids) :
    (MoveBlockToTab inTx st currentTabId newTabId blockId).2.db.tabsNodup = true ∧
      (currentTabId = newTabId →
        (MoveBlockToTab inTx st currentTabId newTabId blockId).1 ≠ none) := by
  constructor
  · simp only [MoveBlockToTab]
    rcases WithTx_db_cases inTx st () (MoveBlockToTab_fn currentTabId newTabId blockId) with h | h
    · rw [h]; exact hdb
    · rw [h]
      exact MoveBlockToTab_fn_nodup st.enterTx currentTabId newTabId blockId rfl hdb hnew
  · rintro rfl
    simp only [MoveBlockToTab]
    by_cases htx : inTx = false ∨ st.txErr = none
    · obtain ⟨h1, h2⟩ := MoveBlockToTab_fn_same_tab st.enterTx currentTabId blockId rfl hnew
      cases he : (MoveBlockToTab_fn currentTabId currentTabId blockId st.enterTx).1.2 with
      | none => exact absurd he h1
      | some e =>
        have := (WithTx_err inTx st () _ e htx he (by rw [h2]; rfl)).1
        rw [this]
        simp
    · simp only [not_or, Bool.not_eq_false] at htx
      obtain ⟨hin, herr⟩ := htx
      subst hin
      cases he : st.txErr with
      | none => exact absurd he herr
      | some e => rw [WithTx_failed st _ _ e he]; simp

/-- C6, witness: in the sample store the block moves from `tabId` to the empty tab
`tabId2`. -/
theorem MoveBlockToTab_nodup_witness :
    sample.state.db.tabsNodup = true ∧
      (MoveBlockToTab false sample.state sample.tabId sample.tabId2 sample.blockId).1 = none ∧
      (MoveBlockToTab false sample.state sample.tabId sample.tabId2
        sample.blockId).2.db.tabsNodup = true :=
  ⟨by decide, by decide,
    (MoveBlockToTab_nodup false sample.state sample.tabId sample.tabId2 sample.blockId
      (by decide) (by decide)).1⟩

end wstore

/-! ## `deleteBlockObj` (C7, C8) -/

namespace score

open starobj wstore

theorem deleteBlockObj_fn_subblocks (s : State) (blockId : String) (b : Block)
    (htx : s.txErr = none) (hb : s.db.block blockId = some b) (hsub : b.SubBlockIds ≠ []) :
    deleteBlockObj_fn blockId s =
      ((-1, some (.errorf "block has subblocks, must delete subblocks first" [])), s) := by
  obtain ⟨row, hget, hrow⟩ := (block_eq_some _ _ _).mp hb
  have hlen : 0 < b.SubBlockIds.length := List.length_pos.mpr hsub
  simp [deleteBlockObj_fn, DBGet_Block_run s blockId htx, hget, hrow, hlen]

/-- C8.  `deleteBlockObj` on a block whose `SubBlockIds` is not empty returns an
error and leaves the store as it was: every row, so the row of the block and
the id list of its parent, and the update buffer are unchanged. -/
theorem deleteBlockObj_subblocks (inTx : Bool) (st : State) (blockId : String) (b : Block)
    (hb : st.db.block blockId = some b) (hsub : b.SubBlockIds ≠ []) :
    (deleteBlockObj inTx st blockId).1.2 ≠ none ∧
      (deleteBlockObj inTx st blockId).2.db = st.db ∧
      (deleteBlockObj inTx st blockId).2.db.block blockId = some b ∧
      (deleteBlockObj inTx st blockId).2.updates = st.updates := by
  have hmain : (deleteBlockObj inTx st blockId).1.2 ≠ none ∧
      (deleteBlockObj inTx st blockId).2.db = st.db ∧
      (deleteBlockObj inTx st blockId).2.updates = st.updates := by
    by_cases htx : inTx = false ∨ st.txErr = none
    · have hfn := deleteBlockObj_fn_subblocks st.enterTx blockId b rfl hb hsub
      have herr := WithTxRtn_err inTx st 0 (deleteBlockObj_fn blockId) _ htx
        (by rw [hfn]) (by rw [hfn]; rfl)
      refine ⟨by simp [deleteBlockObj, herr.1], ?_, ?_⟩
      · have := herr.2
        rw [hfn] at this
        simpa [deleteBlockObj, State.enterTx] using this
      · simp only [deleteBlockObj, WithTxRtn, WithTx, txwrapWithTx]
        have hfn2 : deleteBlockObj_fn blockId
            { db := st.db, txErr := none, updates := ContextUpdatesBeginTx st.updates } =
            ((-1, some (.errorf "block has subblocks, must delete subblocks first" [])),
              { db := st.db, txErr := none, updates := ContextUpdatesBeginTx st.updates }) := hfn
        rcases htx with h | h
        · subst h
          simp [hfn2, rollback_begin]
        · cases inTx
          · simp [hfn2, rollback_begin]
          · cases st
            simp only at h
            subst h
            simp [hfn2, rollback_begin]
    · simp only [not_or, Bool.not_eq_false] at htx
      obtain ⟨hin, herr⟩ := htx
      subst hin
      cases he : st.txErr with
      | none => exact absurd he herr
      | some e =>
        simp [deleteBlockObj, WithTxRtn, WithTx_failed st _ _ e he]
  exact ⟨hmain.1, hmain.2.1, by rw [hmain.2.1]; exact hb, hmain.2.2⟩

/-- C8, witness: the sample block that has a sub-block is not deleted. -/
theorem deleteBlockObj_subblocks_witness :
    sample.nestedState.db.block sample.blockId = some sample.parentBlock ∧
      (deleteBlockObj false sample.nestedState sample.blockId).1.2 ≠ none ∧
      (deleteBlockObj false sample.nestedState sample.blockId).2.db = sample.nestedState.db :=
  have h := deleteBlockObj_subblocks false sample.nestedState sample.blockId sample.parentBlock
    (by decide) (by decide)
  ⟨by decide, h.1, h.2.1⟩

theorem deleteBlockObj_parent_run (s : State) (blockId : String) (oref : ORef)
    (ids : List String) (htx : s.txErr = none) (hoid : oref.OID ≠ "")
    (hids : s.db.childIds oref = some ids) :
    ∃ val, (deleteBlockObj_parent s blockId (some oref)).1 =
        ((utilfn.RemoveElemFromSlice ids blockId).length : Int) ∧
      (deleteBlockObj_parent s blockId (some oref)).2.db =
        s.db.update (GetOType val) (GetOID val) val ∧
      (deleteBlockObj_parent s blockId (some oref)).2.txErr = none ∧
      GetOType val = oref.OType ∧ GetOID val = oref.OID ∧
      (match val with
        | .Tab t => t.BlockIds
        | .Block b => b.SubBlockIds
        | .LayoutState _ => []) = utilfn.RemoveElemFromSlice ids blockId := by
  unfold DB.childIds at hids
  by_cases hot : oref.OType = OType_Tab
  · rw [if_pos hot] at hids
    obtain ⟨row, t, hget, hrow, hbl⟩ := (tabBlockIds_eq_some _ _ _).mp hids
    have hOID : t.OID = oref.OID := by
      have := (get_some_inTable _ _ _ _ hget).2.1
      simpa [hrow, GetOID] using this
    let ids1 := utilfn.RemoveElemFromSlice t.BlockIds blockId
    have hval : GetOID (StarObj.Tab { t with Version := row.version, BlockIds := ids1 }) ≠ "" := by
      simpa [GetOID, hOID] using hoid
    have hrun : deleteBlockObj_parent s blockId (some oref) =
        ((ids1.length : Int),
          (DBUpdate true s (.Tab { t with Version := row.version, BlockIds := ids1 })).2) := by
      simp only [deleteBlockObj_parent, hot, if_true, DBGet_Tab_run s _ htx, hget, hrow]
    rw [DBUpdate_run true s _ hval (Or.inr htx)] at hrun
    refine ⟨.Tab { t with Version := row.version, BlockIds := ids1 }, ?_, ?_, ?_, ?_, ?_, ?_⟩
    · rw [hrun]; simp [hbl, ids1]
    · rw [hrun]
    · rw [hrun]
    · simp [GetOType, hot]
    · simp [GetOID, hOID]
    · simp [hbl, ids1]
  · rw [if_neg hot] at hids
    by_cases hob : oref.OType = OType_Block
    · rw [if_pos hob] at hids
      obtain ⟨row, b, hget, hrow, hbl⟩ := (subBlockIds_eq_some _ _ _).mp hids
      have hOID : b.OID = oref.OID := by
        have := (get_some_inTable _ _ _ _ hget).2.1
        simpa [hrow, GetOID] using this
      let ids1 := utilfn.RemoveElemFromSlice b.SubBlockIds blockId
      have hval : GetOID (StarObj.Block { b with Version := row.version, SubBlockIds := ids1 }) ≠
          "" := by
        simpa [GetOID, hOID] using hoid
      have hrun : deleteBlockObj_parent s blockId (some oref) =
          ((ids1.length : Int),
            (DBUpdate true s (.Block { b with Version := row.version, SubBlockIds := ids1 })).2) := by
        have hne : ¬ (OType_Block = OType_Tab) := by decide
        simp only [deleteBlockObj_parent, hob, hne, if_false, if_true,
          DBGet_Block_run s _ htx, hget, hrow]
      rw [DBUpdate_run true s _ hval (Or.inr htx)] at hrun
      refine ⟨.Block { b with Version := row.version, SubBlockIds := ids1 }, ?_, ?_, ?_, ?_, ?_, ?_⟩
      · rw [hrun]; simp [hbl, ids1]
      · rw [hrun]
      · rw [hrun]
      · simp [GetOType, hob]
      · simp [GetOID, hOID]
      · simp [hbl, ids1]
    · rw [if_neg hob] at hids
      simp at hids

theorem deleteBlockObj_fn_run (s : State) (blockId : String) (b : Block)
    (htx : s.txErr = none) (hb : s.db.block blockId = some b) (hsub : b.SubBlockIds = []) :
    deleteBlockObj_fn blockId s =
      (((deleteBlockObj_parent s blockId (ParseORefNoErr b.ParentORef)).1, none),
        (DBDelete true (deleteBlockObj_parent s blockId (ParseORefNoErr b.ParentORef)).2
          OType_Block blockId).2) := by
  obtain ⟨row, hget, hrow⟩ := (block_eq_some _ _ _).mp hb
  simp [deleteBlockObj_fn, DBGet_Block_run s blockId htx, hget, hrow, hsub]

theorem RemoveElemFromSlice_facts (ids : List String) (val : String) :
    val ∉ utilfn.RemoveElemFromSlice ids val ∧
      List.Sublist (utilfn.RemoveElemFromSlice ids val) ids ∧
      (∀ x, x ≠ val → (utilfn.RemoveElemFromSlice ids val).count x = ids.count x) ∧
      (ids.Nodup → utilfn.RemoveElemFromSlice ids val = ids.erase val) := by
  refine ⟨?_, ?_, ?_, ?_⟩
  · simp [utilfn.RemoveElemFromSlice, List.mem_filter]
  · exact List.filter_sublist ids
  · intro x hx
    simp [utilfn.RemoveElemFromSlice, List.count_filter, hx]
  · intro hnd
    rw [List.Nodup.erase_eq_filter hnd]
    rfl

/-- C7.  Let block `blockId` have a row without sub-blocks, and let its parent
reference parse to `parent`, a tab or block that has a row with the id list
`ids` (`BlockIds` of the tab, `SubBlockIds` of the block).  Then
`deleteBlockObj` returns no error exactly when the transaction it runs in has
not failed, and after such a call: the returned count is the length of `ids`
without `blockId`; the row of the block is gone; the id list of the parent
(when the parent is not the deleted block itself) is `ids` without `blockId`;
and every other row, so every other tab or block list, is as before.  `ids`
without `blockId` keeps the other ids, as often and in the order they had. -/
theorem deleteBlockObj_spec (inTx : Bool) (st : State) (blockId : String) (b : Block)
    (parent : ORef) (ids : List String)
    (hb : st.db.block blockId = some b) (hsub : b.SubBlockIds = [])
    (hparent : ParseORefNoErr b.ParentORef = some parent)
    (hids : st.db.childIds parent = some ids) :
    ((deleteBlockObj inTx st blockId).1.2 = none ↔ (inTx = false ∨ st.txErr = none)) ∧
    ((deleteBlockObj inTx st blockId).1.2 = none →
      (deleteBlockObj inTx st blockId).1.1 =
          ((utilfn.RemoveElemFromSlice ids blockId).length : Int) ∧
        (deleteBlockObj inTx st blockId).2.db.get OType_Block blockId = none ∧
        (¬ (parent.OType = OType_Block ∧ parent.OID = blockId) →
          (deleteBlockObj inTx st blockId).2.db.childIds parent =
            some (utilfn.RemoveElemFromSlice ids blockId)) ∧
        (∀ otype oid, ¬ (otype = OType_Block ∧ oid = blockId) →
          ¬ (otype = parent.OType ∧ oid = parent.OID) →
          (deleteBlockObj inTx st blockId).2.db.get otype oid = st.db.get otype oid)) ∧
    (blockId ∉ utilfn.RemoveElemFromSlice ids blockId ∧
      List.Sublist (utilfn.RemoveElemFromSlice ids blockId) ids ∧
      (∀ x, x ≠ blockId → (utilfn.RemoveElemFromSlice ids blockId).count x = ids.count x) ∧
      (ids.Nodup → utilfn.RemoveElemFromSlice ids blockId = ids.erase blockId)) := by
  obtain ⟨-, -, hpoid, -⟩ := ParseORefNoErr_some _ _ hparent
  have hrun : (inTx = false ∨ st.txErr = none) →
      ∃ val, (deleteBlockObj inTx st blockId).1 =
          (((utilfn.RemoveElemFromSlice ids blockId).length : Int), none) ∧
        (deleteBlockObj inTx st blockId).2.db =
          (st.db.update (GetOType val) (GetOID val) val).delete OType_Block blockId ∧
        GetOType val = parent.OType ∧ GetOID val = parent.OID ∧
        (match val with
          | .Tab t => t.BlockIds
          | .Block b => b.SubBlockIds
          | .LayoutState _ => []) = utilfn.RemoveElemFromSlice ids blockId := by
    intro htx
    have hfn := deleteBlockObj_fn_run st.enterTx blockId b rfl hb hsub
    rw [hparent] at hfn
    obtain ⟨val, h1, h2, h3, h4, h5, h6⟩ :=
      deleteBlockObj_parent_run st.enterTx blockId parent ids rfl hpoid hids
    rw [DBDelete_run _ _ _ h3] at hfn
    have hok := WithTxRtn_ok inTx st 0 (deleteBlockObj_fn blockId) htx
      (by rw [hfn]) (by rw [hfn])
    refine ⟨val, ?_, ?_, h4, h5, h6⟩
    · simp only [deleteBlockObj, hok, hfn, h1]
    · simp only [deleteBlockObj, hok, hfn, h2]
      rfl
  refine ⟨⟨?_, fun htx => ?_⟩, ?_, RemoveElemFromSlice_facts ids blockId⟩
  · intro hok
    by_contra hne
    simp only [not_or, Bool.not_eq_false] at hne
    obtain ⟨hin, herr⟩ := hne
    subst hin
    cases he : st.txErr with
    | none => exact herr he
    | some e => simp [deleteBlockObj, WithTxRtn, WithTx_failed st _ _ e he] at hok
  · obtain ⟨val, h1, -⟩ := hrun htx
    rw [h1]
  · intro hok
    have htx : inTx = false ∨ st.txErr = none := by
      by_contra hne
      simp only [not_or, Bool.not_eq_false] at hne
      obtain ⟨hin, herr⟩ := hne
      subst hin
      cases he : st.txErr with
      | none => exact herr he
      | some e => simp [deleteBlockObj, WithTxRtn, WithTx_failed st _ _ e he] at hok
    obtain ⟨val, h1, h2, h3, h4, h5⟩ := hrun htx
    refine ⟨by rw [h1], ?_, ?_, ?_⟩
    · rw [h2]; exact get_delete_same _ _ _
    · intro hself
      have hotype : parent.OType = OType_Tab ∨ parent.OType = OType_Block := by
        unfold DB.childIds at hids
        by_cases h : parent.OType = OType_Tab
        · exact Or.inl h
        · by_cases h' : parent.OType = OType_Block
          · exact Or.inr h'
          · simp [h, h'] at hids
      obtain ⟨row, hrow⟩ : ∃ row, st.db.get parent.OType parent.OID = some row := by
        unfold DB.childIds at hids
        rcases hotype with h | h
        · rw [if_pos h] at hids
          obtain ⟨row, _, hget, -⟩ := (tabBlockIds_eq_some _ _ _).mp hids
          exact ⟨row, by rw [h]; exact hget⟩
        · have hne : ¬ parent.OType = OType_Tab := by rw [h]; decide
          rw [if_neg hne, if_pos h] at hids
          obtain ⟨row, _, hget, -⟩ := (subBlockIds_eq_some _ _ _).mp hids
          exact ⟨row, by rw [h]; exact hget⟩
      have hget : (deleteBlockObj inTx st blockId).2.db.get parent.OType parent.OID =
          some { version := row.version + 1, data := val } := by
        rw [h2, get_delete_other _ _ _ _ _ hself, ← h3, ← h4, get_update_same, h3, h4, hrow]
        rfl
      rw [childIds_of_get _ parent _ hotype hget]
      simp only [h5]
    · intro otype oid hnb hnp
      rw [h2, get_delete_other _ _ _ _ _ hnb]
      exact get_update_other _ _ _ _ (by rw [h3, h4]; exact hnp)

/-- C7, witness: the sample block is deleted from the sample tab, and the sample
sub-block from its parent block. -/
theorem deleteBlockObj_spec_witness :
    ((deleteBlockObj false sample.state sample.blockId).1.2 = none ∧
      (deleteBlockObj false sample.state sample.blockId).1.1 = 0 ∧
      (deleteBlockObj false sample.state sample.blockId).2.db.get OType_Block sample.blockId =
        none ∧
      (deleteBlockObj false sample.state sample.blockId).2.db.tabBlockIds sample.tabId =
        some []) ∧
    ((deleteBlockObj false sample.nestedState sample.blockId2).1.2 = none ∧
      (deleteBlockObj false sample.nestedState sample.blockId2).2.db.get OType_Block
        sample.blockId2 = none ∧
      (deleteBlockObj false sample.nestedState sample.blockId2).2.db.childIds
        { OType := "block", OID := sample.blockId } = some []) :=
  have h := deleteBlockObj_spec false sample.state sample.blockId sample.block
    { OType := "tab", OID := sample.tabId } [sample.blockId] (by decide) (by decide) (by decide)
    (by decide)
  have hok := h.1.mpr (Or.inl rfl)
  have h2 := deleteBlockObj_spec false sample.nestedState sample.blockId2 sample.subBlock
    { OType := "block", OID := sample.blockId } [sample.blockId2] (by decide) (by decide)
    (by decide) (by decide)
  have hok2 := h2.1.mpr (Or.inl rfl)
  ⟨⟨hok, (h.2.1 hok).1, (h.2.1 hok).2.1, (h.2.1 hok).2.2.1 (by decide)⟩,
    ⟨hok2, (h2.2.1 hok2).2.1, (h2.2.1 hok2).2.2.1 (by decide)⟩⟩

end score

/-! ## `createBlockObj` (C9) -/

namespace score

open starobj wstore

/-- The body of `createBlockObj` when the new id is not in use. -/
theorem createBlockObj_fn_run (s : State) (tabId blockId : String) (blockDef : BlockDef)
    (rtOpts : Option RuntimeOpts) (row : Row) (t : Tab)
    (htx : s.txErr = none) (htab : s.db.get OType_Tab tabId = some row)
    (hrow : row.data = .Tab t) (htid : tabId ≠ "") (hbid : blockId ≠ "")
    (hfresh : s.db.get OType_Block blockId = none) :
    (createBlockObj_fn tabId blockDef rtOpts blockId s).1 =
        (some { createBlockObj_blockData tabId blockDef rtOpts blockId with Version := 1 },
          none) ∧
      (createBlockObj_fn tabId blockDef rtOpts blockId s).2.txErr = none ∧
      (createBlockObj_fn tabId blockDef rtOpts blockId s).2.db =
        DB.update
          (s.db ++ [{ version := 1,
                      data := .Block (createBlockObj_blockData tabId blockDef rtOpts blockId) }])
          OType_Tab tabId
          (.Tab { t with Version := row.version, BlockIds := t.BlockIds ++ [blockId] }) := by
  have hOID : t.OID = tabId := by
    have := (get_some_inTable _ _ _ _ htab).2.1
    simpa [hrow, GetOID] using this
  have hins := DBInsert_run true s
    (.Block (createBlockObj_blockData tabId blockDef rtOpts blockId))
    (by simpa [GetOID, createBlockObj_blockData] using hbid) (Or.inr htx)
    (by simpa [GetOType, GetOID, createBlockObj_blockData] using hfresh)
  have hupd := DBUpdate_run true (DBInsert true s
    (.Block (createBlockObj_blockData tabId blockDef rtOpts blockId))).2
    (.Tab { t with Version := row.version, BlockIds := t.BlockIds ++ [blockId] })
    (by simpa [GetOID, hOID] using htid) (Or.inr (by rw [hins]))
  simp only [createBlockObj_fn, DBGet_Tab_run s tabId htx, htab, hrow]
  rw [hupd, hins]
  simp [SetVersion, GetOType, GetOID, hOID]

/-- The body of `createBlockObj` when the new id is in use: the transaction fails. -/
theorem createBlockObj_fn_dup (s : State) (tabId blockId : String) (blockDef : BlockDef)
    (rtOpts : Option RuntimeOpts) (row brow : Row) (t : Tab)
    (htx : s.txErr = none) (htab : s.db.get OType_Tab tabId = some row)
    (hrow : row.data = .Tab t) (htid : tabId ≠ "") (hbid : blockId ≠ "")
    (hused : s.db.get OType_Block blockId = some brow) :
    (createBlockObj_fn tabId blockDef rtOpts blockId s).2.txErr ≠ none := by
  have hOID : t.OID = tabId := by
    have := (get_some_inTable _ _ _ _ htab).2.1
    simpa [hrow, GetOID] using this
  have hins := DBInsert_dup s
    (.Block (createBlockObj_blockData tabId blockDef rtOpts blockId)) brow
    (by simpa [GetOID, createBlockObj_blockData] using hbid) htx
    (by simpa [GetOType, GetOID, createBlockObj_blockData] using hused)
  cases he : (DBInsert true s
    (.Block (createBlockObj_blockData tabId blockDef rtOpts blockId))).2.txErr with
  | none => exact absurd he hins.2
  | some e =>
    have hupd := DBUpdate_failed_tx (DBInsert true s
      (.Block (createBlockObj_blockData tabId blockDef rtOpts blockId))).2
      (.Tab { t with Version := row.version, BlockIds := t.BlockIds ++ [blockId] }) e
      (by simpa [GetOID, hOID] using htid) he
    simp only [createBlockObj_fn, DBGet_Tab_run s tabId htx, htab, hrow]
    rw [hupd]
    split <;> simp [he]

/-- C9.  Let tab `tabId` have a row with the block list `ids`, and let
`createBlockObj(tabId, blockDef, rtOpts)` return no error, `blockId` being the
id that `uuid.NewString()` gave (never empty; ids of rows are never empty, as
`DBInsert` refuses them).  Then the tab's `BlockIds` is `ids` with `blockId`
appended as the last element; the new block has a row, with version 1, whose
`ParentORef` is `"tab:"` followed by `tabId` and whose meta is `blockDef.Meta`;
the returned block is that block; and, `tabId` being a UUID, the parent
reference parses to the tab `tabId`, whose list holds the block. -/
theorem createBlockObj_spec (inTx : Bool) (st : State) (tabId : String) (blockDef : BlockDef)
    (rtOpts : Option RuntimeOpts) (blockId : String) (ids : List String)
    (htab : st.db.tabBlockIds tabId = some ids) (htid : tabId ≠ "") (hbid : blockId ≠ "")
    (hok : (createBlockObj inTx st tabId blockDef rtOpts blockId).1.2 = none) :
    (createBlockObj inTx st tabId blockDef rtOpts blockId).2.db.tabBlockIds tabId =
        some (ids ++ [blockId]) ∧
      (ids ++ [blockId]).getLast? = some blockId ∧
      (createBlockObj inTx st tabId blockDef rtOpts blockId).2.db.rowVersion OType_Block blockId =
        some 1 ∧
      (∃ blk, (createBlockObj inTx st tabId blockDef rtOpts blockId).2.db.block blockId =
          some blk ∧
        blk.OID = blockId ∧ blk.ParentORef = "tab:" ++ tabId ∧ blk.Meta = blockDef.Meta ∧
        blk.RuntimeOpts = rtOpts ∧
        (createBlockObj inTx st tabId blockDef rtOpts blockId).1.1 =
          some { blk with Version := 1 } ∧
        (uuidParseOk tabId = true → ':' ∉ tabId.data →
          ParseORef blk.ParentORef = ({ OType := OType_Tab, OID := tabId }, none) ∧
          ∃ ids1, (createBlockObj inTx st tabId blockDef rtOpts blockId).2.db.tabBlockIds tabId =
            some ids1 ∧ blockId ∈ ids1)) ∧
      st.db.get OType_Block blockId = none := by
  have htx := WithTxRtn_ok_inv _ _ _ _ hok
  obtain ⟨row, t, hget, hrow, hbl⟩ := (tabBlockIds_eq_some _ _ _).mp htab
  have hOID : t.OID = tabId := by
    have := (get_some_inTable _ _ _ _ hget).2.1
    simpa [hrow, GetOID] using this
  subst hOID
  cases hfresh : st.db.get OType_Block blockId with
  | some brow =>
    exfalso
    have := createBlockObj_fn_dup st.enterTx t.OID blockId blockDef rtOpts row brow t rfl hget
      hrow htid hbid hfresh
    exact WithTxRtn_txErr inTx st none _ htx this hok
  | none =>
    obtain ⟨h1, h2, h3⟩ := createBlockObj_fn_run st.enterTx t.OID blockId blockDef rtOpts row t
      rfl hget hrow htid hbid hfresh
    have hrun := WithTxRtn_ok inTx st none (createBlockObj_fn t.OID blockDef rtOpts blockId) htx
      (by rw [h1]) h2
    generalize hbd : createBlockObj_blockData t.OID blockDef rtOpts blockId = bd at *
    generalize htab1 :
      ({ t with Version := row.version, BlockIds := t.BlockIds ++ [blockId] } : Tab) = tab1 at *
    have htab1id : tab1.OID = t.OID := by rw [← htab1]
    have htab1ids : tab1.BlockIds = t.BlockIds ++ [blockId] := by rw [← htab1]
    have hbdid : bd.OID = blockId := by rw [← hbd]; rfl
    have hdb : (createBlockObj inTx st t.OID blockDef rtOpts blockId).2.db =
        DB.update (st.db ++ [{ version := 1, data := .Block bd }]) OType_Tab t.OID (.Tab tab1) := by
      simp only [createBlockObj, hrun, h3]
      rfl
    have hret : (createBlockObj inTx st t.OID blockDef rtOpts blockId).1.1 =
        some { bd with Version := 1 } := by
      simp only [createBlockObj, hrun, h1]
    have hgt : (createBlockObj inTx st t.OID blockDef rtOpts blockId).2.db.get OType_Tab t.OID =
        some { version := row.version + 1, data := .Tab tab1 } := by
      rw [hdb]
      have := get_update_same (st.db ++ [{ version := 1, data := .Block bd }]) (.Tab tab1)
      simp only [GetOType, GetOID, htab1id] at this
      rw [this, get_append_old _ _ _ _ _ hget]
      rfl
    have hgb : (createBlockObj inTx st t.OID blockDef rtOpts blockId).2.db.get OType_Block
        blockId = some { version := 1, data := .Block bd } := by
      rw [hdb]
      have := get_update_other (st.db ++ [{ version := 1, data := .Block bd }]) (.Tab tab1)
        OType_Block blockId (by simp [GetOType, OType_Block, OType_Tab])
      simp only [GetOType, GetOID, htab1id] at this
      rw [this]
      exact get_append_new _ _ _ _ hfresh (by simp [Row.inTable, GetOType, GetOID, hbdid])
    have hpar : bd.ParentORef = "tab:" ++ t.OID := by
      rw [← hbd]
      simp only [createBlockObj_blockData]
      rw [MakeORef_String _ _ (by decide) htid]
      rfl
    have htabs : (createBlockObj inTx st t.OID blockDef rtOpts blockId).2.db.tabBlockIds t.OID =
        some (ids ++ [blockId]) := by
      simp [DB.tabBlockIds, hgt, htab1ids, hbl]
    refine ⟨htabs, by simp, by simp [DB.rowVersion, hgb], ?_, rfl⟩
    refine ⟨bd, by simp [DB.block, hgb], hbdid, hpar, by rw [← hbd]; rfl, by rw [← hbd]; rfl,
      hret, ?_⟩
    intro hu hc
    refine ⟨?_, ids ++ [blockId], htabs, by simp⟩
    rw [hpar]
    exact ParseORef_format OType_Tab t.OID (by decide) hu hc

/-- C9, witness: a block with the fresh id `blockId2` is created in the sample tab. -/
theorem createBlockObj_spec_witness :
    (createBlockObj false sample.state sample.tabId sample.blockDef none sample.blockId2).1.2 =
        none ∧
      (createBlockObj false sample.state sample.tabId sample.blockDef none
        sample.blockId2).2.db.tabBlockIds sample.tabId = some ([sample.blockId] ++ [sample.blockId2]) :=
  ⟨by decide,
    (createBlockObj_spec false sample.state sample.tabId sample.blockDef none sample.blockId2
      [sample.blockId] (by decide) (by decide) (by decide) (by decide)).1⟩

end score

/-! ## `DBFindTabForBlockId` (C10) -/

namespace wstore

open starobj

/-- The query of `DBFindTabForBlockId` reads the parent reference stored in the
row of the block: it parses to `oref` exactly when the block has a row whose
`ParentORef` parses to `oref`. -/
theorem parentIs_iff (db : DB) (b : String) (oref : ORef) :
    db.parentIs b oref ↔ ParseORef (db.parentORef b) = (oref, none) := by
  have hparse : (ParseORef "").2 ≠ none := by decide
  unfold DB.parentIs DB.parentORef
  cases hg : db.get OType_Block b with
  | none =>
    constructor
    · rintro ⟨row, blk, h, -, -⟩
      simp at h
    · intro h
      simp only at h
      rw [h] at hparse
      exact absurd rfl hparse
  | some row =>
    obtain ⟨blk, hb⟩ := block_of_otype row.data (get_some_inTable _ _ _ _ hg).1
    simp only [hb]
    constructor
    · rintro ⟨row1, blk1, h1, h2, h3⟩
      simp only [Option.some.injEq] at h1
      subst h1
      rw [hb] at h2
      simp only [StarObj.Block.injEq] at h2
      subst h2
      exact h3
    · intro h
      exact ⟨row, blk, rfl, hb, h⟩

theorem ReachesTab_pos (db : DB) (b t : String) (k : Nat) (h : ReachesTab db b k t) : 1 ≤ k := by
  cases h <;> omega

/-- The walk along the parent references is determined by the store: the number
of steps and the tab reached are unique. -/
theorem ReachesTab_unique (db : DB) (b t t1 : String) (k k1 : Nat)
    (h : ReachesTab db b k t) (h1 : ReachesTab db b k1 t1) : k = k1 ∧ t = t1 := by
  induction h generalizing k1 t1 with
  | tab b t hp =>
    rw [parentIs_iff] at hp
    cases h1 with
    | tab _ _ hp1 => rw [parentIs_iff, hp] at hp1; simp at hp1; exact ⟨rfl, hp1⟩
    | block _ _ _ _ hp1 _ => rw [parentIs_iff, hp] at hp1; simp at hp1
  | block b b1 t k hp _ ih =>
    rw [parentIs_iff] at hp
    cases h1 with
    | tab _ _ hp1 => rw [parentIs_iff, hp] at hp1; simp at hp1
    | block _ b2 _ k2 hp1 hr1 =>
      rw [parentIs_iff, hp] at hp1
      simp only [Prod.mk.injEq, ORef.mk.injEq, true_and, and_true] at hp1
      subst hp1
      obtain ⟨hk, ht⟩ := ih _ _ hr1
      exact ⟨by omega, ht⟩

theorem not_ReachesTab_of_missing (db : DB) (b t : String) (k : Nat)
    (hmiss : db.get OType_Block b = none) : ¬ ReachesTab db b k t := by
  have hpar : db.parentORef b = "" := by simp [DB.parentORef, hmiss]
  have hparse : (ParseORef "").2 ≠ none := by decide
  intro h
  cases h with
  | tab _ _ hp => rw [parentIs_iff, hpar] at hp; rw [hp] at hparse; exact hparse rfl
  | block _ _ _ _ hp _ => rw [parentIs_iff, hpar] at hp; rw [hp] at hparse; exact hparse rfl

theorem findTabLoop_succ (fuel : Nat) (s : State) (iterNum : Int) (blockId : String) :
    findTabLoop (fuel + 1) s iterNum blockId =
      if iterNum > 5 then
        some (("", some (.errorf "too many iterations looking for tab in block parents" [])), 0)
      else
        match (ParseORef (txGetParentORef s blockId)).2 with
        | some err => some (("", some (.wrap "bad block parent oref: %v" err)), 1)
        | none =>
          if (ParseORef (txGetParentORef s blockId)).1.OType = "tab" then
            some (((ParseORef (txGetParentORef s blockId)).1.OID, none), 1)
          else if (ParseORef (txGetParentORef s blockId)).1.OType = "block" then
            match findTabLoop fuel s (iterNum + 1)
              (ParseORef (txGetParentORef s blockId)).1.OID with
            | some (r, n) => some (r, n + 1)
            | none => none
          else
            some (("", some (.errorf "bad parent oref type: %v"
              [(ParseORef (txGetParentORef s blockId)).1.OType])), 1) := by
  rfl

/-- The loop of `DBFindTabForBlockId` entered with `iterNum = 6 - m`: it ends
after at most `m` lookups, with the tab that is reached within `m` lookups, or
with an error and the empty string. -/
theorem findTabLoop_spec (s : State) (hs : s.txErr = none) :
    ∀ (m fuel : Nat) (b : String), m < fuel → m ≤ 5 →
      ∃ res n, findTabLoop fuel s (6 - (m : Int)) b = some (res, n) ∧ n ≤ m ∧
        (∀ t, res = (t, none) ↔ ∃ k, k ≤ m ∧ ReachesTab s.db b k t) ∧
        (res.2 ≠ none → res.1 = "") ∧
        (∀ t, res = (t, none) → ReachesTab s.db b n t) := by
  intro m
  induction m with
  | zero =>
    intro fuel b hfuel _
    obtain ⟨f, rfl⟩ : ∃ f, fuel = f + 1 := ⟨fuel - 1, by omega⟩
    refine ⟨("", some (.errorf "too many iterations looking for tab in block parents" [])), 0,
      ?_, Nat.le_refl _, ?_, by simp, by simp⟩
    · rw [findTabLoop_succ, if_pos (by simp)]
    · intro t
      constructor
      · intro h; simp at h
      · rintro ⟨k, hk, hr⟩
        have := ReachesTab_pos _ _ _ _ hr
        omega
  | succ m ih =>
    intro fuel b hfuel hm
    obtain ⟨f, rfl⟩ : ∃ f, fuel = f + 1 := ⟨fuel - 1, by omega⟩
    have hiter : ¬ ((6 : Int) - ((m + 1 : Nat) : Int) > 5) := by push_cast; omega
    have hnext : (6 : Int) - ((m + 1 : Nat) : Int) + 1 = 6 - (m : Int) := by push_cast; omega
    have hget : txGetParentORef s b = s.db.parentORef b := by simp [txGetParentORef, hs]
    rw [findTabLoop_succ, if_neg hiter, hget, hnext]
    cases hp : ParseORef (s.db.parentORef b) with
    | mk oref err =>
      cases err with
      | some e =>
        refine ⟨("", some (.wrap "bad block parent oref: %v" e)), 1, rfl, by omega, ?_,
          by simp, by simp⟩
        intro t
        constructor
        · intro h; simp at h
        · rintro ⟨k, -, hr⟩
          cases hr with
          | tab _ _ hp1 => rw [parentIs_iff, hp] at hp1; simp at hp1
          | block _ _ _ _ hp1 _ => rw [parentIs_iff, hp] at hp1; simp at hp1
      | none =>
        by_cases htab : oref.OType = "tab"
        · have horef : oref = { OType := "tab", OID := oref.OID } := by rw [← htab]
          have hreach : ReachesTab s.db b 1 oref.OID :=
            ReachesTab.tab b oref.OID ((parentIs_iff _ _ _).mpr (by rw [hp, ← horef]))
          refine ⟨(oref.OID, none), 1, by simp [htab], by omega, ?_, by simp, ?_⟩
          · intro t
            constructor
            · intro h
              simp only [Prod.mk.injEq, and_true] at h
              exact ⟨1, by omega, h ▸ hreach⟩
            · rintro ⟨k, -, hr⟩
              have := (ReachesTab_unique _ _ _ _ _ _ hr hreach).2
              rw [this]
          · intro t h
            simp only [Prod.mk.injEq, and_true] at h
            exact h ▸ hreach
        · by_cases hblock : oref.OType = "block"
          · have horef : oref = { OType := "block", OID := oref.OID } := by rw [← hblock]
            obtain ⟨res, n, hloop, hn, hiff, herr, hres⟩ := ih f oref.OID (by omega) (by omega)
            refine ⟨res, n + 1, ?_, by omega, ?_, herr, ?_⟩
            · simp [htab, hblock, hloop]
            · intro t
              rw [hiff t]
              constructor
              · rintro ⟨k, hk, hr⟩
                exact ⟨k + 1, by omega, ReachesTab.block b oref.OID t k ((parentIs_iff _ _ _).mpr (by rw [hp, ← horef])) hr⟩
              · rintro ⟨k, hk, hr⟩
                cases hr with
                | tab _ _ hp1 =>
                  rw [parentIs_iff, hp] at hp1; simp at hp1; exact absurd (by rw [hp1]) htab
                | block _ b1 _ k1 hp1 hr1 =>
                  rw [parentIs_iff, hp] at hp1
                  simp only [Prod.mk.injEq, and_true] at hp1
                  have hb1 : oref.OID = b1 := by rw [hp1]
                  rw [hb1]
                  exact ⟨k1, by omega, hr1⟩
            · intro t h
              exact ReachesTab.block b oref.OID t n ((parentIs_iff _ _ _).mpr (by rw [hp, ← horef]))
                (hres t h)
          · refine ⟨("", some (.errorf "bad parent oref type: %v" [oref.OType])), 1,
              by simp [htab, hblock], by omega, ?_, by simp, by simp⟩
            intro t
            constructor
            · intro h; simp at h
            · rintro ⟨k, -, hr⟩
              cases hr with
              | tab _ _ hp1 =>
                rw [parentIs_iff, hp] at hp1; simp at hp1; exact absurd (by rw [hp1]) htab
              | block _ _ _ _ hp1 _ =>
                rw [parentIs_iff, hp] at hp1; simp at hp1; exact absurd (by rw [hp1]) hblock

/-- C10.  For every store content `DBFindTabForBlockId(b)`, run in a transaction
that has not failed, returns (the loop of the model never runs out of fuel 6)
after at most 5 parent-reference lookups and leaves the store as it was.  It
returns tab `t` without error exactly when the walk along `parentoref` from `b`
reaches, through block-typed references, a reference to tab `t` within 5
lookups; `t` is the first and only tab so reached and the number of lookups is
the length of that walk.  In every other case, so when a looked-up block is
missing, a reference does not parse or has another type, the chain is cyclic or
no tab is reached within 5 lookups, it returns an error and the empty string.
The walk is over the rows of `db_block`: when the row of `b` stores a
`ParentORef` that parses to tab `t`, the result is `t`; when it stores one that
parses to block `b1` whose row stores a `ParentORef` that parses to tab `t`,
the result is `t`. -/
theorem DBFindTabForBlockId_spec (fuel : Nat) (hfuel : 6 ≤ fuel) (inTx : Bool) (st : State)
    (blockId : String) (htx : inTx = false ∨ st.txErr = none) :
    ∃ r n, DBFindTabForBlockId fuel inTx st blockId = some r ∧
      findTabLoop fuel st.enterTx 1 blockId = some (r.1, n) ∧ n ≤ 5 ∧
      r.2.db = st.db ∧
      (∀ t, r.1 = (t, none) ↔ ∃ k, k ≤ 5 ∧ ReachesTab st.db blockId k t) ∧
      (∀ t, r.1 = (t, none) → ReachesTab st.db blockId n t ∧
        ∀ k1 t1, ReachesTab st.db blockId k1 t1 → k1 = n ∧ t1 = t) ∧
      (r.1.2 ≠ none → r.1.1 = "") ∧
      ((¬ ∃ k t, k ≤ 5 ∧ ReachesTab st.db blockId k t) → r.1.2 ≠ none) ∧
      (st.db.get OType_Block blockId = none → r.1.2 ≠ none) ∧
      (∀ row blk t, st.db.get OType_Block blockId = some row → row.data = .Block blk →
        ParseORef blk.ParentORef = ({ OType := "tab", OID := t }, none) → r.1 = (t, none)) ∧
      (∀ row blk b1 row1 blk1 t, st.db.get OType_Block blockId = some row →
        row.data = .Block blk →
        ParseORef blk.ParentORef = ({ OType := "block", OID := b1 }, none) →
        st.db.get OType_Block b1 = some row1 → row1.data = .Block blk1 →
        ParseORef blk1.ParentORef = ({ OType := "tab", OID := t }, none) →
        r.1 = (t, none)) := by
  obtain ⟨res, n, hloop, hn, hiff, herr, hres⟩ :=
    findTabLoop_spec st.enterTx rfl 5 fuel blockId (by omega) (Nat.le_refl _)
  have h61 : (6 : Int) - ((5 : Nat) : Int) = 1 := by norm_num
  rw [h61] at hloop
  have hdb : st.enterTx.db = st.db := rfl
  rw [hdb] at hiff hres
  have hone : ∀ row blk t, st.db.get OType_Block blockId = some row → row.data = .Block blk →
      ParseORef blk.ParentORef = ({ OType := "tab", OID := t }, none) → res = (t, none) := by
    intro row blk t h1 h2 h3
    exact (hiff t).mpr ⟨1, by omega, ReachesTab.tab _ _ ⟨row, blk, h1, h2, h3⟩⟩
  have htwo : ∀ row blk b1 row1 blk1 t, st.db.get OType_Block blockId = some row →
      row.data = .Block blk →
      ParseORef blk.ParentORef = ({ OType := "block", OID := b1 }, none) →
      st.db.get OType_Block b1 = some row1 → row1.data = .Block blk1 →
      ParseORef blk1.ParentORef = ({ OType := "tab", OID := t }, none) → res = (t, none) := by
    intro row blk b1 row1 blk1 t h1 h2 h3 h4 h5 h6
    exact (hiff t).mpr ⟨2, by omega, ReachesTab.block _ b1 _ 1 ⟨row, blk, h1, h2, h3⟩
      (ReachesTab.tab _ _ ⟨row1, blk1, h4, h5, h6⟩)⟩
  have hnone : (¬ ∃ k t, k ≤ 5 ∧ ReachesTab st.db blockId k t) → res.2 ≠ none := by
    intro hno hr
    have : res = (res.1, none) := by rw [← hr]
    exact hno ⟨_, res.1, ((hiff res.1).mp this).choose_spec⟩
  have hmissing : st.db.get OType_Block blockId = none → res.2 ≠ none := by
    intro hmiss
    apply hnone
    rintro ⟨k, t, -, hr⟩
    exact not_ReachesTab_of_missing _ _ _ _ hmiss hr
  have hfn : DBFindTabForBlockId_fn fuel blockId st.enterTx =
      ((some res.1, res.2), st.enterTx) := by
    simp only [DBFindTabForBlockId_fn, hloop]
  cases hr2 : res.2 with
  | none =>
    have hres_eq : res = (res.1, none) := by rw [← hr2]
    have hok := WithTxRtn_ok inTx st (some "") (DBFindTabForBlockId_fn fuel blockId) htx
      (by rw [hfn]; exact hr2) (by rw [hfn]; rfl)
    rw [hfn] at hok
    refine ⟨((res.1, none),
      (WithTxRtn inTx st (some "") (DBFindTabForBlockId_fn fuel blockId)).2), n,
      ?_, ?_, hn, ?_, ?_, ?_, by simp, ?_, ?_, ?_, ?_⟩
    · simp only [DBFindTabForBlockId, hok]
    · rw [hloop, ← hres_eq]
    · rw [hok]; rfl
    · intro t; rw [← hres_eq]; exact hiff t
    · intro t ht
      rw [← hres_eq] at ht
      refine ⟨hres t ht, fun k1 t1 h1 => ?_⟩
      exact ReachesTab_unique _ _ _ _ _ _ h1 (hres t ht)
    · intro hno; exact absurd hr2 (hnone hno)
    · intro hmiss; exact absurd hr2 (hmissing hmiss)
    · intro row blk t h1 h2 h3
      have := hone row blk t h1 h2 h3
      rw [hres_eq] at this
      exact this
    · intro row blk b1 row1 blk1 t h1 h2 h3 h4 h5 h6
      have := htwo row blk b1 row1 blk1 t h1 h2 h3 h4 h5 h6
      rw [hres_eq] at this
      exact this
  | some e =>
    have hres1 : res.1 = "" := herr (by rw [hr2]; simp)
    have hres_eq : res = ("", some e) := by rw [← hres1, ← hr2]
    have hval := WithTxRtn_err_val inTx st (some "") (DBFindTabForBlockId_fn fuel blockId) e
      htx (by rw [hfn]; exact hr2) (by rw [hfn]; rfl)
    have hdb2 := (WithTxRtn_err inTx st (some "") (DBFindTabForBlockId_fn fuel blockId) e htx
      (by rw [hfn]; exact hr2) (by rw [hfn]; rfl)).2
    rw [hfn] at hdb2
    refine ⟨(("", some e),
      (WithTxRtn inTx st (some "") (DBFindTabForBlockId_fn fuel blockId)).2), n,
      ?_, ?_, hn, ?_, ?_, ?_, by simp, by simp, by simp, ?_, ?_⟩
    · simp only [DBFindTabForBlockId]
      rw [Prod.ext_iff] at hval
      simp only at hval
      rw [hval.1]
      simp only [hval.2]
    · rw [hloop, hres_eq]
    · simp only [hdb2]
      cases inTx <;> rfl
    · intro t; rw [← hres_eq]; exact hiff t
    · intro t ht
      simp at ht
    · intro row blk t h1 h2 h3
      have := hone row blk t h1 h2 h3
      rw [hres_eq] at this
      exact this
    · intro row blk b1 row1 blk1 t h1 h2 h3 h4 h5 h6
      have := htwo row blk b1 row1 blk1 t h1 h2 h3 h4 h5 h6
      rw [hres_eq] at this
      exact this

/-- C10, witness: in the sample store the row of block `blockId` stores the
parent reference `tab:<tabId>`, and the tab found is `tabId`, after one lookup,
with the store unchanged. -/
theorem DBFindTabForBlockId_spec_witness :
    (6 ≤ 6) ∧
    sample.state.db.get OType_Block sample.blockId =
        some { version := 2, data := .Block sample.block } ∧
      sample.block.ParentORef = "tab:11111111-1111-1111-1111-111111111111" ∧
      ∃ r, DBFindTabForBlockId 6 false sample.state sample.blockId = some r ∧
        r.1 = (sample.tabId, none) ∧
        findTabLoop 6 sample.state.enterTx 1 sample.blockId = some (r.1, 1) ∧
        r.2.db = sample.state.db :=
  have h := DBFindTabForBlockId_spec 6 (Nat.le_refl 6) false sample.state sample.blockId
    (Or.inl rfl)
  ⟨Nat.le_refl 6, by decide, rfl,
    h.elim fun r hr => hr.elim fun n hn =>
      have hr1 : r.1 = (sample.tabId, none) :=
        hn.2.2.2.2.2.2.2.2.2.1 { version := 2, data := .Block sample.block } sample.block
          sample.tabId (by decide) rfl (by decide)
      have hn1 : n = 1 :=
        ((hn.2.2.2.2.2.1 sample.tabId hr1).2 1 sample.tabId
          (ReachesTab.tab _ _ ⟨{ version := 2, data := .Block sample.block }, sample.block,
            by decide, rfl, by decide⟩)).1.symm
      ⟨r, hn.1, hr1, hn1 ▸ hn.2.1, hn.2.2.2.1⟩⟩

end wstore

/-! ## Simple merge of metadata maps (C11, C12) -/

namespace sconfig

open starobj

theorem mapGet_eq_none_of_not_mem (m : MetaMapType) (k : String)
    (h : k ∉ m.map Prod.fst) : mapGet m k = none := by
  induction m with
  | nil => rfl
  | cons e rest ih =>
    obtain ⟨k1, v⟩ := e
    simp only [List.map_cons, List.mem_cons, not_or] at h
    simp only [mapGet]
    rw [if_neg (fun hk => h.1 hk.symm)]
    exact ih h.2

theorem mapGet_mapDelete (m : MetaMapType) (k k1 : String) :
    mapGet (mapDelete m k) k1 = if k = k1 then none else mapGet m k1 := by
  induction m with
  | nil => simp [mapDelete, mapGet]
  | cons e rest ih =>
    obtain ⟨k2, v⟩ := e
    unfold mapDelete at ih ⊢
    by_cases h2 : k2 = k
    · subst h2
      simp only [List.filter_cons, bne_self_eq_false, Bool.false_eq_true, if_false, mapGet]
      rw [ih]
      by_cases h3 : k2 = k1 <;> simp [h3]
    · have hb : ((k2, v).1 != k) = true := by simpa using h2
      simp only [List.filter_cons, hb, if_true, mapGet]
      rw [ih]
      by_cases h3 : k2 = k1
      · subst h3; simp [Ne.symm h2]
      · simp [h3]

theorem mapGet_mapSet (m : MetaMapType) (k k1 : String) (v : Option String) :
    mapGet (mapSet m k v) k1 = if k = k1 then some v else mapGet m k1 := by
  simp only [mapSet, mapGet, mapGet_mapDelete]
  by_cases h : k = k1 <;> simp [h]

theorem mapGet_step (m : MetaMapType) (e : String × Option String) (k : String) :
    mapGet (mergeMetaMapSimple_step m e) k
      = if e.1 = k then overlay (some e.2) (mapGet m k) else mapGet m k := by
  obtain ⟨k1, v⟩ := e
  cases v with
  | none => simp [mergeMetaMapSimple_step, mapGet_mapDelete, overlay]
  | some v => simp [mergeMetaMapSimple_step, mapGet_mapSet, overlay]

theorem mapGet_foldl (t : MetaMapType) (ht : (t.map Prod.fst).Nodup) (l : MetaMapType)
    (k : String) :
    mapGet (t.foldl mergeMetaMapSimple_step l) k = overlay (mapGet t k) (mapGet l k) := by
  induction t generalizing l with
  | nil => simp [mapGet, overlay]
  | cons e rest ih =>
    obtain ⟨k1, v⟩ := e
    simp only [List.map_cons, List.nodup_cons] at ht
    simp only [List.foldl_cons]
    rw [ih ht.2, mapGet_step]
    by_cases h : k1 = k
    · subst h
      simp only [mapGet, if_true, mapGet_eq_none_of_not_mem rest k1 ht.1]
      cases v <;> simp [overlay]
    · simp [mapGet, h]

theorem mapDelete_keys_sublist (m : MetaMapType) (k : String) :
    ((mapDelete m k).map Prod.fst).Sublist (m.map Prod.fst) :=
  (List.filter_sublist m).map Prod.fst

theorem not_mem_keys_mapDelete (m : MetaMapType) (k : String) :
    k ∉ (mapDelete m k).map Prod.fst := by
  simp [mapDelete]

theorem step_keysNodup (m : MetaMapType) (e : String × Option String)
    (h : (m.map Prod.fst).Nodup) : ((mergeMetaMapSimple_step m e).map Prod.fst).Nodup := by
  obtain ⟨k1, v⟩ := e
  have hd : ((mapDelete m k1).map Prod.fst).Nodup := h.sublist (mapDelete_keys_sublist m k1)
  cases v with
  | none => exact hd
  | some v =>
    simp only [mergeMetaMapSimple_step, mapSet, List.map_cons, List.nodup_cons]
    exact ⟨not_mem_keys_mapDelete m k1, hd⟩

theorem foldl_keysNodup (t l : MetaMapType) (h : (l.map Prod.fst).Nodup) :
    ((t.foldl mergeMetaMapSimple_step l).map Prod.fst).Nodup := by
  induction t generalizing l with
  | nil => exact h
  | cons e rest ih => exact ih _ (step_keysNodup l e h)

theorem mergeMetaMapSimple_keysNodup (m t : Option MetaMapType)
    (hm : keysNodup m) (ht : keysNodup t) : keysNodup (mergeMetaMapSimple m t) := by
  cases m with
  | none => exact ht
  | some l =>
    cases t with
    | none => exact hm
    | some t =>
      simp only [mergeMetaMapSimple]
      split
      · trivial
      · exact foldl_keysNodup t l hm

/-- Reading the result of a merge of two maps that are not nil. -/
theorem lookup_merge_some (l t : MetaMapType) (ht : (t.map Prod.fst).Nodup) (k : String) :
    lookup (mergeMetaMapSimple (some l) (some t)) k = overlay (mapGet t k) (mapGet l k) := by
  simp only [mergeMetaMapSimple]
  split
  · rename_i h
    have h0 : t.foldl mergeMetaMapSimple_step l = [] := List.length_eq_zero.mp h
    have := mapGet_foldl t ht l k
    rw [h0] at this
    simpa [lookup, mapGet] using this
  · exact mapGet_foldl t ht l k

theorem lookup_merge (m t : Option MetaMapType) (ht : keysNodup t) (k : String) :
    lookup (mergeMetaMapSimple m t) k =
      match m, t with
      | none, _ => lookup t k
      | some _, none => lookup m k
      | some _, some _ => overlay (lookup t k) (lookup m k) := by
  cases m with
  | none => rfl
  | some l =>
    cases t with
    | none => rfl
    | some t => exact lookup_merge_some l t ht k

theorem overlay_none_left (x : Option (Option String)) : overlay none x = x := rfl

theorem overlay_assoc (cv bv av : Option (Option String)) (hc : cv ≠ some none) :
    overlay cv (overlay bv av) = overlay (overlay cv bv) av := by
  cases cv with
  | none => rfl
  | some v =>
    cases v with
    | none => exact absurd rfl hc
    | some v => rfl

theorem overlay_eq_none_of_ne (cv bv : Option (Option String)) (hc : cv ≠ some none)
    (h : overlay cv bv = none) : cv = none ∧ bv = none := by
  cases cv with
  | none => exact ⟨rfl, h⟩
  | some v =>
    cases v with
    | none => exact absurd rfl hc
    | some v => simp [overlay] at h

/-- C11 (as amended): simple merge is associative, read as key-value mappings,
whenever the last map `c` maps no key to nil; the keys of `b` and of `c` are
pairwise different, as in every Go map. -/
theorem mergeMetaMapSimple_assoc (a b c : Option MetaMapType)
    (hb : keysNodup b) (hc : keysNodup c) (hnil : ∀ k, lookup c k ≠ some none) (k : String) :
    lookup (mergeMetaMapSimple (mergeMetaMapSimple a b) c) k
      = lookup (mergeMetaMapSimple a (mergeMetaMapSimple b c)) k := by
  have hbc : keysNodup (mergeMetaMapSimple b c) := mergeMetaMapSimple_keysNodup b c hb hc
  cases a with
  | none => rfl
  | some la =>
    cases b with
    | none => rfl
    | some lb =>
      cases c with
      | none =>
        have h1 : mergeMetaMapSimple (some lb) none = some lb := rfl
        rw [h1]
        cases hx : mergeMetaMapSimple (some la) (some lb) <;> rfl
      | some lc =>
        have hl : ∀ k, lookup (mergeMetaMapSimple (some la) (some lb)) k
            = overlay (mapGet lb k) (mapGet la k) := lookup_merge_some la lb hb
        have hr : ∀ k, lookup (mergeMetaMapSimple (some lb) (some lc)) k
            = overlay (mapGet lc k) (mapGet lb k) := lookup_merge_some lb lc hc
        have hck : mapGet lc k ≠ some none := hnil k
        have hL : lookup (mergeMetaMapSimple (mergeMetaMapSimple (some la) (some lb)) (some lc)) k
            = overlay (mapGet lc k) (overlay (mapGet lb k) (mapGet la k)) := by
          cases hx : mergeMetaMapSimple (some la) (some lb) with
          | none =>
            have h0 := hl k
            rw [hx] at h0
            rw [← h0]
            cases hv : mapGet lc k with
            | none => simp [mergeMetaMapSimple, lookup, hv, overlay]
            | some v =>
              cases v with
              | none => exact absurd hv hck
              | some v => simp [mergeMetaMapSimple, lookup, hv, overlay]
          | some x =>
            have h0 := hl k
            rw [hx] at h0
            rw [lookup_merge_some x lc hc k, ← h0]
            rfl
        have hR : lookup (mergeMetaMapSimple (some la) (mergeMetaMapSimple (some lb) (some lc))) k
            = overlay (overlay (mapGet lc k) (mapGet lb k)) (mapGet la k) := by
          cases hy : mergeMetaMapSimple (some lb) (some lc) with
          | none =>
            have h0 := hr k
            rw [hy] at h0
            have h1 : overlay (mapGet lc k) (mapGet lb k) = none := h0.symm
            rw [h1]
            rfl
          | some y =>
            have h0 := hr k
            rw [hy] at h0 hbc
            rw [lookup_merge_some la y hbc k, ← h0]
            rfl
        rw [hL, hR]
        exact overlay_assoc _ _ _ hck

/-- C11 (witness): three maps, the last without nil values. -/
theorem mergeMetaMapSimple_assoc_witness :
    keysNodup (some [("k", none), ("j", some "2")]) ∧ keysNodup (some [("k", some "3")])
      ∧ lookup (mergeMetaMapSimple (mergeMetaMapSimple (some [("k", some "1")])
            (some [("k", none), ("j", some "2")])) (some [("k", some "3")])) "k"
        = lookup (mergeMetaMapSimple (some [("k", some "1")])
            (mergeMetaMapSimple (some [("k", none), ("j", some "2")]) (some [("k", some "3")]))) "k" :=
  ⟨by decide, by decide,
    mergeMetaMapSimple_assoc (some [("k", some "1")]) (some [("k", none), ("j", some "2")])
      (some [("k", some "3")]) (by decide) (by decide)
      (by intro k; simp only [lookup, mapGet]; split <;> simp) "k"⟩

/-- C11 (counterexample): with `a = {k: 1}`, `b = {k: nil, j: 2}` and
`c = {k: nil}`, none of them nil, the two groupings differ at the key `k`: merged
from the left `k` is absent, merged from the right `k` still maps to `1`. -/
theorem mergeMetaMapSimple_assoc_counterexample :
    ¬ (∀ (a b c : Option MetaMapType), keysNodup a → keysNodup b → keysNodup c → ∀ k : String,
        lookup (mergeMetaMapSimple (mergeMetaMapSimple a b) c) k
          = lookup (mergeMetaMapSimple a (mergeMetaMapSimple b c)) k) := by
  intro h
  exact absurd (h (some [("k", some "1")]) (some [("k", none), ("j", some "2")])
    (some [("k", none)]) (by decide) (by decide) (by decide) "k") (by decide)

/-- C12 (counterexample): merged into the nil map, the map `{k: nil}` comes back
as it is, with `k` present and mapped to nil, so a key that `toMerge` maps to
nil is not absent from the result; merged into an empty map that is not nil the
same map gives a result without `k`. -/
theorem mergeMetaMapSimple_nil_target :
    mergeMetaMapSimple none (some [("k", none)]) = some [("k", none)]
      ∧ lookup (mergeMetaMapSimple none (some [("k", none)])) "k" = some none
      ∧ lookup (mergeMetaMapSimple (some []) (some [("k", none)])) "k" = none := by
  decide

/-- C12 (amended): for all maps `m` and `toMerge` (keys of a Go map are pairwise
different).  When `m` is nil the result is `toMerge` itself, the keys that it
maps to nil included; when `toMerge` is nil the result is `m`.  When neither is
nil, for every key `k` of the result `r` (read as the empty map when it is
nil): if `toMerge` maps `k` to a value `v` that is not nil then `r[k] = v`; if
`toMerge` maps `k` to nil then `k` is absent from `r`; otherwise `k` is in `r`
exactly when it is in `m`, with the value of `m`. -/
theorem mergeMetaMapSimple_overwrite (m toMerge : Option MetaMapType)
    (ht : keysNodup toMerge) (k : String) :
    (m = none → mergeMetaMapSimple m toMerge = toMerge)
      ∧ (toMerge = none → mergeMetaMapSimple m toMerge = m)
      ∧ (m ≠ none → toMerge ≠ none →
          (∀ v, lookup toMerge k = some (some v) →
            lookup (mergeMetaMapSimple m toMerge) k = some (some v))
          ∧ (lookup toMerge k = some none → lookup (mergeMetaMapSimple m toMerge) k = none)
          ∧ (lookup toMerge k = none →
            lookup (mergeMetaMapSimple m toMerge) k = lookup m k)) := by
  refine ⟨?_, ?_, ?_⟩
  · intro hm
    subst hm
    rfl
  · intro htn
    subst htn
    cases m <;> rfl
  · intro hm htn
    have hl := lookup_merge m toMerge ht k
    cases m with
    | none => exact absurd rfl hm
    | some l =>
      cases toMerge with
      | none => exact absurd rfl htn
      | some t =>
        simp only at hl
        refine ⟨?_, ?_, ?_⟩
        · intro v hv
          rw [hl, hv]
          rfl
        · intro hv
          rw [hl, hv]
          rfl
        · intro hv
          rw [hl, hv]
          rfl

/-- C12 (witness): the maps `{k: "1", j: "2"}` and `{k: nil, i: "3"}`. -/
theorem mergeMetaMapSimple_overwrite_witness :
    keysNodup (some [("k", none), ("i", some "3")])
      ∧ (lookup (some [("k", none), ("i", some "3")]) "k" = some none →
          lookup (mergeMetaMapSimple (some [("k", some "1"), ("j", some "2")])
            (some [("k", none), ("i", some "3")])) "k" = none) :=
  ⟨by decide,
    ((mergeMetaMapSimple_overwrite (some [("k", some "1"), ("j", some "2")])
      (some [("k", none), ("i", some "3")]) (by decide) "k").2.2
      (by simp) (by simp)).2.1⟩

end sconfig

/-! ## Converting arguments (C13, C14) -/

namespace service

open starobj

theorem isSpecialStarArgType_oref : isSpecialStarArgType orefRType = false := by decide

theorem isSpecialStarArgType_basic (b : Basic) : isSpecialStarArgType (.basic b) = false := by
  cases b <;> rfl

/-- C13 (evaluation at the failing input): for the parameter type `ORef` and the
canonical reference `tab:11111111-1111-1111-1111-111111111111`, which `ParseORef`
accepts, `convertSpecial` would return the parsed reference, but
`convertArgument` does not go there: `isSpecialStarArgType` is false for `ORef`,
the type is a struct, and every JSON string is answered with the error
"cannot convert string to starobj.ORef". -/
theorem convertArgument_oref_string (ext : Extern) :
    (ParseORef "tab:11111111-1111-1111-1111-111111111111").2 = none
      ∧ convertSpecial ext orefRType (.string "tab:11111111-1111-1111-1111-111111111111")
          = (.oref (ParseORef "tab:11111111-1111-1111-1111-111111111111").1, none)
      ∧ isSpecialStarArgType orefRType = false
      ∧ ∀ s : String, convertArgument ext orefRType (.string s)
          = (.nil, some (.errorf "cannot convert %T to %s" ["string", "starobj.ORef"])) :=
  ⟨by decide, rfl, by decide, fun _ => rfl⟩

/-- The size of the integer part is the size of the number rounded down. -/
theorem truncFloat_natAbs (mant exp : Int) (h : exp < 0) :
    (truncFloat mant exp).natAbs = mant.natAbs / 2 ^ (-exp).toNat := by
  have h0 : ¬ (0 ≤ exp) := not_le.mpr h
  simp only [truncFloat, if_neg h0, Int.natAbs_tdiv, Int.natAbs_pow]
  rfl

theorem convertNumber_integer (ext : Extern) (b : Basic) (mant exp : Int)
    (hb : (intRange b.Kind).isSome = true) :
    convertNumber ext (.basic b) mant exp = (.int b.Kind (floatToInt ext b.Kind mant exp), none) := by
  cases b <;> first | rfl | exact absurd hb (by decide)

theorem convertArgument_number (ext : Extern) (b : Basic) (mant exp : Int)
    (hb : (intRange b.Kind).isSome = true) :
    convertArgument ext (.basic b) (.number mant exp) = convertNumber ext (.basic b) mant exp := by
  cases b <;> first | rfl | exact absurd hb (by decide)

/-- C14 (as amended): for a parameter of an integer kind `convertArgument` never
answers a JSON number with an error; it returns the Go conversion of the number
to that kind, which is the number with its fraction dropped whenever that
integer lies in the range of the kind. -/
theorem convertArgument_integer (ext : Extern) (b : Basic) (mant exp : Int)
    (hb : (intRange b.Kind).isSome = true) :
    convertArgument ext (.basic b) (.number mant exp)
        = (.int b.Kind (floatToInt ext b.Kind mant exp), none)
      ∧ (inRange b.Kind (truncFloat mant exp) = true →
          floatToInt ext b.Kind mant exp = truncFloat mant exp) := by
  refine ⟨?_, ?_⟩
  · rw [convertArgument_number ext b mant exp hb, convertNumber_integer ext b mant exp hb]
  · intro h
    simp [floatToInt, h]

/-- C14 (witness): the number 2.5 for an `int8` parameter gives 2. -/
theorem convertArgument_integer_witness :
    (intRange Basic.Int8.Kind).isSome = true
      ∧ (convertArgument sample.ext (.basic .Int8) (.number 5 (-1))
          = (.int Basic.Int8.Kind (floatToInt sample.ext Basic.Int8.Kind 5 (-1)), none)
        ∧ (inRange Basic.Int8.Kind (truncFloat 5 (-1)) = true →
            floatToInt sample.ext Basic.Int8.Kind 5 (-1) = truncFloat 5 (-1))) :=
  ⟨by decide, convertArgument_integer sample.ext .Int8 5 (-1) (by decide)⟩

/-- C14 (counterexample): the number 1.5 (that is 3 * 2 ^ (-1)) has a fractional
part, and for an `int` parameter `convertArgument` returns 1 and no error; the
number 300 lies outside the range of `int8` and is converted without an error
too. -/
theorem convertArgument_integer_counterexample :
    (representable .Int 3 (-1) = false
        ∧ convertArgument sample.ext (.basic .Int) (.number 3 (-1)) = (.int .Int 1, none))
      ∧ (representable .Int8 300 0 = false
        ∧ (convertArgument sample.ext (.basic .Int8) (.number 300 0)).2 = none) :=
  ⟨⟨by decide, rfl⟩, ⟨by decide, rfl⟩⟩

end service

/-! ## `CallService` (C15) -/

namespace service

open starobj

theorem sprintfChars_head (c d : Char) (rest : List Char) (args : List String) (h : c ≠ '%') :
    sprintfChars (c :: d :: rest) args = c :: sprintfChars (d :: rest) args := by
  simp [sprintfChars, h]

theorem errorf_Error_ne_empty (format : String) (args : List String) (c d : Char)
    (rest : List Char) (hf : format.data = c :: d :: rest) (hc : c ≠ '%') :
    (GoError.errorf format args).Error ≠ "" := by
  intro h
  have h1 : (GoError.errorf format args).Error.data = [] := by rw [h]
  simp [GoError.Error, hf, sprintfChars_head c d rest args hc] at h1

theorem webErrorRtn_fields (err : GoError) :
    (webErrorRtn err).Success = false ∧ (webErrorRtn err).Error = err.Error := ⟨rfl, rfl⟩

/-- An error of the argument loop has a text. -/
theorem CallService_loop_error_text (ext : Extern) (webCall : WebCallType) (ins : List RType)
    (idx argIdx : Nat) (valueArgs : List Native) (err : GoError)
    (h : (CallService_loop ext webCall ins idx argIdx valueArgs).2 = some err) :
    err.Error ≠ "" := by
  induction ins generalizing idx argIdx valueArgs with
  | nil => simp [CallService_loop] at h
  | cons argType rest ih =>
    rw [CallService_loop] at h
    split at h
    · exact ih _ _ _ h
    · split at h
      · split at h
        · simp only [Option.some.injEq] at h
          rw [← h]
          exact errorf_Error_ne_empty _ _ 'm' 'i' _ rfl (by decide)
        · exact ih _ _ _ h
      · split at h
        · simp only [Option.some.injEq] at h
          rw [← h]
          exact errorf_Error_ne_empty _ _ 'n' 'o' _ rfl (by decide)
        · dsimp only at h
          split at h
          · simp only [Option.some.injEq] at h
            rw [← h]
            exact errorf_Error_ne_empty _ _ 'c' 'a' _ rfl (by decide)
          · exact ih _ _ _ h

/-- A run of the argument loop without error has found an argument for every
declared parameter. -/
theorem CallService_loop_ok_length (ext : Extern) (webCall : WebCallType) (ins : List RType)
    (idx argIdx : Nat) (valueArgs : List Native) (hle : argIdx ≤ webCall.Args.length)
    (h : (CallService_loop ext webCall ins idx argIdx valueArgs).2 = none) :
    argIdx + declaredArgs ins idx ≤ webCall.Args.length := by
  induction ins generalizing idx argIdx valueArgs with
  | nil => simpa [declaredArgs] using hle
  | cons argType rest ih =>
    rw [CallService_loop] at h
    rw [declaredArgs]
    split at h
    · rename_i hc
      rw [if_pos (Or.inl hc)]
      simpa using ih _ _ _ hle h
    · rename_i hc
      split at h
      · rename_i hu
        rw [if_pos (Or.inr hu)]
        split at h
        · simp at h
        · simpa using ih _ _ _ hle h
      · rename_i hu
        rw [if_neg (by rintro (h1 | h1) <;> contradiction)]
        split at h
        · simp at h
        · rename_i jsonArg hget
          dsimp only at h
          split at h
          · simp at h
          · have hlt : argIdx < webCall.Args.length := by
              rcases List.getElem?_eq_some.mp hget with ⟨hl, _⟩
              exact hl
            have := ih (idx + 1) (argIdx + 1) _ hlt h
            omega

/-- Arguments beyond the declared parameters are not looked at. -/
theorem CallService_loop_surplus (ext : Extern) (webCall : WebCallType) (extra : List JsonArg)
    (ins : List RType) (idx argIdx : Nat) (valueArgs : List Native)
    (h : argIdx + declaredArgs ins idx ≤ webCall.Args.length) :
    CallService_loop ext { webCall with Args := webCall.Args ++ extra } ins idx argIdx valueArgs
      = CallService_loop ext webCall ins idx argIdx valueArgs := by
  obtain ⟨svc, meth, ui, args⟩ := webCall
  dsimp only at h ⊢
  induction ins generalizing idx argIdx valueArgs with
  | nil => rfl
  | cons argType rest ih =>
    rw [declaredArgs] at h
    rw [CallService_loop, CallService_loop]
    by_cases hc : idx = 0 ∧ argType.same contextRType = true
    · rw [if_pos hc, if_pos hc]
      rw [if_pos (Or.inl hc)] at h
      exact ih _ _ _ (by simpa using h)
    · rw [if_neg hc, if_neg hc]
      by_cases hu : argType.same uiContextRType = true
      · rw [if_pos hu, if_pos hu]
        rw [if_pos (Or.inr hu)] at h
        cases ui with
        | none => rfl
        | some u => exact ih _ _ _ (by simpa using h)
      · rw [if_neg hu, if_neg hu]
        rw [if_neg (by rintro (h1 | h1) <;> contradiction)] at h
        have hlt : argIdx < args.length := by omega
        have hget : (args ++ extra)[argIdx]? = args[argIdx]? :=
          List.getElem?_append_left hlt
        simp only [hget]
        rw [List.getElem?_eq_getElem hlt]
        dsimp only
        cases hconv : (convertArgument ext argType args[argIdx]).2 with
        | none => exact ih _ _ _ (by omega)
        | some err => rfl

theorem CallService_of_method (ext : Extern) (ServiceMap : ServiceMapType)
    (webCall : WebCallType) (method : Method)
    (hm : findMethod ServiceMap webCall.Service webCall.Method = some method) :
    CallService ext ServiceMap webCall =
      match (CallService_loop ext webCall method.In 0 0 []).2 with
      | some err => { rtn := webErrorRtn err, called := none }
      | none =>
        { rtn := convertReturnValues ext
            (method.Call (CallService_loop ext webCall method.In 0 0 []).1),
          called := some (CallService_loop ext webCall method.In 0 0 []).1 } := by
  unfold findMethod at hm
  unfold CallService
  cases hs : ServiceMap.lookup webCall.Service with
  | none => simp [hs] at hm
  | some methods =>
    simp only [hs] at hm
    simp only [hm]

/-- C15 (as amended): `CallService` invokes the target method only when at
least as many JSON arguments are supplied as the method declares apart from the
leading context and any `UIContext` parameter; with fewer arguments it returns
an error result (`Success` false, `Error` not empty) without invoking the
method; arguments beyond the declared ones are ignored, the call goes as if
they had not been supplied. -/
theorem CallService_argument_count (ext : Extern) (ServiceMap : ServiceMapType)
    (webCall : WebCallType) (method : Method)
    (hm : findMethod ServiceMap webCall.Service webCall.Method = some method) :
    ((CallService ext ServiceMap webCall).called ≠ none →
        declaredArgs method.In 0 ≤ webCall.Args.length)
      ∧ (webCall.Args.length < declaredArgs method.In 0 →
          (CallService ext ServiceMap webCall).called = none
            ∧ (CallService ext ServiceMap webCall).rtn.Success = false
            ∧ (CallService ext ServiceMap webCall).rtn.Error ≠ "")
      ∧ (declaredArgs method.In 0 ≤ webCall.Args.length → ∀ extra : List JsonArg,
          CallService ext ServiceMap { webCall with Args := webCall.Args ++ extra }
            = CallService ext ServiceMap webCall) := by
  have hcs := CallService_of_method ext ServiceMap webCall method hm
  have hlen := CallService_loop_ok_length ext webCall method.In 0 0 [] (Nat.zero_le _)
  refine ⟨?_, ?_, ?_⟩
  · intro hcalled
    cases hl : (CallService_loop ext webCall method.In 0 0 []).2 with
    | some err =>
      rw [hcs, hl] at hcalled
      exact absurd rfl hcalled
    | none => simpa using hlen hl
  · intro hlt
    cases hl : (CallService_loop ext webCall method.In 0 0 []).2 with
    | some err =>
      rw [hcs, hl]
      exact ⟨rfl, rfl, CallService_loop_error_text ext webCall method.In 0 0 [] err hl⟩
    | none =>
      have := hlen hl
      omega
  · intro hle extra
    have hm2 : findMethod ServiceMap
        ({ webCall with Args := webCall.Args ++ extra } : WebCallType).Service
        ({ webCall with Args := webCall.Args ++ extra } : WebCallType).Method = some method := hm
    rw [CallService_of_method ext ServiceMap _ method hm2, hcs,
      CallService_loop_surplus ext webCall extra method.In 0 0 [] (by simpa using hle)]

/-- C15 (witness): the method `Echo(ctx, s)` called with one argument. -/
theorem CallService_argument_count_witness :
    findMethod sample.serviceMap "test" "Echo" = some sample.echoMethod
      ∧ (CallService sample.ext sample.serviceMap
          { Service := "test", Method := "Echo", UIContext := none, Args := [.string "a"] }).called
        = some [.ctx, .string "a"]
      ∧ ((CallService sample.ext sample.serviceMap
            { Service := "test", Method := "Echo", UIContext := none, Args := [.string "a"] }).called
          ≠ none → declaredArgs sample.echoMethod.In 0 ≤ 1) :=
  ⟨rfl, rfl,
    (CallService_argument_count sample.ext sample.serviceMap
      { Service := "test", Method := "Echo", UIContext := none, Args := [.string "a"] }
      sample.echoMethod rfl).1⟩

/-- C15 (counterexample): the method `Echo(ctx, s)` declares one parameter apart
from the context; called with the two arguments "a" and "b" it is invoked, with
"a", and the result is a success. -/
theorem CallService_argument_count_counterexample :
    declaredArgs sample.echoMethod.In 0 = 1
      ∧ (CallService sample.ext sample.serviceMap
          { Service := "test", Method := "Echo", UIContext := none,
            Args := [.string "a", .string "b"] }).called = some [.ctx, .string "a"]
      ∧ (CallService sample.ext sample.serviceMap
          { Service := "test", Method := "Echo", UIContext := none,
            Args := [.string "a", .string "b"] }).rtn.Success = true :=
  ⟨by decide, rfl, rfl⟩

end service

/-! ## Validating method signatures (C16) -/

namespace service

open starobj

theorem baseValidateServiceArg_fields_of_mem (fields : List RType) (f : RType)
    (hf : f ∈ fields) (h : baseValidateServiceArg f ≠ none) :
    baseValidateServiceArg_fields fields ≠ none := by
  induction fields with
  | nil => cases hf
  | cons g rest ih =>
    rw [baseValidateServiceArg_fields]
    cases hg : baseValidateServiceArg g with
    | some err => simp
    | none =>
      simp only
      rcases List.mem_cons.mp hf with h1 | h1
      · rw [h1] at h; exact absurd hg h
      · exact ih h1

theorem same_starObjUpdateRType_struct (name : String) (fields : List RType)
    (h : name ≠ "starobj.StarObjUpdate") :
    (RType.struct name fields).same starObjUpdateRType = false := by
  simp [RType.same, starObjUpdateRType, h]

/-- C16 (as amended): for every type that does not contain itself (the values
of `RType`), `baseValidateServiceArg` returns an error when the type contains a
channel, a function or an interface, at any nesting depth inside pointers,
slices, arrays, map values and struct fields, the fields of `StarObjUpdate`
left aside; so does `validateMethodArg` for every such type other than the
specially allowed StarObj types and the context. -/
theorem baseValidateServiceArg_rejects (t u : RType) (hc : Contains t u)
    (hu : isChanFuncInterface u = true) :
    baseValidateServiceArg t ≠ none
      ∧ (isSpecialStarArgType t = false → t.same contextRType = false →
          validateMethodArg t ≠ none) := by
  have hbase : baseValidateServiceArg t ≠ none := by
    induction hc with
    | here t =>
      cases t <;> simp [isChanFuncInterface, RType.Kind] at hu <;>
        simp [baseValidateServiceArg, RType.same, starObjUpdateRType]
      rename_i b
      cases b <;> simp [Basic.Kind] at hu
    | ptr elem u _ ih =>
      rw [baseValidateServiceArg]
      simpa [RType.same, starObjUpdateRType] using ih hu
    | slice elem u _ ih =>
      rw [baseValidateServiceArg]
      simpa [RType.same, starObjUpdateRType] using ih hu
    | array n elem u _ ih =>
      rw [baseValidateServiceArg]
      simpa [RType.same, starObjUpdateRType] using ih hu
    | mapValue key elem u _ ih =>
      rw [baseValidateServiceArg]
      simp only [RType.same, starObjUpdateRType, Bool.false_eq_true, if_false]
      split
      · simp
      · exact ih hu
    | field name fields f u hn hf _ ih =>
      rw [baseValidateServiceArg, same_starObjUpdateRType_struct name fields hn]
      simp only [Bool.false_eq_true, if_false]
      exact baseValidateServiceArg_fields_of_mem fields f hf (ih hu)
  refine ⟨hbase, ?_⟩
  intro h1 h2
  simp only [validateMethodArg, h1, h2, Bool.or_self, Bool.false_eq_true, if_false]
  exact hbase

/-- C16 (witness): a slice of structs with a field that points to a channel. -/
theorem baseValidateServiceArg_rejects_witness :
    Contains (.slice (.struct "x" [.basic .Int, .ptr (.chan (.basic .Int))])) (.chan (.basic .Int))
      ∧ baseValidateServiceArg (.slice (.struct "x" [.basic .Int, .ptr (.chan (.basic .Int))]))
          ≠ none :=
  have hc : Contains (.slice (.struct "x" [.basic .Int, .ptr (.chan (.basic .Int))]))
      (.chan (.basic .Int)) :=
    .slice _ _ (.field "x" _ (.ptr (.chan (.basic .Int))) _ (by decide) (by simp)
      (.ptr _ _ (.here _)))
  ⟨hc, (baseValidateServiceArg_rejects _ _ hc rfl).1⟩

/-- C16 (counterexample): a pointer to `int`, whose element type is not a struct,
is accepted, and so is a slice of such pointers; the struct `StarObjUpdate`,
which has a field of the interface type `StarObj`, is accepted too. -/
theorem baseValidateServiceArg_rejects_counterexample :
    (baseValidateServiceArg (.ptr (.basic .Int)) = none
        ∧ validateMethodArg (.ptr (.basic .Int)) = none
        ∧ baseValidateServiceArg (.slice (.ptr (.basic .Int))) = none)
      ∧ (baseValidateServiceArg starObjUpdateRType = none
        ∧ starObjRType ∈ [RType.basic .String, .basic .String, .basic .String, starObjRType]
        ∧ isChanFuncInterface starObjRType = true) :=
  ⟨⟨by decide, by decide, by decide⟩, ⟨by decide, by simp, by decide⟩⟩

end service

/-! ## The object service (C17) -/

namespace objectservice

open starobj wstore

/-- A reference that `ParseORef` accepts is accepted by `parseORef`, with the
same result. -/
theorem parseORef_of_ParseORef (s : String) (o : ORef) (h : ParseORef s = (o, none)) :
    parseORef s = (some o, none) := by
  have hs := (ParseORef_ok_fields s o h).1
  simp [parseORef, hs]

/-- C17 (evaluation at the failing input): the string `tab:not-a-uuid`, whose id
is no UUID, and the string `foo:11111111-1111-1111-1111-111111111111`, whose type
is not registered, are rejected by `starobj.ParseORef` and accepted by
`parseORef`.  With the first one `GetObject` and `GetObjects` query the store
and return no error, and `UpdateObjectMeta` returns the error `not found` of the
store. -/
theorem parseORef_accepts_malformed :
    ((ParseORef "tab:not-a-uuid").2 ≠ none
        ∧ parseORef "tab:not-a-uuid" = (some { OType := "tab", OID := "not-a-uuid" }, none))
      ∧ ((ParseORef "foo:11111111-1111-1111-1111-111111111111").2 ≠ none
        ∧ parseORef "foo:11111111-1111-1111-1111-111111111111"
            = (some { OType := "foo", OID := "11111111-1111-1111-1111-111111111111" }, none))
      ∧ GetObject sample.state.db "tab:not-a-uuid" = ((none, none), sample.state.db)
      ∧ GetObjects sample.state.db ["tab:not-a-uuid"] = (([], none), sample.state.db)
      ∧ (UpdateObjectMeta (fun m _ _ => m) sample.state.db "tab:not-a-uuid" []).1.2
          = some (.wrap "error updating %q meta: %w" ErrNotFound) := by
  decide

end objectservice

/-! ## `SetMetaCommand` (C19) -/

namespace starobj

theorem GetOType_SetMeta (o : StarObj) (m : MetaMapType) : GetOType (SetMeta o m) = GetOType o := by
  cases o <;> rfl

theorem GetOID_SetMeta (o : StarObj) (m : MetaMapType) : GetOID (SetMeta o m) = GetOID o := by
  cases o <;> rfl

theorem GetMeta_SetMeta (o : StarObj) (m : MetaMapType) : GetMeta (SetMeta o m) = m := by
  cases o <;> rfl

theorem GetMeta_SetVersion (o : StarObj) (v : Int) : GetMeta (SetVersion o v) = GetMeta o := by
  cases o <;> rfl

end starobj

namespace wstore

open starobj

/-- Outside a transaction `DBGetORef` reads the row in a transaction of its own. -/
theorem DBGetORef_background (db : DB) (oref : ORef) :
    DBGetORef false (background db) oref =
      (((db.get oref.OType oref.OID).map (fun row => SetVersion row.data row.version), none),
        background db) := by
  cases hg : DB.get db oref.OType oref.OID <;>
    simp [DBGetORef, WithTxRtn, WithTx, txwrapWithTx, txGet, background, hg,
      ContextUpdatesBeginTx, ContextUpdatesCommitTx]

/-- What the transaction of `UpdateObjectMeta` does for a reference that is not
empty and has a row. -/
theorem UpdateObjectMeta_fn_run (MergeMeta : MetaMapType → MetaMapType → Bool → MetaMapType)
    (s : State) (oref : ORef) (meta : MetaMapType) (mergeSpecial : Bool) (row : Row)
    (htx : s.txErr = none) (hne : oref.IsEmpty = false)
    (hget : s.db.get oref.OType oref.OID = some row) :
    (UpdateObjectMeta_fn MergeMeta oref meta mergeSpecial s).1 = ((), none)
      ∧ (UpdateObjectMeta_fn MergeMeta oref meta mergeSpecial s).2.txErr = none
      ∧ (UpdateObjectMeta_fn MergeMeta oref meta mergeSpecial s).2.db.get oref.OType oref.OID
          = some { version := row.version + 1,
                   data := SetMeta (SetVersion row.data row.version)
                     (MergeMeta (GetMeta row.data) meta mergeSpecial) } := by
  have hrow := get_some_inTable _ _ _ _ hget
  have hoid : oref.OID ≠ "" := by
    intro h
    simp [ORef.IsEmpty, h] at hne
  have hoid1 : GetOID (SetMeta (SetVersion row.data row.version)
      (MergeMeta (GetMeta row.data) meta mergeSpecial)) ≠ "" := by
    rw [GetOID_SetMeta, GetOID_SetVersion, hrow.2.1]; exact hoid
  have hot1 : GetOType (SetMeta (SetVersion row.data row.version)
      (MergeMeta (GetMeta row.data) meta mergeSpecial)) = oref.OType := by
    rw [GetOType_SetMeta, GetOType_SetVersion, hrow.1]
  have hid1 : GetOID (SetMeta (SetVersion row.data row.version)
      (MergeMeta (GetMeta row.data) meta mergeSpecial)) = oref.OID := by
    rw [GetOID_SetMeta, GetOID_SetVersion, hrow.2.1]
  have hfn : UpdateObjectMeta_fn MergeMeta oref meta mergeSpecial s =
      (((), none), (DBUpdate true s (SetMeta (SetVersion row.data row.version)
        (MergeMeta (GetMeta row.data) meta mergeSpecial))).2) := by
    simp [UpdateObjectMeta_fn, hne, DBGetORef_run s oref htx, hget, GetMeta_SetVersion]
  rw [hfn, DBUpdate_run true s _ hoid1 (Or.inr htx)]
  refine ⟨rfl, rfl, ?_⟩
  have := get_update_same s.db (SetMeta (SetVersion row.data row.version)
      (MergeMeta (GetMeta row.data) meta mergeSpecial))
  rw [hot1, hid1] at this
  simp only [hot1, hid1]
  rw [this, hget]
  rfl

end wstore


namespace wshserver

open starobj wstore wps

theorem UpdateObjectMeta_ok (MergeMeta : MetaMapType → MetaMapType → Bool → MetaMapType)
    (st : State) (oref : ORef) (meta : MetaMapType) (row : Row)
    (hne : oref.IsEmpty = false) (hget : st.db.get oref.OType oref.OID = some row) :
    (wstore.UpdateObjectMeta MergeMeta false st oref meta false).1 = none
      ∧ (wstore.UpdateObjectMeta MergeMeta false st oref meta false).2.db.get oref.OType oref.OID
          = some { version := row.version + 1,
                   data := SetMeta (SetVersion row.data row.version)
                     (MergeMeta (GetMeta row.data) meta false) } := by
  have hfn := UpdateObjectMeta_fn_run MergeMeta st.enterTx oref meta false row rfl hne hget
  have hw := WithTx_ok false st () (UpdateObjectMeta_fn MergeMeta oref meta false)
    (Or.inl rfl) (by rw [hfn.1]) hfn.2.1
  simp only [wstore.UpdateObjectMeta, hw]
  exact ⟨trivial, hfn.2.2⟩

theorem UpdateObjectMeta_err_events (MergeMeta : MetaMapType → MetaMapType → Bool → MetaMapType)
    (st : State) (events : List StarEvent) (data : CommandSetMetaData)
    (err : GoError) (st1 : State) (events1 : List StarEvent)
    (h : SetMetaCommand MergeMeta st events data = some ((some err, st1), events1)) :
    events1 = events := by
  unfold SetMetaCommand at h
  dsimp only at h
  split at h
  · simp only [Option.some.injEq, Prod.mk.injEq] at h
    exact h.2.symm
  · split at h
    · simp at h
    · simp at h

/-- C19: a `SetMetaCommand` on an existing object, named by a reference that is
not empty, succeeds and publishes exactly one `starobj:update` event, scoped to
exactly the string of the reference; its data is an update record that carries
the object as stored after the call, with the merged metadata and with a version
one higher than before the call.  A `SetMetaCommand` that returns an error
publishes no event. -/
theorem SetMetaCommand_publishes (MergeMeta : MetaMapType → MetaMapType → Bool → MetaMapType)
    (st : State) (events : List StarEvent) (data : CommandSetMetaData) :
    (∀ row : Row, data.ORef.IsEmpty = false →
        st.db.get data.ORef.OType data.ORef.OID = some row →
        ∃ st1 row1,
          SetMetaCommand MergeMeta st events data = some ((none, st1), events ++
            [{ Event := "starobj:update", Scopes := [data.ORef.String],
               Data := { UpdateType := "update", OType := data.ORef.OType,
                         OID := data.ORef.OID,
                         Obj := some (SetVersion row1.data row1.version) } }])
          ∧ st1.db.get data.ORef.OType data.ORef.OID = some row1
          ∧ row1.version = row.version + 1
          ∧ GetVersion (SetVersion row1.data row1.version) = row.version + 1
          ∧ GetMeta row1.data = MergeMeta (GetMeta row.data) data.Meta false)
      ∧ (∀ (err : GoError) (st1 : State) (events1 : List StarEvent),
          SetMetaCommand MergeMeta st events data = some ((some err, st1), events1) →
          events1 = events) := by
  refine ⟨?_, UpdateObjectMeta_err_events MergeMeta st events data⟩
  intro row hne hget
  obtain ⟨hok, hdb⟩ := UpdateObjectMeta_ok MergeMeta st data.ORef data.Meta row hne hget
  have hrow := get_some_inTable _ _ _ _ hget
  refine ⟨(wstore.UpdateObjectMeta MergeMeta false st data.ORef data.Meta false).2,
    { version := row.version + 1,
      data := SetMeta (SetVersion row.data row.version)
        (MergeMeta (GetMeta row.data) data.Meta false) }, ?_, hdb, rfl, ?_, ?_⟩
  · have hot : GetOType (SetVersion (SetMeta (SetVersion row.data row.version)
        (MergeMeta (GetMeta row.data) data.Meta false)) (row.version + 1)) = data.ORef.OType := by
      rw [GetOType_SetVersion, GetOType_SetMeta, GetOType_SetVersion, hrow.1]
    have hid : GetOID (SetVersion (SetMeta (SetVersion row.data row.version)
        (MergeMeta (GetMeta row.data) data.Meta false)) (row.version + 1)) = data.ORef.OID := by
      rw [GetOID_SetVersion, GetOID_SetMeta, GetOID_SetVersion, hrow.2.1]
    simp only [SetMetaCommand, hok, sendStarObjUpdate, DBGetORef_background, hdb, Option.map_some',
      Publish, hot, hid]
    rfl
  · exact GetVersion_SetVersion _ _
  · exact GetMeta_SetMeta _ _

/-- C19 (witness): the view of the block of the sample store is set. -/
theorem SetMetaCommand_publishes_witness :
    ({ OType := "block", OID := sample.blockId } : ORef).IsEmpty = false
      ∧ sample.state.db.get "block" sample.blockId = some { version := 2, data := .Block sample.block }
      ∧ ∃ st1 row1,
          SetMetaCommand (fun _ m _ => m) sample.state []
              { ORef := { OType := "block", OID := sample.blockId },
                Meta := [("view", some "preview")] }
            = some ((none, st1), [] ++
              [{ Event := "starobj:update",
                 Scopes := [({ OType := "block", OID := sample.blockId } : ORef).String],
                 Data := { UpdateType := "update", OType := "block", OID := sample.blockId,
                           Obj := some (SetVersion row1.data row1.version) } }])
          ∧ st1.db.get "block" sample.blockId = some row1
          ∧ row1.version = 2 + 1
          ∧ GetVersion (SetVersion row1.data row1.version) = 2 + 1
          ∧ GetMeta row1.data = [("view", some "preview")] :=
  ⟨by decide, by decide,
    (SetMetaCommand_publishes (fun _ m _ => m) sample.state []
      { ORef := { OType := "block", OID := sample.blockId }, Meta := [("view", some "preview")] }).1
      { version := 2, data := .Block sample.block } (by decide) (by decide)⟩

end wshserver

/-! ## `CreateBlockCommand` (C18) -/

namespace wshserver

open starobj wstore wps

/-- C18 (evaluation at the failing input): on the sample store, whose tab lists
the block `blockId`, a `CreateBlockCommand` for that tab with `TargetBlockId =
blockId` and `TargetAction = "bogus"` returns the error `invalid target action`
and publishes nothing, but the store is not as it was: the new block has a row
and the tab lists it after `blockId`.  The file store and `DeleteBlock` play
no part. -/
theorem CreateBlockCommand_invalid_action (fs : score.FileStore)
    (DeleteBlock : State → String → Bool → Option GoError × State) :
    ∃ st1, CreateBlockCommand fs DeleteBlock "55555555-5555-5555-5555-555555555555"
        sample.state []
        { TabId := sample.tabId, BlockDef := some sample.blockDef,
          TargetBlockId := sample.blockId, TargetAction := "bogus" }
      = some (((none, some (.errorf "invalid target action: %s" ["bogus"])), st1), [])
      ∧ sample.state.db.get OType_Block "55555555-5555-5555-5555-555555555555" = none
      ∧ (st1.db.get OType_Block "55555555-5555-5555-5555-555555555555").isSome = true
      ∧ sample.state.db.tabBlockIds sample.tabId = some [sample.blockId]
      ∧ st1.db.tabBlockIds sample.tabId
          = some [sample.blockId, "55555555-5555-5555-5555-555555555555"] := by
  exact ⟨_, rfl, by decide, rfl, by decide, rfl⟩

end wshserver

/-! ## `StreamTestCommand` (C20) -/

namespace wshserver

theorem StreamTestCommand_step_cancel (pc : StreamTestPc) :
    StreamTestCommand_step pc .cancel = (pc, []) := by
  cases pc <;> rfl

theorem StreamTestCommand_run_cancel (pc : StreamTestPc) (inputs : List StreamTestInput) :
    StreamTestCommand_run pc inputs
      = StreamTestCommand_run pc (inputs.filter (fun i => i != .cancel)) := by
  induction inputs generalizing pc with
  | nil => rfl
  | cons input rest ih =>
    cases input with
    | cancel =>
      simp only [StreamTestCommand_run, StreamTestCommand_step_cancel, List.nil_append]
      rw [ih pc]
      rfl
    | receive =>
      have : (StreamTestInput.receive :: rest).filter (fun i => i != .cancel)
          = .receive :: rest.filter (fun i => i != .cancel) := rfl
      rw [this, StreamTestCommand_run, StreamTestCommand_run, ih]
    | wake =>
      have : (StreamTestInput.wake :: rest).filter (fun i => i != .cancel)
          = .wake :: rest.filter (fun i => i != .cancel) := rfl
      rw [this, StreamTestCommand_run, StreamTestCommand_run, ih]

theorem StreamTestCommand_step_rest (pc : StreamTestPc) (input : StreamTestInput)
    (h : StreamTest_reached pc = true) :
    StreamTest_reached (StreamTestCommand_step pc input).1 = true
      ∧ StreamTest_rest pc
          = (StreamTestCommand_step pc input).2 ++ StreamTest_rest (StreamTestCommand_step pc input).1 := by
  cases pc with
  | done => cases input <;> exact ⟨rfl, rfl⟩
  | send i =>
    simp only [StreamTest_reached, Bool.and_eq_true, decide_eq_true_eq] at h
    obtain ⟨h1, h5⟩ := h
    interval_cases i <;> cases input <;> exact ⟨by decide, by decide⟩
  | sleep i =>
    simp only [StreamTest_reached, Bool.and_eq_true, decide_eq_true_eq] at h
    obtain ⟨h1, h5⟩ := h
    interval_cases i <;> cases input <;> exact ⟨by decide, by decide⟩

theorem StreamTestCommand_run_initial (pc : StreamTestPc) (inputs : List StreamTestInput)
    (h : StreamTest_reached pc = true) :
    StreamTestCommand_run pc inputs <+: StreamTest_rest pc := by
  induction inputs generalizing pc with
  | nil => exact List.nil_prefix
  | cons input rest ih =>
    obtain ⟨h1, h2⟩ := StreamTestCommand_step_rest pc input h
    rw [StreamTestCommand_run, h2]
    have hp := ih _ h1
    rw [List.prefix_append_right_inj]
    exact hp

/-- C20 (as amended): the producer of `StreamTestCommand` does not look at the
context of the call: cancelling it, at any moment and any number of times,
changes nothing in what the producer does to its channel.  Whatever the consumer
and the context do, the producer hands over the values 1 to 5 in this order and
then closes the channel: what it has done at any moment is a beginning of
`1, 2, 3, 4, 5, close`; and when the consumer receives five times, the sleeps
ending in between, all of it is done. -/
theorem StreamTestCommand_ignores_cancel (inputs : List StreamTestInput) :
    StreamTestCommand inputs = StreamTestCommand (inputs.filter (fun i => i != .cancel))
      ∧ StreamTestCommand inputs
          <+: [.chunk 1, .chunk 2, .chunk 3, .chunk 4, .chunk 5, .close]
      ∧ StreamTestCommand
          [.receive, .wake, .receive, .wake, .receive, .wake, .receive, .wake, .receive, .wake]
          = [.chunk 1, .chunk 2, .chunk 3, .chunk 4, .chunk 5, .close] :=
  ⟨StreamTestCommand_run_cancel _ inputs, StreamTestCommand_run_initial _ inputs rfl, by decide⟩

/-- C20 (counterexample): the context is cancelled after the chunk with value 2
has been delivered, and the consumer goes on receiving: the producer hands over
the three further chunks 3, 4 and 5 before it closes the channel. -/
theorem StreamTestCommand_cancel_counterexample :
    StreamTestCommand [.receive, .wake, .receive] = [.chunk 1, .chunk 2]
      ∧ StreamTestCommand
          [.receive, .wake, .receive, .cancel, .wake, .receive, .wake, .receive, .wake,
            .receive, .wake]
          = [.chunk 1, .chunk 2, .chunk 3, .chunk 4, .chunk 5, .close] := by
  decide

end wshserver

/-! ## `WshActivityCommand` (C21) -/

namespace wshserver

/-- C21 (evaluation at the failing input): the key `UPPER#error` does not match
the pattern and is dropped from `WshCmds`, yet it sets `WshHadError`; with the
entries `ls` and `NOT VALID` the second one is dropped from `WshCmds`, yet it is
what `WshCmd` ends up as. -/
theorem WshActivityCommand_dropped_key :
    wshActivityRe_MatchString "UPPER#error" = false
      ∧ WshActivityCommand [("UPPER#error", 1)]
          = some ([], { WshCmd := "", WshHadError := true })
      ∧ wshActivityRe_MatchString "NOT VALID" = false
      ∧ WshActivityCommand [("ls", 1), ("NOT VALID", 1)]
          = some ([("ls", 1)], { WshCmd := "NOT VALID", WshHadError := false }) := by
  decide

end wshserver

/-! ## Trailing commas in config files (C23) -/

namespace sconfig

/-- C23 (evaluation at the failing input): for the file `{"a": 1,}` (and a
line feed) the syntax
error is raised at the closing brace, byte 8, and the decoder reports the offset
9.  `readConfigHelper` takes one off and calls `isTrailingCommaError` with 8,
which steps back to the comma before it looks for the brace and answers false;
called with 9 it would answer true.  The collected error does not speak of a
trailing comma. -/
theorem readConfigHelper_trailing_comma :
    starobj.goBytes "\x7b\"a\": 1,\x7d\n" = sample.trailingComma
      ∧ isTrailingCommaError sample.trailingComma 8 = some false
      ∧ isTrailingCommaError sample.trailingComma 9 = some true
      ∧ readConfigHelper sample.readEnv "settings.json" sample.trailingComma none
          = some (none, [{ File := "settings.json",
                           Err := "json syntax error at line 1, col 9: invalid character" }]) := by
  decide

end sconfig

/-! ## `CacheAndRemoveEnvVars` (C24) -/

namespace starbase

theorem LookupEnv_Unsetenv (env : Environ) (key k : String) :
    LookupEnv (Unsetenv env key) k = if k = key then none else LookupEnv env k := by
  induction env with
  | nil => simp [LookupEnv, Unsetenv]
  | cons e rest ih =>
    obtain ⟨k1, v⟩ := e
    unfold LookupEnv Unsetenv at ih ⊢
    by_cases h1 : k1 = key
    · subst h1
      simp only [List.filter_cons, bne_self_eq_false, Bool.false_eq_true, if_false, ih]
      by_cases h2 : k = k1
      · simp [h2]
      · have : (k == k1) = false := by simpa using h2
        simp [List.lookup, h2, this]
    · have hb : ((k1, v).1 != key) = true := by simpa using h1
      simp only [List.filter_cons, hb, if_true]
      by_cases h2 : k = k1
      · subst h2
        simp [List.lookup, h1]
      · have : (k == k1) = false := by simpa using h2
        simp only [List.lookup, this, ih]

theorem Getenv_Unsetenv_ne (env : Environ) (key k : String) (h : k ≠ key) :
    Getenv (Unsetenv env key) k = Getenv env k := by
  simp [Getenv, LookupEnv_Unsetenv, h]

theorem Getenv_eq_empty_iff (env : Environ) (k : String) :
    Getenv env k = "" ↔ (LookupEnv env k = none ∨ LookupEnv env k = some "") := by
  unfold Getenv
  cases h : LookupEnv env k with
  | none => simp
  | some v => simp

/-- C24: `CacheAndRemoveEnvVars` returns an error exactly when
`STARTERM_CONFIG_HOME` or `STARTERM_DATA_HOME` is unset or empty.  When it
returns nil, the four cached values are the prior values of
`STARTERM_CONFIG_HOME`, `STARTERM_DATA_HOME`, `STARTERM_APP_PATH` and
`STARTERM_DEV` (empty for an unset variable), the four variables are unset, and
every variable other than these four and `STARTERM_DEV_VITE` is as it was. -/
theorem CacheAndRemoveEnvVars_spec (cache : VarCache) (env : Environ) :
    ((CacheAndRemoveEnvVars cache env).1 ≠ none ↔
        ((LookupEnv env StarConfigHomeEnvVar = none ∨ LookupEnv env StarConfigHomeEnvVar = some "")
          ∨ (LookupEnv env StarDataHomeEnvVar = none ∨ LookupEnv env StarDataHomeEnvVar = some "")))
      ∧ ((CacheAndRemoveEnvVars cache env).1 = none →
          (CacheAndRemoveEnvVars cache env).2.1
              = { ConfigHome_VarCache := Getenv env StarConfigHomeEnvVar,
                  DataHome_VarCache := Getenv env StarDataHomeEnvVar,
                  AppPath_VarCache := Getenv env StarAppPathVarName,
                  Dev_VarCache := Getenv env StarDevVarName }
            ∧ LookupEnv (CacheAndRemoveEnvVars cache env).2.2 StarConfigHomeEnvVar = none
            ∧ LookupEnv (CacheAndRemoveEnvVars cache env).2.2 StarDataHomeEnvVar = none
            ∧ LookupEnv (CacheAndRemoveEnvVars cache env).2.2 StarAppPathVarName = none
            ∧ LookupEnv (CacheAndRemoveEnvVars cache env).2.2 StarDevVarName = none
            ∧ ∀ key : String, key ≠ StarConfigHomeEnvVar → key ≠ StarDataHomeEnvVar →
                key ≠ StarAppPathVarName → key ≠ StarDevVarName → key ≠ StarDevViteVarName →
                LookupEnv (CacheAndRemoveEnvVars cache env).2.2 key = LookupEnv env key) := by
  have hcd : StarDataHomeEnvVar ≠ StarConfigHomeEnvVar := by decide
  have hac : StarAppPathVarName ≠ StarConfigHomeEnvVar := by decide
  have had : StarAppPathVarName ≠ StarDataHomeEnvVar := by decide
  have hdc : StarDevVarName ≠ StarConfigHomeEnvVar := by decide
  have hdd : StarDevVarName ≠ StarDataHomeEnvVar := by decide
  have hda : StarDevVarName ≠ StarAppPathVarName := by decide
  have hvc : StarConfigHomeEnvVar ≠ StarDevViteVarName := by decide
  have hvd : StarDataHomeEnvVar ≠ StarDevViteVarName := by decide
  have hva : StarAppPathVarName ≠ StarDevViteVarName := by decide
  have hvv : StarDevVarName ≠ StarDevViteVarName := by decide
  rw [← Getenv_eq_empty_iff, ← Getenv_eq_empty_iff]
  by_cases h1 : Getenv env StarConfigHomeEnvVar = ""
  · simp [CacheAndRemoveEnvVars, h1]
  · by_cases h2 : Getenv env StarDataHomeEnvVar = ""
    · simp [CacheAndRemoveEnvVars, h1, h2, Getenv_Unsetenv_ne _ _ _ hcd]
    · refine ⟨by simp [CacheAndRemoveEnvVars, h1, h2, Getenv_Unsetenv_ne _ _ _ hcd], ?_⟩
      intro _
      simp only [CacheAndRemoveEnvVars, h1, h2, Getenv_Unsetenv_ne _ _ _ hcd, if_false]
      refine ⟨?_, ?_, ?_, ?_, ?_, ?_⟩
      · simp [Getenv_Unsetenv_ne _ _ _ hac, Getenv_Unsetenv_ne _ _ _ had,
          Getenv_Unsetenv_ne _ _ _ hdc, Getenv_Unsetenv_ne _ _ _ hdd, Getenv_Unsetenv_ne _ _ _ hda]
      · simp [LookupEnv_Unsetenv, hvc, hdc.symm, hac.symm, hcd.symm]
      · simp [LookupEnv_Unsetenv, hvd, hdd.symm, had.symm]
      · simp [LookupEnv_Unsetenv, hva, hda.symm]
      · simp [LookupEnv_Unsetenv, hvv]
      · intro key k1 k2 k3 k4 k5
        simp [LookupEnv_Unsetenv, k1, k2, k3, k4, k5]

/-- C24 (witness): an environment with the two home variables, the development
flag and `PATH`. -/
theorem CacheAndRemoveEnvVars_spec_witness :
    (CacheAndRemoveEnvVars
        { ConfigHome_VarCache := "", DataHome_VarCache := "", AppPath_VarCache := "",
          Dev_VarCache := "" }
        [("PATH", "/bin"), ("STARTERM_CONFIG_HOME", "/c"), ("STARTERM_DATA_HOME", "/d"),
          ("STARTERM_DEV", "1")]).1 = none
      ∧ (CacheAndRemoveEnvVars
          { ConfigHome_VarCache := "", DataHome_VarCache := "", AppPath_VarCache := "",
            Dev_VarCache := "" }
          [("PATH", "/bin"), ("STARTERM_CONFIG_HOME", "/c"), ("STARTERM_DATA_HOME", "/d"),
            ("STARTERM_DEV", "1")]).2.1
        = { ConfigHome_VarCache := Getenv [("PATH", "/bin"), ("STARTERM_CONFIG_HOME", "/c"),
              ("STARTERM_DATA_HOME", "/d"), ("STARTERM_DEV", "1")] StarConfigHomeEnvVar,
            DataHome_VarCache := Getenv [("PATH", "/bin"), ("STARTERM_CONFIG_HOME", "/c"),
              ("STARTERM_DATA_HOME", "/d"), ("STARTERM_DEV", "1")] StarDataHomeEnvVar,
            AppPath_VarCache := Getenv [("PATH", "/bin"), ("STARTERM_CONFIG_HOME", "/c"),
              ("STARTERM_DATA_HOME", "/d"), ("STARTERM_DEV", "1")] StarAppPathVarName,
            Dev_VarCache := Getenv [("PATH", "/bin"), ("STARTERM_CONFIG_HOME", "/c"),
              ("STARTERM_DATA_HOME", "/d"), ("STARTERM_DEV", "1")] StarDevVarName } :=
  ⟨by decide,
    ((CacheAndRemoveEnvVars_spec
      { ConfigHome_VarCache := "", DataHome_VarCache := "", AppPath_VarCache := "",
        Dev_VarCache := "" }
      [("PATH", "/bin"), ("STARTERM_CONFIG_HOME", "/c"), ("STARTERM_DATA_HOME", "/d"),
        ("STARTERM_DEV", "1")]).2 (by decide)).1⟩

end starbase

/-! ## Missing rows in the layout queue (C27) -/

namespace wcore

open starobj wstore

/-- C27 (evaluation at the failing input): the store without rows has no tab
`tabId`; `DBGet` returns a nil tab and a nil error, and `GetLayoutIdForTab` reads
`tabObj.LayoutState` of the nil tab, so it and `QueueLayoutActionForTab` end in a
nil dereference instead of an error.  In the sample store no layout state has
the id `nolayout`, and `QueueLayoutAction` ends in the same way. -/
theorem GetLayoutIdForTab_missing_tab :
    (DBGet_Tab false sample.emptyState sample.tabId).1 = (none, none)
      ∧ GetLayoutIdForTab false sample.emptyState sample.tabId = none
      ∧ QueueLayoutActionForTab false sample.emptyState sample.tabId
          [{ ActionType := LayoutActionDataType_Insert }] = none
      ∧ (DBGet_LayoutState false sample.state "nolayout").1 = (none, none)
      ∧ QueueLayoutAction false sample.state "nolayout"
          [{ ActionType := LayoutActionDataType_Insert }] = none := by
  decide

end wcore

/-! ## The wrapped writer (C28) -/

namespace wshcmd

theorem Write_count_eq (p : List Nat) : Write_count p = p.count 10 := by
  unfold Write_count
  have h : ∀ (l : List Nat) (c : Nat),
      l.foldl (fun count b => if b = 10 then count + 1 else count) c = c + l.count 10 := by
    intro l
    induction l with
    | nil => intro c; simp
    | cons b rest ih =>
      intro c
      simp only [List.foldl_cons, ih]
      by_cases hb : b = 10
      · subst hb; simp; omega
      · simp [hb, List.count_cons]
  simpa using h p 0

theorem crlf_length (p : List Nat) : (crlf p).length = p.length + p.count 10 := by
  induction p with
  | nil => rfl
  | cons b rest ih =>
    by_cases hb : b = 10
    · subst hb
      simp only [crlf, List.flatMap_cons, if_true, List.length_append, List.length_cons,
        List.length_nil, List.count_cons_self] at ih ⊢
      omega
    · simp only [crlf, List.flatMap_cons, hb, if_false, List.length_append, List.length_cons,
        List.length_nil, List.count_cons, beq_iff_eq] at ih ⊢
      omega

theorem setByte_append (pre : List Nat) (z b : Nat) (zs : List Nat) :
    setByte (pre ++ z :: zs) pre.length b = some (pre ++ b :: zs) := by
  simp [setByte]

/-- The second loop, started on a buffer that is filled up to `writeIdx` and has
room for what is left, fills the room with the bytes left, each index once. -/
theorem Write_fill_run (rest pre written : List Nat) :
    Write_fill rest
        { buf := pre ++ List.replicate (rest.length + rest.count 10) 0,
          writeIdx := pre.length, written := written }
      = some { buf := pre ++ crlf rest,
               writeIdx := pre.length + (rest.length + rest.count 10),
               written := written ++ List.range' pre.length (rest.length + rest.count 10) } := by
  induction rest generalizing pre written with
  | nil => simp [Write_fill, crlf]
  | cons b rest ih =>
    by_cases hb : b = 10
    · subst hb
      have hlen : (10 :: rest).length + (10 :: rest).count 10
          = (rest.length + rest.count 10) + 2 := by
        simp only [List.length_cons, List.count_cons_self]; omega
      rw [hlen, List.replicate_succ, List.replicate_succ]
      simp only [Write_fill, if_true, setByte_append]
      have h1 : setByte (pre ++ 13 :: 0 :: List.replicate (rest.length + rest.count 10) 0)
          (pre.length + 1) 10
          = some ((pre ++ [13]) ++ 10 :: List.replicate (rest.length + rest.count 10) 0) := by
        have := setByte_append (pre ++ [13]) 0 10 (List.replicate (rest.length + rest.count 10) 0)
        simpa using this
      rw [h1]
      have h2 := ih (pre ++ [13, 10]) (written ++ [pre.length, pre.length + 1])
      have h3 : (pre ++ [13, 10]).length = pre.length + 2 := by simp
      rw [h3] at h2
      have h4 : (pre ++ [13]) ++ 10 :: List.replicate (rest.length + rest.count 10) 0
          = (pre ++ [13, 10]) ++ List.replicate (rest.length + rest.count 10) 0 := by simp
      rw [h4]
      simp only [h2]
      simp only [crlf, List.flatMap_cons, if_true, List.append_assoc, Option.some.injEq,
        WriteLoop.mk.injEq]
      refine ⟨by simp, by omega, ?_⟩
      rw [show rest.length + rest.count 10 + 2 = (rest.length + rest.count 10 + 1) + 1 by omega,
        List.range'_succ, List.range'_succ]
      simp [Nat.add_assoc]
    · have hlen : (b :: rest).length + (b :: rest).count 10
          = (rest.length + rest.count 10) + 1 := by
        simp only [List.length_cons, List.count_cons, beq_iff_eq, hb, if_false]; omega
      rw [hlen, List.replicate_succ]
      simp only [Write_fill, hb, if_false, setByte_append]
      have h2 := ih (pre ++ [b]) (written ++ [pre.length])
      have h3 : (pre ++ [b]).length = pre.length + 1 := by simp
      rw [h3] at h2
      have h4 : pre ++ b :: List.replicate (rest.length + rest.count 10) 0
          = (pre ++ [b]) ++ List.replicate (rest.length + rest.count 10) 0 := by simp
      rw [h4]
      simp only [h2]
      simp only [crlf, List.flatMap_cons, hb, if_false, List.append_assoc, Option.some.injEq,
        WriteLoop.mk.injEq]
      refine ⟨by simp, by omega, ?_⟩
      rw [List.range'_succ]
      simp

theorem crlf_of_not_mem (p : List Nat) (h : 10 ∉ p) : crlf p = p := by
  induction p with
  | nil => rfl
  | cons b rest ih =>
    simp only [List.mem_cons, not_or] at h
    have hb : b ≠ 10 := fun e => h.1 e.symm
    simp only [crlf, List.flatMap_cons, hb, if_false] at ih ⊢
    rw [ih h.2]
    rfl

/-- C28: in terminal mode `Write(p)` hands the destination the bytes of `p` with
every line feed replaced by carriage return and line feed.  When `p` holds a
line feed, the buffer has the length of `p` plus the number of its line feeds,
no assignment falls outside it (the call has a result) and the indices assigned
to are `0, 1, ...` up to the length, each once.  Outside terminal mode, or
when `p` holds no line feed, the destination receives `p`. -/
theorem Write_spec (UsingTermWshMode : Bool) (p : List Nat) :
    (UsingTermWshMode = true → 10 ∈ p →
        Write UsingTermWshMode p = some (crlf p, List.range (p.length + p.count 10))
          ∧ (crlf p).length = p.length + p.count 10)
      ∧ (UsingTermWshMode = true → ∃ written, Write UsingTermWshMode p = some (crlf p, written))
      ∧ ((UsingTermWshMode = false ∨ 10 ∉ p) → Write UsingTermWshMode p = some (p, [])) := by
  have hmem : 10 ∈ p → Write true p
      = some (crlf p, List.range (p.length + p.count 10)) := by
    intro h
    have hc : Write_count p ≠ 0 := by
      rw [Write_count_eq]
      exact Nat.pos_iff_ne_zero.mp (List.count_pos_iff.mpr h)
    have hrun := Write_fill_run p [] []
    simp only [List.nil_append, List.length_nil] at hrun
    rw [Write_count_eq] at hc
    simp only [Write, Bool.not_true, Bool.false_eq_true, if_false, hc, Write_count_eq, hrun,
      List.range_eq_range']
  have hnot : 10 ∉ p → Write true p = some (p, []) := by
    intro h
    have hc : Write_count p = 0 := by
      rw [Write_count_eq]; exact List.count_eq_zero.mpr h
    simp [Write, hc]
  refine ⟨?_, ?_, ?_⟩
  · intro hm h
    subst hm
    exact ⟨hmem h, crlf_length p⟩
  · intro hm
    subst hm
    by_cases h : 10 ∈ p
    · exact ⟨_, hmem h⟩
    · exact ⟨[], by rw [hnot h, crlf_of_not_mem p h]⟩
  · rintro (hm | h)
    · subst hm; rfl
    · cases UsingTermWshMode
      · rfl
      · exact hnot h

/-- C28 (witness): the bytes of `a`, line feed, `b`, line feed in terminal mode. -/
theorem Write_spec_witness :
    Write true [97, 10, 98, 10] = some ([97, 13, 10, 98, 13, 10], [0, 1, 2, 3, 4, 5]) :=
  ((Write_spec true [97, 10, 98, 10]).1 rfl (by decide)).1

end wshcmd

/-! ## `ExpandHomeDir` (C29) -/

namespace starbase

/-- C29 (evaluation at the failing input): with the home directory `/home/u`
the path `~/../x` is expanded to `/home/x`, which does not lie in the home
directory, and no error is returned; `~/../../etc/passwd` becomes `/etc/passwd`.
The check joins the home directory with the expanded path, which holds the home
directory already: the joined path `/home/u/home/x` begins with the home
directory whatever the expanded path is. -/
theorem ExpandHomeDir_traversal :
    ExpandHomeDir (some "/home/u") (some "/") "~/../x" = ("/home/x", none)
      ∧ "/home/u".data.isPrefixOf "/home/x".data = false
      ∧ filepath.Join ["/home/u", "/home/x"] = "/home/u/home/x"
      ∧ ExpandHomeDir (some "/home/u") (some "/") "~/../../etc/passwd" = ("/etc/passwd", none) := by
  decide

end starbase

/-! ## `DeleteBlock` (C30) -/

namespace score

open starobj wstore

/-- C30 (evaluation at the failing input): the block `blockId` of the store
`orphanState` has no sub-blocks and an empty `ParentORef`, which does not parse.
`deleteBlockObj` guards its use of the parent with `parentORef != nil`, deletes
the row and returns -1 without error.  `DeleteBlock` with `recursive` false
deletes the row and returns nil; with `recursive` true it reads
`parentORef.OType` of the nil pointer after the row is deleted: a nil
dereference, not a nil return. -/
theorem DeleteBlock_orphan (ops : TabOps) :
    ParseORefNoErr sample.orphanBlock.ParentORef = none
      ∧ (deleteBlockObj false sample.orphanState sample.blockId).1 = (-1, none)
      ∧ (deleteBlockObj false sample.orphanState sample.blockId).2.db.get OType_Block
          sample.blockId = none
      ∧ (∃ st1, DeleteBlock ops false false 1 sample.orphanState [] sample.blockId
            = some (some ((none, st1), [sample.blockId]))
          ∧ st1.db.get OType_Block sample.blockId = none)
      ∧ DeleteBlock ops false true 1 sample.orphanState [] sample.blockId = some none :=
  ⟨by decide, by decide, by decide, ⟨_, rfl, by decide⟩, rfl⟩

end score

/-! ## `DBResolveEasyOID` (C25) -/

namespace wstore

open starobj

theorem sqlLike_begins (p t : List Char) (hp : p.any (fun c => c = '%' || c = '_') = false)
    (h : sqlLike (p ++ ['%']) t = true) :
    (p.map asciiLower).isPrefixOf (t.map asciiLower) = true := by
  induction p generalizing t with
  | nil => simp [List.isPrefixOf]
  | cons c ps ih =>
    simp only [List.any_cons, Bool.or_eq_false_iff, decide_eq_false_iff_not] at hp
    obtain ⟨⟨h1, h2⟩, hps⟩ := hp
    cases t with
    | nil => simp [sqlLike, h1] at h
    | cons d ds =>
      simp only [List.cons_append, sqlLike, h1, if_false, h2, decide_False, Bool.false_or,
        Bool.and_eq_true, beq_iff_eq] at h
      simp only [List.map_cons, List.isPrefixOf, Bool.and_eq_true, beq_iff_eq]
      exact ⟨h.1, ih ds hps h.2⟩

theorem txGetOidLike_ne_empty (s : State) (otype pattern : String)
    (h : txGetOidLike s otype pattern ≠ "") :
    ∃ r ∈ s.db, GetOType r.data = otype ∧ GetOID r.data = txGetOidLike s otype pattern
      ∧ sqlLike pattern.data (txGetOidLike s otype pattern).data = true := by
  unfold txGetOidLike at h ⊢
  cases he : s.txErr with
  | some e => simp [he] at h
  | none =>
    simp only [he] at h ⊢
    cases hf : s.db.find? (fun r => GetOType r.data == otype
        && sqlLike pattern.data (GetOID r.data).data) with
    | none => simp [hf] at h
    | some r =>
      have h1 := List.find?_some hf
      have h2 := List.mem_of_find?_eq_some hf
      simp only [Bool.and_eq_true, beq_iff_eq] at h1
      exact ⟨r, h2, h1.1, rfl, h1.2⟩

theorem txGetOidEq_ne_empty (s : State) (otype oid : String)
    (h : txGetOidEq s otype oid ≠ "") :
    ∃ r ∈ s.db, GetOType r.data = otype ∧ GetOID r.data = txGetOidEq s otype oid
      ∧ txGetOidEq s otype oid = oid := by
  unfold txGetOidEq at h ⊢
  cases he : s.txErr with
  | some e => simp [he] at h
  | none =>
    simp only [he] at h ⊢
    cases hf : s.db.get otype oid with
    | none => simp [hf] at h
    | some r =>
      have h1 := get_some_inTable _ _ _ _ hf
      exact ⟨r, h1.2.2, h1.1, rfl, h1.2.1⟩

/-- A reference that the loop returns names a row of one of the tables, whose id
passes the test of the loop. -/
theorem DBResolveEasyOID_loop_some (s : State) (oid : String) (types : List String) (o : ORef)
    (h : DBResolveEasyOID_loop s oid types = (some o, none)) :
    o.OType ∈ types ∧ o.OID ≠ "" ∧ easyMatch oid o.OID = true
      ∧ ∃ r ∈ s.db, GetOType r.data = o.OType ∧ GetOID r.data = o.OID := by
  induction types with
  | nil => simp [DBResolveEasyOID_loop] at h
  | cons otype rest ih =>
    rw [DBResolveEasyOID_loop] at h
    by_cases h8 : (goBytes oid).length = 8
    · simp only [h8, if_true] at h
      by_cases hne : txGetOidLike s otype (oid ++ "%") ≠ ""
      · rw [if_pos hne] at h
        simp only [Prod.mk.injEq, Option.some.injEq, and_true] at h
        obtain ⟨r, hr, hty, hid, hlike⟩ := txGetOidLike_ne_empty s otype _ hne
        subst h
        refine ⟨by simp [MakeORef], by simpa [MakeORef] using hne, ?_, r, hr, ?_⟩
        · simp only [easyMatch, h8, if_true, MakeORef]
          exact hlike
        · exact ⟨hty, hid⟩
      · rw [if_neg hne] at h
        obtain ⟨h1, h2⟩ := ih h
        exact ⟨List.mem_cons_of_mem _ h1, h2⟩
    · simp only [h8, if_false] at h
      by_cases hne : txGetOidEq s otype oid ≠ ""
      · rw [if_pos hne] at h
        simp only [Prod.mk.injEq, Option.some.injEq, and_true] at h
        obtain ⟨r, hr, hty, hid, heq⟩ := txGetOidEq_ne_empty s otype _ hne
        subst h
        refine ⟨by simp [MakeORef], by simpa [MakeORef] using hne, ?_, r, hr, ?_⟩
        · simp [easyMatch, h8, MakeORef, heq]
        · exact ⟨hty, hid⟩
      · rw [if_neg hne] at h
        obtain ⟨h1, h2⟩ := ih h
        exact ⟨List.mem_cons_of_mem _ h1, h2⟩

theorem DBResolveEasyOID_loop_cases (s : State) (oid : String) (types : List String) :
    (∃ o, DBResolveEasyOID_loop s oid types = (some o, none))
      ∨ DBResolveEasyOID_loop s oid types = (none, some ErrNotFound) := by
  induction types with
  | nil => right; rfl
  | cons otype rest ih =>
    rw [DBResolveEasyOID_loop]
    by_cases hne : (if (goBytes oid).length = 8 then txGetOidLike s otype (oid ++ "%")
        else txGetOidEq s otype oid) ≠ ""
    · left; exact ⟨_, if_pos hne⟩
    · rw [if_neg hne]; exact ih

theorem txGetOidLike_eq_empty (s : State) (otype pattern : String) (htx : s.txErr = none)
    (hids : ∀ r ∈ s.db, GetOID r.data ≠ "") :
    txGetOidLike s otype pattern = "" ↔
      ∀ r ∈ s.db, GetOType r.data = otype → sqlLike pattern.data (GetOID r.data).data = false := by
  unfold txGetOidLike
  simp only [htx]
  cases hf : s.db.find? (fun r => GetOType r.data == otype
      && sqlLike pattern.data (GetOID r.data).data) with
  | none =>
    simp only [true_iff]
    intro r hr hty
    have := List.find?_eq_none.mp hf r hr
    simpa [hty] using this
  | some r0 =>
    have h1 := List.find?_some hf
    have h2 := List.mem_of_find?_eq_some hf
    simp only [Bool.and_eq_true, beq_iff_eq] at h1
    constructor
    · intro h
      exact absurd h (hids r0 h2)
    · intro h
      have := h r0 h2 h1.1
      rw [h1.2] at this
      exact absurd this (by decide)

theorem txGetOidEq_eq_empty (s : State) (otype oid : String) (htx : s.txErr = none)
    (hids : ∀ r ∈ s.db, GetOID r.data ≠ "") :
    txGetOidEq s otype oid = "" ↔
      ∀ r ∈ s.db, GetOType r.data = otype → GetOID r.data ≠ oid := by
  unfold txGetOidEq
  simp only [htx]
  cases hf : s.db.get otype oid with
  | none =>
    simp only [true_iff]
    intro r hr hty hid
    have := get_none_forall _ _ _ hf r hr
    simp [Row.inTable, hty, hid] at this
  | some r0 =>
    have h1 := get_some_inTable _ _ _ _ hf
    constructor
    · intro h
      exact absurd h (hids r0 h1.2.2)
    · intro h
      exact absurd h1.2.1 (h r0 h1.2.2 h1.1)

/-- The loop ends with `ErrNotFound` exactly when no row of the tables passes
its test. -/
theorem DBResolveEasyOID_loop_notFound (s : State) (oid : String) (types : List String)
    (htx : s.txErr = none) (hids : ∀ r ∈ s.db, GetOID r.data ≠ "") :
    DBResolveEasyOID_loop s oid types = (none, some ErrNotFound) ↔
      ∀ r ∈ s.db, GetOType r.data ∈ types → easyMatch oid (GetOID r.data) = false := by
  induction types with
  | nil => simp [DBResolveEasyOID_loop]
  | cons otype rest ih =>
    rw [DBResolveEasyOID_loop]
    have hfull : (if (goBytes oid).length = 8 then txGetOidLike s otype (oid ++ "%")
        else txGetOidEq s otype oid) = "" ↔
        ∀ r ∈ s.db, GetOType r.data = otype → easyMatch oid (GetOID r.data) = false := by
      by_cases h8 : (goBytes oid).length = 8
      · simp only [h8, if_true, easyMatch]
        exact txGetOidLike_eq_empty s otype _ htx hids
      · simp only [h8, if_false, easyMatch, decide_eq_false_iff_not]
        exact txGetOidEq_eq_empty s otype _ htx hids
    by_cases hne : (if (goBytes oid).length = 8 then txGetOidLike s otype (oid ++ "%")
        else txGetOidEq s otype oid) ≠ ""
    · rw [if_pos hne]
      constructor
      · intro h; simp at h
      · intro h
        exfalso
        apply hne
        rw [hfull]
        intro r hr hty
        exact h r hr (by simp [hty])
    · rw [if_neg hne, ih]
      have he := hfull.mp (not_not.mp hne)
      constructor
      · intro h r hr hty
        rcases List.mem_cons.mp hty with h1 | h1
        · exact he r hr h1
        · exact h r hr h1
      · intro h r hr hty
        exact h r hr (List.mem_cons_of_mem _ hty)

theorem DBResolveEasyOID_run (inTx : Bool) (st : State) (oid : String)
    (htx : inTx = false ∨ st.txErr = none) :
    (DBResolveEasyOID inTx st oid).1 = DBResolveEasyOID_loop st.enterTx oid AllStarObjTypes := by
  unfold DBResolveEasyOID
  rcases DBResolveEasyOID_loop_cases st.enterTx oid AllStarObjTypes with ⟨o, ho⟩ | hnf
  · rw [WithTxRtn_ok inTx st none _ htx (by simp only [ho]) rfl, ho]
  · rw [WithTxRtn_err_val inTx st none _ ErrNotFound htx (by simp only [hnf]) rfl, hnf]

/-- C25 (as amended): in a store whose rows have ids that are not empty,
`DBResolveEasyOID` returns either a reference or `ErrNotFound`.  A reference it
returns names a stored row: its type is the type of the table that holds the
id.  For an input of 8 bytes the id matches the `LIKE` pattern made of the input
and a percent sign; when the input holds no percent sign and no underscore, the
id begins with the input, upper and lower case of the ASCII letters being the
same.  For an input of any other length the id is the input.  `ErrNotFound` is
returned exactly when no row of a type table has an id that passes this test. -/
theorem DBResolveEasyOID_spec (inTx : Bool) (st : State) (oid : String)
    (htx : inTx = false ∨ st.txErr = none) (hids : ∀ r ∈ st.db, GetOID r.data ≠ "") :
    (∀ o, (DBResolveEasyOID inTx st oid).1 = (some o, none) →
        o.OType ∈ AllStarObjTypes
          ∧ (∃ r ∈ st.db, GetOType r.data = o.OType ∧ GetOID r.data = o.OID)
          ∧ ((goBytes oid).length = 8 →
              sqlLike (oid ++ "%").data o.OID.data = true
                ∧ (hasWildcard oid = false → beginsWithFold oid o.OID = true))
          ∧ ((goBytes oid).length ≠ 8 → o.OID = oid))
      ∧ ((∃ o, (DBResolveEasyOID inTx st oid).1 = (some o, none))
          ∨ (DBResolveEasyOID inTx st oid).1 = (none, some ErrNotFound))
      ∧ ((DBResolveEasyOID inTx st oid).1 = (none, some ErrNotFound) ↔
          ∀ r ∈ st.db, GetOType r.data ∈ AllStarObjTypes → easyMatch oid (GetOID r.data) = false) := by
  rw [DBResolveEasyOID_run inTx st oid htx]
  refine ⟨?_, DBResolveEasyOID_loop_cases _ _ _, ?_⟩
  · intro o ho
    obtain ⟨h1, _, h3, h4⟩ := DBResolveEasyOID_loop_some _ _ _ _ ho
    refine ⟨h1, h4, ?_, ?_⟩
    · intro h8
      simp only [easyMatch, h8, if_true] at h3
      refine ⟨h3, ?_⟩
      intro hw
      have hd : (oid ++ "%").data = oid.data ++ ['%'] := rfl
      rw [hd] at h3
      exact sqlLike_begins oid.data o.OID.data hw h3
    · intro h8
      simpa [easyMatch, h8] using h3
  · exact DBResolveEasyOID_loop_notFound st.enterTx oid AllStarObjTypes rfl hids

/-- C25 (witness): the first 8 characters of the block id in the sample store. -/
theorem DBResolveEasyOID_spec_witness :
    (DBResolveEasyOID false sample.state "22222222").1
        = (some { OType := "block", OID := sample.blockId }, none)
      ∧ ("block" ∈ AllStarObjTypes
        ∧ (∃ r ∈ sample.state.db, GetOType r.data = "block" ∧ GetOID r.data = sample.blockId)
        ∧ ((goBytes "22222222").length = 8 →
            sqlLike ("22222222" ++ "%").data sample.blockId.data = true
              ∧ (hasWildcard "22222222" = false → beginsWithFold "22222222" sample.blockId = true))
        ∧ ((goBytes "22222222").length ≠ 8 → sample.blockId = "22222222")) :=
  ⟨by decide,
    (DBResolveEasyOID_spec false sample.state "22222222" (Or.inl rfl) (by decide)).1
      { OType := "block", OID := sample.blockId } (by decide)⟩

/-- C25 (counterexample): the input of eight underscores is answered with the
tab of the sample store, whose id does not begin with underscores; the input
`ABCDEF12` is answered with the id `abcdef12-...`, which begins with these
letters in lower case only. -/
theorem DBResolveEasyOID_spec_counterexample :
    ((goBytes "________").length = 8
        ∧ (DBResolveEasyOID false sample.state "________").1
            = (some { OType := "tab", OID := sample.tabId }, none)
        ∧ "________".data.isPrefixOf sample.tabId.data = false)
      ∧ ((goBytes "ABCDEF12").length = 8
        ∧ (DBResolveEasyOID false sample.hexState "ABCDEF12").1
            = (some { OType := "tab", OID := "abcdef12-0000-4000-8000-000000000000" }, none)
        ∧ "ABCDEF12".data.isPrefixOf "abcdef12-0000-4000-8000-000000000000".data = false) := by
  decide

end wstore

/-! ## Layers of config files (C22) -/

namespace sconfig

open starobj

theorem lexLE_total (a b : List Char) : lexLE a b = true ∨ lexLE b a = true := by
  induction a generalizing b with
  | nil => left; rfl
  | cons c cs ih =>
    cases b with
    | nil => right; rfl
    | cons d ds =>
      simp only [lexLE]
      rcases lt_trichotomy c d with h | h | h
      · left; simp [h]
      · subst h
        simpa using ih ds
      · right; simp [h]

theorem lexLE_trans (a b c : List Char) (h1 : lexLE a b = true) (h2 : lexLE b c = true) :
    lexLE a c = true := by
  induction a generalizing b c with
  | nil => rfl
  | cons x xs ih =>
    cases b with
    | nil => simp [lexLE] at h1
    | cons y ys =>
      cases c with
      | nil => simp [lexLE] at h2
      | cons z zs =>
        simp only [lexLE] at h1 h2 ⊢
        rcases lt_trichotomy x y with hxy | hxy | hxy
        · rcases lt_trichotomy y z with hyz | hyz | hyz
          · simp [lt_trans hxy hyz]
          · subst hyz; simp [hxy]
          · simp [hyz, not_lt_of_gt hyz] at h2
        · subst hxy
          rcases lt_trichotomy x z with hyz | hyz | hyz
          · simp [hyz]
          · subst hyz
            simp only [lt_self_iff_false, if_false] at h1 h2 ⊢
            exact ih ys zs h1 h2
          · simp [hyz, not_lt_of_gt hyz] at h2
        · simp [hxy, not_lt_of_gt hxy] at h1

theorem nameGE_total : IsTotal DirEntry nameGE := ⟨fun a b => by
  unfold nameGE
  exact (lexLE_total b.Name.data a.Name.data)⟩

theorem nameGE_trans : IsTrans DirEntry nameGE := ⟨fun a b c h1 h2 => by
  unfold nameGE at *
  exact lexLE_trans _ _ _ h2 h1⟩

theorem SortFileNameDescend_sorted (files : List DirEntry) :
    (SortFileNameDescend files).Perm files ∧ (SortFileNameDescend files).Sorted nameGE :=
  haveI := nameGE_total
  haveI := nameGE_trans
  ⟨List.perm_insertionSort nameGE files, List.sorted_insertionSort nameGE files⟩

/-- Reading `m[k]` in the result of a simple merge. -/
theorem valueOf_merge (m t : Option MetaMapType) (ht : keysNodup t) (k : String) :
    valueOf (mergeMetaMapSimple m t) k = if sets t k then valueOf t k else valueOf m k := by
  unfold valueOf sets
  rw [lookup_merge m t ht k]
  cases m with
  | none =>
    cases h : lookup t k <;> simp [lookup]
  | some l =>
    cases t with
    | none => simp [lookup]
    | some t =>
      simp only
      cases h : lookup (some t) k with
      | none => simp [overlay]
      | some v => cases v <;> simp [overlay]

/-- A key that neither map sets is not set by their simple merge. -/
theorem sets_merge (m t : Option MetaMapType) (ht : keysNodup t) (k : String)
    (h : sets (mergeMetaMapSimple m t) k = true) : sets m k = true ∨ sets t k = true := by
  unfold sets at *
  rw [lookup_merge m t ht k] at h
  cases m with
  | none => right; exact h
  | some l =>
    cases t with
    | none => left; exact h
    | some t =>
      simp only at h
      cases h1 : lookup (some t) k with
      | none => left; simpa [h1, overlay] using h
      | some v => right; rfl

theorem readConfigHelper_keysNodup (env : ReadEnv) (hdec : DecodesMaps env) (fileName : String)
    (barr : List Nat) (readErr : Option ReadError) (v : Option MetaMapType)
    (errs : List ConfigError) (h : readConfigHelper env fileName barr readErr = some (v, errs)) :
    keysNodup v := by
  unfold readConfigHelper at h
  dsimp only at h
  split at h
  · simp only [Option.some.injEq, Prod.mk.injEq] at h
    rw [← h.1]; trivial
  · have hd := hdec barr
    split at h
    · rename_i rtn heq
      simp only [heq] at hd
      simp only [Option.some.injEq, Prod.mk.injEq] at h
      rw [← h.1]; exact hd
    · rename_i msg rtn heq
      simp only [heq] at hd
      simp only [Option.some.injEq, Prod.mk.injEq] at h
      rw [← h.1]; exact hd
    · split at h
      · simp at h
      · simp only [Option.some.injEq, Prod.mk.injEq] at h
        rw [← h.1]; trivial

theorem fileVal_keysNodup (env : ReadEnv) (hdec : DecodesMaps env) (fsys : ConfigFS)
    (logPrefix fileName : String) : keysNodup (fileVal env fsys logPrefix fileName) := by
  unfold fileVal
  split
  · rename_i v errs heq
    exact readConfigHelper_keysNodup env hdec _ _ _ v errs heq
  · trivial

end sconfig

/-! ### The value of a key after the files of a part are merged -/

namespace sconfig

open starobj

theorem fileVal_eq (env : ReadEnv) (fsys : ConfigFS) (logPrefix fileName : String)
    (v : Option MetaMapType) (errs : List ConfigError)
    (h : readConfigFileFS env fsys logPrefix fileName = some (v, errs)) :
    fileVal env fsys logPrefix fileName = v := by
  unfold fileVal; rw [h]

theorem layered_none (maps : List (Option MetaMapType)) (start : Option String) (k : String)
    (h : ∀ m ∈ maps, sets m k = false) : layered maps start k = start := by
  induction maps generalizing start with
  | nil => rfl
  | cons m rest ih =>
    unfold layered
    rw [List.foldl_cons, h m (List.mem_cons_self _ _)]
    exact ih start (fun m1 hm1 => h m1 (List.mem_cons_of_mem _ hm1))

theorem layered_append (maps : List (Option MetaMapType)) (m : Option MetaMapType)
    (start : Option String) (k : String) :
    layered (maps ++ [m]) start k = if sets m k then valueOf m k else layered maps start k := by
  unfold layered
  rw [List.foldl_append]
  rfl

/-- The loop of `readConfigFilesForDir` with simple merge: the value of a key
in the result, and where a key of the result comes from. -/
theorem readConfigFilesForDir_loop_spec (env : ReadEnv) (hdec : DecodesMaps env)
    (MergeMeta : Option MetaMapType → Option MetaMapType → Bool → Option MetaMapType)
    (fsys : ConfigFS) (logPrefix dirName k : String) :
    ∀ (ents : List DirEntry) (rtn : Option MetaMapType) (errs : List ConfigError)
      (r : Option MetaMapType) (e : List ConfigError), keysNodup rtn →
      readConfigFilesForDir_loop env MergeMeta fsys logPrefix dirName true ents rtn errs
        = some (r, e) →
      valueOf r k = layered (ents.map (fun ent =>
          fileVal env fsys logPrefix (filepath.Join [dirName, ent.Name]))) (valueOf rtn k) k
      ∧ keysNodup r
      ∧ (sets r k = true → sets rtn k = true ∨ ∃ m ∈ ents.map (fun ent =>
          fileVal env fsys logPrefix (filepath.Join [dirName, ent.Name])), sets m k = true) := by
  intro ents
  induction ents with
  | nil =>
    intro rtn errs r e hn h
    simp only [readConfigFilesForDir_loop, Option.some.injEq, Prod.mk.injEq] at h
    rw [← h.1]
    exact ⟨rfl, hn, fun hs => Or.inl hs⟩
  | cons ent rest ih =>
    intro rtn errs r e hn h
    simp only [readConfigFilesForDir_loop] at h
    split at h
    · simp at h
    · rename_i v cerrs heq
      have hv := fileVal_eq env fsys logPrefix _ v cerrs heq
      have hvn : keysNodup v := hv ▸ fileVal_keysNodup env hdec fsys logPrefix _
      have hm : mergeMetaMap MergeMeta rtn v true = mergeMetaMapSimple rtn v := rfl
      rw [hm] at h
      obtain ⟨h1, h2, h3⟩ := ih _ _ r e (mergeMetaMapSimple_keysNodup rtn v hn hvn) h
      refine ⟨?_, h2, ?_⟩
      · rw [h1, valueOf_merge rtn v hvn k, List.map_cons, hv]
        rfl
      · intro hs
        rcases h3 hs with h4 | ⟨m, hm1, hm2⟩
        · rcases sets_merge rtn v hvn k h4 with h5 | h5
          · exact Or.inl h5
          · exact Or.inr ⟨v, by rw [List.map_cons, hv]; exact List.mem_cons_self _ _, h5⟩
        · exact Or.inr ⟨m, by rw [List.map_cons]; exact List.mem_cons_of_mem _ hm1, hm2⟩

/-- The part of one file system with simple merge: the value of a key in the
result is the layered value of the part's files, and a key of the result is set
by one of them. -/
theorem readConfigPartForFS_run (env : ReadEnv) (hdec : DecodesMaps env)
    (MergeMeta : Option MetaMapType → Option MetaMapType → Bool → Option MetaMapType)
    (fsys : ConfigFS) (logPrefix partName k : String)
    (r : Option MetaMapType) (e : List ConfigError)
    (h : readConfigPartForFS env MergeMeta fsys logPrefix partName true = some (r, e)) :
    valueOf r k = layered (partFiles env fsys logPrefix partName) none k
    ∧ keysNodup r
    ∧ (sets r k = true → ∃ m ∈ partFiles env fsys logPrefix partName, sets m k = true) := by
  unfold readConfigPartForFS at h
  split at h
  · simp at h
  · rename_i rtn errs heq
    split at h
    · simp at h
    · rename_i config errs1 heq1
      have hv := fileVal_eq env fsys logPrefix _ config errs1 heq1
      have hvn : keysNodup config := hv ▸ fileVal_keysNodup env hdec fsys logPrefix _
      unfold readConfigFilesForDir at heq
      have hj : ("" : String) ++ ".json" = ".json" := by decide
      dsimp only at heq
      rw [hj] at heq
      obtain ⟨h1, h2, h3⟩ := readConfigFilesForDir_loop_spec env hdec MergeMeta fsys logPrefix
        partName k _ none [] rtn errs trivial heq
      have hm : mergeMetaMap MergeMeta rtn config true = mergeMetaMapSimple rtn config := rfl
      simp only [Option.some.injEq, Prod.mk.injEq] at h
      rw [hm] at h
      rw [← h.1]
      refine ⟨?_, mergeMetaMapSimple_keysNodup rtn config h2 hvn, ?_⟩
      · unfold partFiles dirFiles
        rw [layered_append, valueOf_merge rtn config hvn k, hv, h1]
        rfl
      · intro hs
        unfold partFiles dirFiles
        rcases sets_merge rtn config hvn k hs with h5 | h5
        · rcases h3 h5 with h6 | ⟨m, hm1, hm2⟩
          · simp [sets, lookup] at h6
          · exact ⟨m, List.mem_append_left _ hm1, hm2⟩
        · exact ⟨config, List.mem_append_right _ (by rw [hv]; exact List.mem_singleton_self _), h5⟩

end sconfig

/-! ### The config readers return -/

namespace sconfig

open starobj

theorem goBackWS_loop_some (barr : List Nat) (n : Nat) (hn : n ≤ barr.length) :
    ∃ r : Int, goBackWS_loop barr n = some r ∧ 0 ≤ r ∧ (r < n ∨ r = 0) := by
  induction n with
  | zero => exact ⟨0, rfl, le_refl _, Or.inr rfl⟩
  | succ i ih =>
    have hi : i < barr.length := hn
    simp only [goBackWS_loop, List.getElem?_eq_getElem hi]
    by_cases hw : isWSByte barr[i] = true
    · rw [if_pos hw]
      obtain ⟨r, h1, h2, h3⟩ := ih (Nat.le_of_lt hi)
      refine ⟨r, h1, h2, ?_⟩
      rcases h3 with h3 | h3
      · left; push_cast; omega
      · right; exact h3
    · rw [if_neg hw]
      exact ⟨i, rfl, by omega, Or.inl (by push_cast; omega)⟩

theorem goBackWS_some (barr : List Nat) (offset : Int) (h0 : 0 ≤ offset)
    (h1 : offset < barr.length) :
    ∃ r : Int, goBackWS barr offset = some r ∧ 0 ≤ r ∧ r < barr.length := by
  unfold goBackWS
  dsimp only
  rw [if_neg (by omega)]
  obtain ⟨r, h2, h3, h4⟩ := goBackWS_loop_some barr offset.toNat (by omega)
  refine ⟨r, h2, h3, ?_⟩
  rcases h4 with h4 | h4
  · have : ((offset.toNat : Nat) : Int) = offset := Int.toNat_of_nonneg h0
    omega
  · omega

theorem byteAt_some (barr : List Nat) (offset : Int) (h0 : 0 ≤ offset)
    (h1 : offset < barr.length) : ∃ b, byteAt barr offset = some b := by
  unfold byteAt
  rw [if_neg (by omega)]
  have : offset.toNat < barr.length := by omega
  exact ⟨barr[offset.toNat], List.getElem?_eq_getElem this⟩

theorem isTrailingCommaError_some (barr : List Nat) (offset : Int) (h0 : 0 ≤ offset)
    (h1 : offset < barr.length) : ∃ b, isTrailingCommaError barr offset = some b := by
  unfold isTrailingCommaError
  dsimp only
  rw [if_neg (by omega)]
  obtain ⟨r, h2, h3, h4⟩ := goBackWS_some barr offset h0 h1
  obtain ⟨b, hb⟩ := byteAt_some barr r h3 h4
  obtain ⟨r1, h5, h6, h7⟩ := goBackWS_some barr r h3 h4
  obtain ⟨c, hc⟩ := byteAt_some barr r1 h6 h7
  simp only [h2, hb, h5, hc]
  by_cases hb1 : b = 125
  · rw [if_pos hb1]; exact ⟨_, rfl⟩
  · rw [if_neg hb1]; exact ⟨_, rfl⟩

/-- With such a decoder `readConfigHelper` returns. -/
theorem readConfigHelper_total (env : ReadEnv) (hdec : DecodesMaps env) (fileName : String)
    (barr : List Nat) (readErr : Option ReadError) :
    ∃ v errs, readConfigHelper env fileName barr readErr = some (v, errs) := by
  unfold readConfigHelper
  dsimp only
  by_cases hl : barr.length = 0
  · rw [if_pos hl]; exact ⟨_, _, rfl⟩
  · rw [if_neg hl]
    have hd := hdec barr
    split
    · exact ⟨_, _, rfl⟩
    · exact ⟨_, _, rfl⟩
    · rename_i Offset msg heq
      simp only [heq] at hd
      have hpos : 0 < barr.length := Nat.pos_of_ne_zero hl
      obtain ⟨b, hb⟩ := isTrailingCommaError_some barr (if Offset > 0 then Offset - 1 else Offset)
        (by split <;> omega) (by split <;> omega)
      rw [hb]
      exact ⟨_, _, rfl⟩

theorem readConfigFileFS_total (env : ReadEnv) (hdec : DecodesMaps env) (fsys : ConfigFS)
    (logPrefix fileName : String) :
    ∃ v errs, readConfigFileFS env fsys logPrefix fileName = some (v, errs) :=
  readConfigHelper_total env hdec _ _ _

theorem readConfigFilesForDir_loop_total (env : ReadEnv) (hdec : DecodesMaps env)
    (MergeMeta : Option MetaMapType → Option MetaMapType → Bool → Option MetaMapType)
    (fsys : ConfigFS) (logPrefix dirName : String) (simpleMerge : Bool) :
    ∀ (ents : List DirEntry) (rtn : Option MetaMapType) (errs : List ConfigError),
      ∃ r e, readConfigFilesForDir_loop env MergeMeta fsys logPrefix dirName simpleMerge
        ents rtn errs = some (r, e) := by
  intro ents
  induction ents with
  | nil => intro rtn errs; exact ⟨_, _, rfl⟩
  | cons ent rest ih =>
    intro rtn errs
    obtain ⟨v, cerrs, hv⟩ := readConfigFileFS_total env hdec fsys logPrefix
      (filepath.Join [dirName, ent.Name])
    simp only [readConfigFilesForDir_loop, hv]
    exact ih _ _

/-- With such a decoder `readConfigPartForFS` returns. -/
theorem readConfigPartForFS_total (env : ReadEnv) (hdec : DecodesMaps env)
    (MergeMeta : Option MetaMapType → Option MetaMapType → Bool → Option MetaMapType)
    (fsys : ConfigFS) (logPrefix partName : String) (simpleMerge : Bool) :
    ∃ r e, readConfigPartForFS env MergeMeta fsys logPrefix partName simpleMerge
      = some (r, e) := by
  obtain ⟨r1, e1, h1⟩ := readConfigFilesForDir_loop_total env hdec MergeMeta fsys logPrefix
    partName simpleMerge
    (SortFileNameDescend (selectDirEntsBySuffix (fsys.ReadDir partName) ("" ++ ".json"))) none []
  obtain ⟨v, cerrs, hv⟩ := readConfigFileFS_total env hdec fsys logPrefix (partName ++ ".json")
  unfold readConfigPartForFS readConfigFilesForDir
  dsimp only
  rw [h1]
  simp only [hv]
  exact ⟨_, _, rfl⟩

end sconfig

/-! ### Layering of a config part -/

namespace sconfig

open starobj

theorem decodeEnv_DecodesMaps : DecodesMaps sample.decodeEnv := by
  intro barr
  unfold sample.decodeEnv
  dsimp only
  split_ifs <;> simp [keysNodup]

/-- Merging nil maps changes nothing. -/
theorem foldl_merge_none (post : List (Option MetaMapType)) (acc : Option MetaMapType)
    (h : ∀ m ∈ post, m = none) : post.foldl mergeMetaMapSimple acc = acc := by
  induction post generalizing acc with
  | nil => rfl
  | cons m rest ih =>
    rw [List.foldl_cons, h m (List.mem_cons_self _ _)]
    have : mergeMetaMapSimple acc none = acc := by cases acc <;> rfl
    rw [this]
    exact ih acc (fun m1 hm1 => h m1 (List.mem_cons_of_mem _ hm1))

/-- The loop of `readConfigFilesForDir` with simple merge merges the maps of
the files one after the other into the accumulator. -/
theorem readConfigFilesForDir_loop_fold (env : ReadEnv)
    (MergeMeta : Option MetaMapType → Option MetaMapType → Bool → Option MetaMapType)
    (fsys : ConfigFS) (logPrefix dirName : String) :
    ∀ (ents : List DirEntry) (rtn : Option MetaMapType) (errs : List ConfigError)
      (r : Option MetaMapType) (e : List ConfigError),
      readConfigFilesForDir_loop env MergeMeta fsys logPrefix dirName true ents rtn errs
        = some (r, e) →
      r = (ents.map (fun ent =>
          fileVal env fsys logPrefix (filepath.Join [dirName, ent.Name]))).foldl
            mergeMetaMapSimple rtn := by
  intro ents
  induction ents with
  | nil =>
    intro rtn errs r e h
    simp only [readConfigFilesForDir_loop, Option.some.injEq, Prod.mk.injEq] at h
    rw [← h.1]
    rfl
  | cons ent rest ih =>
    intro rtn errs r e h
    simp only [readConfigFilesForDir_loop] at h
    split at h
    · simp at h
    · rename_i v cerrs heq
      have hv := fileVal_eq env fsys logPrefix _ v cerrs heq
      have hm : mergeMetaMap MergeMeta rtn v true = mergeMetaMapSimple rtn v := rfl
      rw [hm] at h
      rw [ih _ _ r e h, List.map_cons, List.foldl_cons, hv]

/-- The result of `readConfigPartForFS` with simple merge: the maps of the
files of the part merged one after the other, from the nil map on. -/
theorem readConfigPartForFS_fold (env : ReadEnv)
    (MergeMeta : Option MetaMapType → Option MetaMapType → Bool → Option MetaMapType)
    (fsys : ConfigFS) (logPrefix partName : String)
    (r : Option MetaMapType) (e : List ConfigError)
    (h : readConfigPartForFS env MergeMeta fsys logPrefix partName true = some (r, e)) :
    r = (partFiles env fsys logPrefix partName).foldl mergeMetaMapSimple none := by
  unfold readConfigPartForFS at h
  split at h
  · simp at h
  · rename_i rtn errs heq
    split at h
    · simp at h
    · rename_i config errs1 heq1
      have hv := fileVal_eq env fsys logPrefix _ config errs1 heq1
      unfold readConfigFilesForDir at heq
      have hj : ("" : String) ++ ".json" = ".json" := by decide
      dsimp only at heq
      rw [hj] at heq
      have h1 := readConfigFilesForDir_loop_fold env MergeMeta fsys logPrefix partName _ none []
        rtn errs heq
      have hm : mergeMetaMap MergeMeta rtn config true = mergeMetaMapSimple rtn config := rfl
      simp only [Option.some.injEq, Prod.mk.injEq] at h
      rw [hm] at h
      rw [← h.1]
      unfold partFiles dirFiles
      rw [List.foldl_append, ← h1, hv]
      rfl

/-- C22 (amended): with simple merge and a decoder of Go maps.  The directory
files are merged in descending file name order (the sorted list is a
permutation of its input with non-increasing names).  `readConfigPartForFS`
returns the maps of `<section>/*.json`, in that order, and of
`<section>.json` merged one after the other; for every key its result has the
value of `<section>.json` when that file sets the key, else the value of the
last merged file of `<section>/*.json` that sets it (nil when none does); a
key that no file sets is not in the result; and when one file alone has
content the result is the map of that file, the keys it sets to null
included.  `readConfigPart` returns the user's merged config merged into the
merged defaults: for every key its result has the value of the user's merged
config when that config holds the key, be it with null (the default is then
removed), and the value of the merged defaults when it does not; so it has
every non-null value the user's files give a key, and the default for a key
that no user file sets. -/
theorem readConfigPart_layering (env : ReadEnv) (hdec : DecodesMaps env)
    (MergeMeta : Option MetaMapType → Option MetaMapType → Bool → Option MetaMapType)
    (defaultsFS homeFS : ConfigFS) (partName k : String) :
    (∀ files : List DirEntry,
        (SortFileNameDescend files).Perm files ∧ (SortFileNameDescend files).Sorted nameGE)
    ∧ (∀ (fsys : ConfigFS) (logPrefix : String), ∃ r e,
        readConfigPartForFS env MergeMeta fsys logPrefix partName true = some (r, e)
        ∧ r = (partFiles env fsys logPrefix partName).foldl mergeMetaMapSimple none
        ∧ valueOf r k =
            (if sets (fileVal env fsys logPrefix (partName ++ ".json")) k
            then valueOf (fileVal env fsys logPrefix (partName ++ ".json")) k
            else layered (dirFiles env fsys logPrefix partName) none k)
        ∧ ((∀ m ∈ partFiles env fsys logPrefix partName, sets m k = false) → sets r k = false)
        ∧ (∀ pre f post, partFiles env fsys logPrefix partName = pre ++ f :: post →
            (∀ m ∈ pre, m = none) → (∀ m ∈ post, m = none) → r = f))
    ∧ (∃ d e1 u e2 r e,
        readConfigPartForFS env MergeMeta defaultsFS "defaults:" partName true = some (d, e1)
        ∧ readConfigPartForFS env MergeMeta homeFS "" partName true = some (u, e2)
        ∧ readConfigPart env MergeMeta defaultsFS homeFS partName true = some (r, e)
        ∧ r = mergeMetaMapSimple d u
        ∧ valueOf r k = (if sets u k then valueOf u k else valueOf d k)
        ∧ (sets u k = true → valueOf u k = none → valueOf r k = none)
        ∧ (∀ v, layered (partFiles env homeFS "" partName) none k = some v →
            valueOf r k = some v)
        ∧ ((∀ m ∈ partFiles env homeFS "" partName, sets m k = false) →
            valueOf r k = layered (partFiles env defaultsFS "defaults:" partName) none k)) := by
  refine ⟨SortFileNameDescend_sorted, ?_, ?_⟩
  · intro fsys logPrefix
    obtain ⟨r, e, h⟩ := readConfigPartForFS_total env hdec MergeMeta fsys logPrefix partName true
    obtain ⟨h1, _, h3⟩ := readConfigPartForFS_run env hdec MergeMeta fsys logPrefix partName k
      r e h
    have hf := readConfigPartForFS_fold env MergeMeta fsys logPrefix partName r e h
    refine ⟨r, e, h, hf, ?_, ?_, ?_⟩
    · rw [h1]
      unfold partFiles
      rw [layered_append]
    · intro hn
      cases hsk : sets r k with
      | false => rfl
      | true =>
        obtain ⟨m, hm1, hm2⟩ := h3 hsk
        rw [hn m hm1] at hm2
        exact absurd hm2 (by decide)
    · intro pre f post hp hpre hpost
      rw [hf, hp, List.foldl_append, List.foldl_cons, foldl_merge_none pre none hpre]
      have : mergeMetaMapSimple none f = f := rfl
      rw [this]
      exact foldl_merge_none post f hpost
  · obtain ⟨d, e, hd⟩ := readConfigPartForFS_total env hdec MergeMeta defaultsFS "defaults:"
      partName true
    obtain ⟨u, e1, hu⟩ := readConfigPartForFS_total env hdec MergeMeta homeFS "" partName true
    obtain ⟨hd1, _, _⟩ := readConfigPartForFS_run env hdec MergeMeta defaultsFS "defaults:"
      partName k d e hd
    obtain ⟨hu1, hu2, hu3⟩ := readConfigPartForFS_run env hdec MergeMeta homeFS "" partName k
      u e1 hu
    have hm : mergeMetaMap MergeMeta d u true = mergeMetaMapSimple d u := rfl
    have hval := valueOf_merge d u hu2 k
    refine ⟨d, e, u, e1, mergeMetaMapSimple d u, e ++ e1, hd, hu, ?_, rfl, hval, ?_, ?_, ?_⟩
    · unfold readConfigPart
      rw [hd]
      simp only [hu, hm]
    · intro hs hn
      rw [hval, if_pos hs]
      exact hn
    · intro v hv
      have hv1 : valueOf u k = some v := by rw [hu1]; exact hv
      have hs : sets u k = true := by
        unfold valueOf at hv1
        unfold sets
        cases hl : lookup u k with
        | none => rw [hl] at hv1; simp at hv1
        | some _ => rfl
      rw [hval, if_pos hs]
      exact hv1
    · intro hn
      have hs : sets u k = false := by
        cases hsk : sets u k with
        | false => rfl
        | true =>
          obtain ⟨m, hm1, hm2⟩ := hu3 hsk
          rw [hn m hm1] at hm2
          exact absurd hm2 (by decide)
      rw [hval, hs]
      exact hd1

/-- C22 (witness): the bundled `widgets.json` holds `{"k":"1"}` and the user's
only file `widgets.json` holds `{"k":null}`: the user's merged config is that
file, with `k` set to null, and the result has no value for `k`. -/
theorem readConfigPart_layering_witness :
    DecodesMaps sample.decodeEnv
    ∧ ((∀ files : List DirEntry,
        (SortFileNameDescend files).Perm files ∧ (SortFileNameDescend files).Sorted nameGE)
    ∧ (∀ (fsys : ConfigFS) (logPrefix : String), ∃ r e,
        readConfigPartForFS sample.decodeEnv (fun m _ _ => m) fsys logPrefix "widgets" true
          = some (r, e)
        ∧ r = (partFiles sample.decodeEnv fsys logPrefix "widgets").foldl mergeMetaMapSimple none
        ∧ valueOf r "k" =
            (if sets (fileVal sample.decodeEnv fsys logPrefix ("widgets" ++ ".json")) "k"
            then valueOf (fileVal sample.decodeEnv fsys logPrefix ("widgets" ++ ".json")) "k"
            else layered (dirFiles sample.decodeEnv fsys logPrefix "widgets") none "k")
        ∧ ((∀ m ∈ partFiles sample.decodeEnv fsys logPrefix "widgets", sets m "k" = false) →
            sets r "k" = false)
        ∧ (∀ pre f post, partFiles sample.decodeEnv fsys logPrefix "widgets" = pre ++ f :: post →
            (∀ m ∈ pre, m = none) → (∀ m ∈ post, m = none) → r = f))
    ∧ (∃ d e1 u e2 r e,
        readConfigPartForFS sample.decodeEnv (fun m _ _ => m) sample.defaultsFS "defaults:"
          "widgets" true = some (d, e1)
        ∧ readConfigPartForFS sample.decodeEnv (fun m _ _ => m) sample.homeSingleFS ""
          "widgets" true = some (u, e2)
        ∧ readConfigPart sample.decodeEnv (fun m _ _ => m) sample.defaultsFS
          sample.homeSingleFS "widgets" true = some (r, e)
        ∧ r = mergeMetaMapSimple d u
        ∧ valueOf r "k" = (if sets u "k" then valueOf u "k" else valueOf d "k")
        ∧ (sets u "k" = true → valueOf u "k" = none → valueOf r "k" = none)
        ∧ (∀ v, layered (partFiles sample.decodeEnv sample.homeSingleFS "" "widgets") none "k"
            = some v → valueOf r "k" = some v)
        ∧ ((∀ m ∈ partFiles sample.decodeEnv sample.homeSingleFS "" "widgets",
              sets m "k" = false) →
            valueOf r "k"
              = layered (partFiles sample.decodeEnv sample.defaultsFS "defaults:" "widgets")
                  none "k")))
    ∧ readConfigPartForFS sample.decodeEnv (fun m _ _ => m) sample.defaultsFS "defaults:"
        "widgets" true = some (some [("k", some "1")], [])
    ∧ readConfigPartForFS sample.decodeEnv (fun m _ _ => m) sample.homeSingleFS ""
        "widgets" true = some (some [("k", none)], [])
    ∧ readConfigPart sample.decodeEnv (fun m _ _ => m) sample.defaultsFS sample.homeSingleFS
        "widgets" true = some (none, []) :=
  ⟨decodeEnv_DecodesMaps,
    readConfigPart_layering sample.decodeEnv decodeEnv_DecodesMaps (fun m _ _ => m)
      sample.defaultsFS sample.homeSingleFS "widgets" "k",
    by decide, by decide, by decide⟩

/-- C22 (counterexample): the user's `widgets.json` sets the key `k` (to null)
and the user's directory holds a second file, `widgets/a.json`; the null is
used up when the two are merged, and the bundled default "1" of `k` is what
`readConfigPart` returns. -/
theorem readConfigPart_layering_counterexample :
    sets (fileVal sample.decodeEnv sample.homeFS "" "widgets.json") "k" = true
    ∧ valueOf (fileVal sample.decodeEnv sample.homeFS "" "widgets.json") "k" = none
    ∧ valueOf (fileVal sample.decodeEnv sample.defaultsFS "defaults:" "widgets.json") "k"
        = some "1"
    ∧ readConfigPartForFS sample.decodeEnv (fun m _ _ => m) sample.homeFS "" "widgets" true
        = some (some [("x", some "1")], [])
    ∧ (readConfigPart sample.decodeEnv (fun m _ _ => m) sample.defaultsFS sample.homeFS
        "widgets" true).map (fun p => valueOf p.1 "k") = some (some "1") := by
  refine ⟨by decide, by decide, by decide, by decide, by decide⟩

end sconfig

/-! ## Portable layouts (C26) -/

namespace wstore

open starobj

/-- In a context whose transaction, if any, has not failed, `DBGetORef` returns
the row of the reference and leaves the database as it is. -/
theorem DBGetORef_any (inTx : Bool) (st : State) (oref : ORef)
    (htx : inTx = false ∨ st.txErr = none) :
    (DBGetORef inTx st oref).1 =
        ((st.db.get oref.OType oref.OID).map (fun row => SetVersion row.data row.version), none)
      ∧ (DBGetORef inTx st oref).2.db = st.db
      ∧ (DBGetORef inTx st oref).2.txErr = none := by
  unfold DBGetORef
  have hg : txGet st.enterTx oref.OType oref.OID = st.db.get oref.OType oref.OID := rfl
  cases hrow : st.db.get oref.OType oref.OID with
  | none =>
    rw [WithTxRtn_ok inTx st none _ htx (by simp only [hg, hrow]) (by simp only [hg, hrow]; rfl)]
    simp only [hg, hrow]
    refine ⟨?_, ?_, ?_⟩ <;> first | rfl | trivial
  | some row =>
    rw [WithTxRtn_ok inTx st none _ htx (by simp only [hg, hrow]) (by simp only [hg, hrow]; rfl)]
    simp only [hg, hrow]
    refine ⟨?_, ?_, ?_⟩ <;> first | rfl | trivial

theorem DBGet_Tab_any (inTx : Bool) (st : State) (id : String)
    (htx : inTx = false ∨ st.txErr = none) :
    (DBGet_Tab inTx st id).1 =
        (match st.db.get OType_Tab id with
          | some row =>
            match row.data with
            | .Tab t => some { t with Version := row.version }
            | _ => none
          | none => none, none)
      ∧ (DBGet_Tab inTx st id).2.db = st.db
      ∧ (DBGet_Tab inTx st id).2.txErr = none := by
  obtain ⟨h1, h2, h3⟩ := DBGetORef_any inTx st { OType := OType_Tab, OID := id } htx
  have h11 := congrArg Prod.fst h1
  have h12 := congrArg Prod.snd h1
  simp only at h11 h12
  unfold DBGet_Tab
  simp only [h12]
  cases hg : st.db.get OType_Tab id with
  | none =>
    rw [hg] at h11
    simp only [Option.map_none'] at h11
    rw [h11]
    refine ⟨?_, ?_, ?_⟩ <;> first | rfl | trivial
  | some row =>
    obtain ⟨t, ht⟩ := tab_of_otype row.data (get_some_inTable _ _ _ _ hg).1
    rw [hg] at h11
    simp only [Option.map_some', ht, SetVersion] at h11
    rw [h11]
    simp only [ht]
    refine ⟨?_, ?_, ?_⟩ <;> first | rfl | trivial

theorem DBGet_Tab_ok_inv (inTx : Bool) (st : State) (id : String)
    (hok : (DBGet_Tab inTx st id).1.2 = none) : inTx = false ∨ st.txErr = none := by
  apply WithTxRtn_ok_inv inTx st none (fun s =>
    match txGet s OType_Tab id with
    | none => ((none, none), s)
    | some row => ((some (SetVersion row.data row.version), none), s))
  unfold DBGet_Tab at hok
  dsimp only at hok
  split at hok
  · rename_i err herr
    simp at hok
  · rename_i herr
    exact herr

theorem layout_of_otype (val : StarObj) (h : GetOType val = OType_LayoutState) :
    ∃ l, val = .LayoutState l := by
  cases val with
  | Tab t => simp [GetOType, OType_Tab, OType_LayoutState] at h
  | Block b => simp [GetOType, OType_Block, OType_LayoutState] at h
  | LayoutState l => exact ⟨l, rfl⟩

theorem DBGet_LayoutState_any (inTx : Bool) (st : State) (id : String)
    (htx : inTx = false ∨ st.txErr = none) :
    (DBGet_LayoutState inTx st id).1 =
        (match st.db.get OType_LayoutState id with
          | some row =>
            match row.data with
            | .LayoutState l => some { l with Version := row.version }
            | _ => none
          | none => none, none)
      ∧ (DBGet_LayoutState inTx st id).2.db = st.db
      ∧ (DBGet_LayoutState inTx st id).2.txErr = none := by
  obtain ⟨h1, h2, h3⟩ := DBGetORef_any inTx st { OType := OType_LayoutState, OID := id } htx
  have h11 := congrArg Prod.fst h1
  have h12 := congrArg Prod.snd h1
  simp only at h11 h12
  unfold DBGet_LayoutState
  simp only [h12]
  cases hg : st.db.get OType_LayoutState id with
  | none =>
    rw [hg] at h11
    simp only [Option.map_none'] at h11
    rw [h11]
    refine ⟨?_, ?_, ?_⟩ <;> first | rfl | trivial
  | some row =>
    obtain ⟨l, hl⟩ := layout_of_otype row.data (get_some_inTable _ _ _ _ hg).1
    rw [hg] at h11
    simp only [Option.map_some', hl, SetVersion] at h11
    rw [h11]
    simp only [hl]
    refine ⟨?_, ?_, ?_⟩ <;> first | rfl | trivial

end wstore

namespace score

open starobj wstore

/-- A call of `createBlockObj` that returns no error: the tab has a row, the
new id was free, and the store holds the new block and the extended tab. -/
theorem createBlockObj_ok_inv (inTx : Bool) (st : State) (tabId : String) (blockDef : BlockDef)
    (rtOpts : Option RuntimeOpts) (blockId : String) (htid : tabId ≠ "") (hbid : blockId ≠ "")
    (hok : (createBlockObj inTx st tabId blockDef rtOpts blockId).1.2 = none) :
    ∃ row t, st.db.get OType_Tab tabId = some row ∧ row.data = .Tab t
      ∧ st.db.get OType_Block blockId = none
      ∧ (createBlockObj inTx st tabId blockDef rtOpts blockId).1.1 =
          some { createBlockObj_blockData tabId blockDef rtOpts blockId with Version := 1 }
      ∧ (createBlockObj inTx st tabId blockDef rtOpts blockId).2.txErr = none
      ∧ (createBlockObj inTx st tabId blockDef rtOpts blockId).2.db =
          DB.update
            (st.db ++ [{ version := 1,
                         data := .Block (createBlockObj_blockData tabId blockDef rtOpts blockId) }])
            OType_Tab tabId
            (.Tab { t with Version := row.version, BlockIds := t.BlockIds ++ [blockId] }) := by
  have htx := WithTxRtn_ok_inv _ _ _ _ hok
  cases hget : st.db.get OType_Tab tabId with
  | none =>
    exfalso
    have hrun := DBGet_Tab_run st.enterTx tabId rfl
    have hget1 : st.enterTx.db.get OType_Tab tabId = none := hget
    rw [hget1] at hrun
    have hfn : createBlockObj_fn tabId blockDef rtOpts blockId st.enterTx =
        ((none, some (.errorf "tab not found: %q" [tabId])), st.enterTx) := by
      simp only [createBlockObj_fn, hrun]
    have := WithTxRtn_err_val inTx st none (createBlockObj_fn tabId blockDef rtOpts blockId)
      (.errorf "tab not found: %q" [tabId]) htx (by rw [hfn]) (by rw [hfn]; rfl)
    unfold createBlockObj at hok
    rw [this] at hok
    simp at hok
  | some row =>
    obtain ⟨t, hrow⟩ := tab_of_otype row.data (get_some_inTable _ _ _ _ hget).1
    cases hfresh : st.db.get OType_Block blockId with
    | some brow =>
      exfalso
      have := createBlockObj_fn_dup st.enterTx tabId blockId blockDef rtOpts row brow t rfl hget
        hrow htid hbid hfresh
      exact WithTxRtn_txErr inTx st none _ htx this hok
    | none =>
      obtain ⟨h1, h2, h3⟩ := createBlockObj_fn_run st.enterTx tabId blockId blockDef rtOpts row t
        rfl hget hrow htid hbid hfresh
      have hrun := WithTxRtn_ok inTx st none (createBlockObj_fn tabId blockDef rtOpts blockId)
        htx (by rw [h1]) h2
      refine ⟨row, t, rfl, hrow, rfl, ?_, ?_, ?_⟩
      · simp only [createBlockObj, hrun, h1]
      · simp only [createBlockObj, hrun]
      · simp only [createBlockObj, hrun, h3]
        rfl

/-- A call of `CreateBlock` that returns a block: the definition is given, the
block is the one stored, and the store is the one `createBlockObj` leaves. -/
theorem CreateBlock_ok_inv (fs : FileStore) (inTx : Bool) (st : State) (tabId : String)
    (blockDef : Option BlockDef) (rtOpts : Option RuntimeOpts) (blockId : String)
    (htid : tabId ≠ "") (hbid : blockId ≠ "") (b : Block)
    (hret : (CreateBlock fs inTx st tabId blockDef rtOpts blockId).1 = (some b, none)) :
    ∃ bd row t, blockDef = some bd ∧ st.db.get OType_Tab tabId = some row ∧ row.data = .Tab t
      ∧ st.db.get OType_Block blockId = none
      ∧ b = { createBlockObj_blockData tabId bd rtOpts blockId with Version := 1 }
      ∧ (CreateBlock fs inTx st tabId blockDef rtOpts blockId).2.txErr = none
      ∧ (CreateBlock fs inTx st tabId blockDef rtOpts blockId).2.db =
          DB.update
            (st.db ++ [{ version := 1,
                         data := .Block (createBlockObj_blockData tabId bd rtOpts blockId) }])
            OType_Tab tabId
            (.Tab { t with Version := row.version, BlockIds := t.BlockIds ++ [blockId] }) := by
  cases blockDef with
  | none => simp [CreateBlock] at hret
  | some bd =>
    unfold CreateBlock at hret ⊢
    simp only at hret ⊢
    by_cases hv : bd.Meta.GetString MetaKey_View "" = ""
    · rw [if_pos hv] at hret
      simp at hret
    · rw [if_neg hv] at hret ⊢
      cases he : (createBlockObj inTx st tabId bd rtOpts blockId).1.2 with
      | some err =>
        simp only [he] at hret
        simp at hret
      | none =>
        obtain ⟨row, t, h1, h2, h3, h4, h5, h6⟩ :=
          createBlockObj_ok_inv inTx st tabId bd rtOpts blockId htid hbid he
        simp only [he, h4] at hret ⊢
        cases hf : CreateBlock_files fs
            ({ createBlockObj_blockData tabId bd rtOpts blockId with Version := 1 } : Block).OID
            bd.Files with
        | some err =>
          simp only [hf] at hret
          split at hret <;> simp at hret
        | none =>
          simp only [hf] at hret ⊢
          simp only [Prod.mk.injEq, Option.some.injEq, and_true] at hret
          exact ⟨bd, row, t, rfl, h1, h2, h3, hret.symm, h5, h6⟩

end score

namespace score

open starobj wstore

/-- The rows of the store that `createBlockObj` leaves: the tab, the new block,
the blocks that were there, and the rows of the other tables. -/
theorem created_db_get (db : DB) (tabId blockId : String) (row : Row) (t t1 : Tab) (blk : Block)
    (hget : db.get OType_Tab tabId = some row) (hrow : row.data = .Tab t)
    (hfresh : db.get OType_Block blockId = none) (hblk : blk.OID = blockId)
    (ht1 : t1.OID = t.OID) :
    (DB.update (db ++ [{ version := 1, data := .Block blk }]) OType_Tab tabId (.Tab t1)).get
        OType_Tab tabId = some { version := row.version + 1, data := .Tab t1 }
    ∧ (DB.update (db ++ [{ version := 1, data := .Block blk }]) OType_Tab tabId (.Tab t1)).get
        OType_Block blockId = some { version := 1, data := .Block blk }
    ∧ (∀ id r, db.get OType_Block id = some r →
        (DB.update (db ++ [{ version := 1, data := .Block blk }]) OType_Tab tabId (.Tab t1)).get
          OType_Block id = some r)
    ∧ (∀ otype oid, otype ≠ OType_Tab → otype ≠ OType_Block →
        (DB.update (db ++ [{ version := 1, data := .Block blk }]) OType_Tab tabId (.Tab t1)).get
          otype oid = db.get otype oid) := by
  have hOID : t.OID = tabId := by
    have := (get_some_inTable _ _ _ _ hget).2.1
    simpa [hrow, GetOID] using this
  subst hOID
  have hu := get_update_same (db ++ [{ version := 1, data := .Block blk }]) (.Tab t1)
  simp only [GetOType, GetOID, ht1] at hu
  have ho : ∀ otype oid, otype ≠ OType_Tab →
      (DB.update (db ++ [{ version := 1, data := .Block blk }]) OType_Tab t.OID (.Tab t1)).get
        otype oid = DB.get (db ++ [({ version := 1, data := .Block blk } : Row)]) otype oid := by
    intro otype oid hne
    have := get_update_other (db ++ [{ version := 1, data := .Block blk }]) (.Tab t1) otype oid
      (by simp only [GetOType]; exact fun h => hne h.1)
    simp only [GetOType, GetOID, ht1] at this
    exact this
  refine ⟨?_, ?_, ?_, ?_⟩
  · rw [hu, get_append_old _ _ _ _ _ hget]
    rfl
  · rw [ho _ _ (by decide)]
    exact get_append_new db _ _ { version := 1, data := .Block blk } hfresh
      (by simp [Row.inTable, GetOType, GetOID, hblk])
  · intro id r hr
    rw [ho _ _ (by decide)]
    exact get_append_old _ _ _ _ _ hr
  · intro otype oid h1 h2
    rw [ho _ _ h1]
    exact get_append_other _ _ _ _ (by
      simp only [Row.inTable, GetOType, Bool.and_eq_false_imp, beq_iff_eq]
      intro h
      exact absurd h.symm h2)

end score

/-! ## Portable layouts (C26) -/

namespace wcore

open starobj wstore

/-- A call of `QueueLayoutAction` that returns no error: the layout state has a
row, and afterwards the row holds the actions that were pending followed by
the new ones; the rows of the other tables are as before. -/
theorem QueueLayoutAction_ok_inv (inTx : Bool) (st : State) (layoutStateId : String)
    (actions : List LayoutActionData) (st2 : State)
    (htx : inTx = false ∨ st.txErr = none)
    (h : QueueLayoutAction inTx st layoutStateId actions = some (none, st2)) :
    ∃ lrow l, st.db.get OType_LayoutState layoutStateId = some lrow
      ∧ lrow.data = .LayoutState l
      ∧ st2.db.get OType_LayoutState layoutStateId =
          some { version := lrow.version + 1,
                 data := .LayoutState
                   { l with
                     Version := lrow.version
                     PendingBackendActions := some (match l.PendingBackendActions with
                       | none => actions
                       | some old => old ++ actions) } }
      ∧ (∀ otype oid, otype ≠ OType_LayoutState → st2.db.get otype oid = st.db.get otype oid) := by
  obtain ⟨h1, h2, h3⟩ := DBGet_LayoutState_any inTx st layoutStateId htx
  have h11 := congrArg Prod.fst h1
  have h12 := congrArg Prod.snd h1
  simp only at h11 h12
  unfold QueueLayoutAction at h
  simp only [h12] at h
  cases hg : st.db.get OType_LayoutState layoutStateId with
  | none =>
    rw [hg] at h11
    simp only at h11
    simp [h11] at h
  | some lrow =>
    obtain ⟨l, hl⟩ := layout_of_otype lrow.data (get_some_inTable _ _ _ _ hg).1
    have hOID : l.OID = layoutStateId := by
      have := (get_some_inTable _ _ _ _ hg).2.1
      simpa [hl, GetOID] using this
    subst hOID
    rw [hg] at h11
    simp only [hl] at h11
    simp only [h11] at h
    generalize hval : ({ ({ l with Version := lrow.version } : LayoutState) with
        PendingBackendActions := some (match
          ({ l with Version := lrow.version } : LayoutState).PendingBackendActions with
          | none => actions
          | some old => old ++ actions) } : LayoutState) = val at h
    have hvoid : val.OID = l.OID := by rw [← hval]
    by_cases hempty : l.OID = ""
    · have hu : (DBUpdate inTx (DBGet_LayoutState inTx st l.OID).2
          (.LayoutState val)).1.2 ≠ none := by
        simp [DBUpdate, GetOID, hvoid, hempty]
      cases hu1 : (DBUpdate inTx (DBGet_LayoutState inTx st l.OID).2
          (.LayoutState val)).1.2 with
      | none => exact absurd hu1 hu
      | some err => simp [hu1] at h
    · have hrun := DBUpdate_run inTx (DBGet_LayoutState inTx st l.OID).2
        (.LayoutState val) (by simpa [GetOID, hvoid] using hempty) (Or.inr h3)
      rw [hrun] at h
      simp only [Option.some.injEq, Prod.mk.injEq, true_and] at h
      refine ⟨lrow, l, rfl, hl, ?_, ?_⟩
      · rw [← h]
        simp only [h2]
        have := get_update_same st.db (.LayoutState val)
        simp only [GetOType, GetOID, hvoid] at this ⊢
        rw [this, hg, ← hval]
        rfl
      · intro otype oid hne
        rw [← h]
        simp only [h2]
        exact get_update_other st.db (.LayoutState val) otype oid
          (by simp only [GetOType]; exact fun hc => hne hc.1)

/-- A call of `QueueLayoutActionForTab` that returns no error: the tab and its
layout state have rows, and the actions are appended to the pending ones. -/
theorem QueueLayoutActionForTab_ok_inv (inTx : Bool) (st : State) (tabId : String)
    (actions : List LayoutActionData) (st2 : State)
    (h : QueueLayoutActionForTab inTx st tabId actions = some (none, st2)) :
    ∃ row t lrow l, st.db.get OType_Tab tabId = some row ∧ row.data = .Tab t
      ∧ st.db.get OType_LayoutState t.LayoutState = some lrow
      ∧ lrow.data = .LayoutState l
      ∧ st2.db.get OType_LayoutState t.LayoutState =
          some { version := lrow.version + 1,
                 data := .LayoutState
                   { l with
                     Version := lrow.version
                     PendingBackendActions := some (match l.PendingBackendActions with
                       | none => actions
                       | some old => old ++ actions) } }
      ∧ (∀ otype oid, otype ≠ OType_LayoutState → st2.db.get otype oid = st.db.get otype oid) := by
  unfold QueueLayoutActionForTab GetLayoutIdForTab at h
  dsimp only at h
  cases he : (DBGet_Tab inTx st tabId).1.2 with
  | some err => simp [he] at h
  | none =>
    have htx := DBGet_Tab_ok_inv inTx st tabId he
    obtain ⟨h1, h2, h3⟩ := DBGet_Tab_any inTx st tabId htx
    have h11 := congrArg Prod.fst h1
    simp only at h11
    simp only [he] at h
    cases hg : st.db.get OType_Tab tabId with
    | none =>
      rw [hg] at h11
      simp only at h11
      simp [h11] at h
    | some row =>
      obtain ⟨t, ht⟩ := tab_of_otype row.data (get_some_inTable _ _ _ _ hg).1
      rw [hg] at h11
      simp only [ht] at h11
      simp only [h11] at h
      obtain ⟨lrow, l, k1, k2, k3, k4⟩ := QueueLayoutAction_ok_inv inTx
        (DBGet_Tab inTx st tabId).2 t.LayoutState actions st2 (Or.inr h3) h
      rw [h2] at k1
      refine ⟨row, t, lrow, l, rfl, ht, k1, k2, k3, ?_⟩
      intro otype oid hne
      rw [k4 otype oid hne, h2]

end wcore

namespace wcore

open starobj wstore

/-- The loop of `ApplyPortableLayout`, when no `CreateBlock` fails: the ids of
the blocks created, the actions, and the rows of the store. -/
theorem ApplyPortableLayout_loop_spec (CreateBlock : CreateBlockFn)
    (hcb : CreateBlockSpec CreateBlock) (inTx : Bool) (tabId : String) (htid : tabId ≠ "") :
    ∀ (layout : PortableLayout) (st : State) (actions acts : List LayoutActionData)
      (st1 : State),
      ApplyPortableLayout_loop CreateBlock inTx tabId layout st actions
        = some ((none, acts), st1) →
      ∃ ids : List String, ids.length = layout.length
        ∧ acts = actions ++ List.zipWith (fun e id =>
            ({ ActionType := "insertatindex", BlockId := id, IndexArr := some e.IndexArr,
               NodeSize := e.Size, Focused := e.Focused } : LayoutActionData)) layout ids
        ∧ (∀ id ∈ ids, st.db.get OType_Block id = none)
        ∧ ids.Nodup
        ∧ (∀ row t, st.db.get OType_Tab tabId = some row → row.data = .Tab t →
            ∃ row1 t1, st1.db.get OType_Tab tabId = some row1 ∧ row1.data = .Tab t1
              ∧ t1.BlockIds = t.BlockIds ++ ids ∧ t1.LayoutState = t.LayoutState)
        ∧ (∀ p ∈ List.zip layout ids, ∃ bd b,
            p.1.BlockDef = some bd
              ∧ st1.db.get OType_Block p.2 = some { version := 1, data := .Block b }
              ∧ b.OID = p.2 ∧ b.ParentORef = "tab:" ++ tabId ∧ b.Meta = bd.Meta)
        ∧ (∀ id r, st.db.get OType_Block id = some r → st1.db.get OType_Block id = some r)
        ∧ (∀ otype oid, otype ≠ OType_Tab → otype ≠ OType_Block →
            st1.db.get otype oid = st.db.get otype oid)
        ∧ ((st1.db.get OType_Tab tabId).isSome = true →
            (st.db.get OType_Tab tabId).isSome = true) := by
  intro layout
  induction layout with
  | nil =>
    intro st actions acts st1 h
    simp only [ApplyPortableLayout_loop, Option.some.injEq, Prod.mk.injEq, true_and] at h
    obtain ⟨h1, h2⟩ := h
    subst h1 h2
    refine ⟨[], rfl, by simp, by simp, by simp, ?_, by simp, fun _ _ h => h,
      fun _ _ _ _ => rfl, fun h => h⟩
    intro row t hg hr
    exact ⟨row, t, hg, hr, by simp, rfl⟩
  | cons e rest ih =>
    intro st actions acts st1 h
    simp only [ApplyPortableLayout_loop] at h
    cases he : (CreateBlock inTx st tabId e.BlockDef
        (some { TermRows := 0, TermCols := 0 })).1.2 with
    | some err => simp [he] at h
    | none =>
      cases hb : (CreateBlock inTx st tabId e.BlockDef
          (some { TermRows := 0, TermCols := 0 })).1.1 with
      | none => simp [he, hb] at h
      | some b =>
        simp only [he, hb] at h
        obtain ⟨bd, row, t, row1, t1, blk, hbd, hget, hrow, hfresh, g1, g1r, g1b, g1l, g2,
            hk1, hk2, hk3, g3, g4⟩ :=
          hcb inTx st tabId e.BlockDef (some { TermRows := 0, TermCols := 0 }) b
            (CreateBlock inTx st tabId e.BlockDef (some { TermRows := 0, TermCols := 0 })).2
            htid (Prod.ext (Prod.ext hb he) rfl)
        obtain ⟨ids, i0, i1, i2, i3, i4, i5, i6, i7, _⟩ := ih _ _ acts st1 h
        have hnotin : b.OID ∉ ids := by
          intro hin
          have := i2 _ hin
          rw [g2] at this
          simp at this
        refine ⟨b.OID :: ids, by simp [i0], ?_, ?_, List.nodup_cons.mpr ⟨hnotin, i3⟩,
          ?_, ?_, ?_, ?_, ?_⟩
        · rw [i1]
          simp [LayoutActionDataType_InsertAtIndex]
        · intro id hid
          rcases List.mem_cons.mp hid with hid | hid
          · rw [hid]; exact hfresh
          · cases hg : st.db.get OType_Block id with
            | none => rfl
            | some r =>
              have := i2 _ hid
              rw [g3 id r hg] at this
              simp at this
        · intro row0 t0 hg0 hr0
          rw [hget] at hg0
          simp only [Option.some.injEq] at hg0
          subst hg0
          rw [hrow] at hr0
          simp only [StarObj.Tab.injEq] at hr0
          subst hr0
          obtain ⟨row2, t2, k1, k2, k3, k4⟩ := i4 _ _ g1 g1r
          refine ⟨row2, t2, k1, k2, ?_, by rw [k4, g1l]⟩
          rw [k3, g1b]
          simp
        · intro p hp
          simp only [List.zip_cons_cons, List.mem_cons] at hp
          rcases hp with hp | hp
          · subst hp
            exact ⟨bd, blk, hbd, i6 _ _ g2, hk1, hk2, hk3⟩
          · exact i5 p hp
        · intro id r hr
          exact i6 _ _ (g3 id r hr)
        · intro otype oid h1 h2
          rw [i7 otype oid h1 h2, g4 otype oid h1 h2]
        · intro _
          rw [hget]; rfl

end wcore

namespace wcore

open starobj wstore

theorem sample_uuids_ne (i : Nat) : sample.uuids i ≠ "" := by
  unfold sample.uuids
  split_ifs <;> decide

/-- The `CreateBlock` of `pkg/score/block.go`, with ids that are not empty,
does what `CreateBlockSpec` says. -/
theorem sample_createBlock_spec : CreateBlockSpec sample.createBlock := by
  intro inTx st tabId blockDef rtOpts b st1 htid h
  unfold sample.createBlock at h
  have hret : (score.CreateBlock sample.fileStore inTx st tabId blockDef rtOpts
      (sample.uuids st.db.length)).1 = (some b, none) := by rw [h]
  have hst1 : (score.CreateBlock sample.fileStore inTx st tabId blockDef rtOpts
      (sample.uuids st.db.length)).2 = st1 := by rw [h]
  obtain ⟨bd, row, t, hbd, hget, hrow, hfresh, hbeq, _, hdb⟩ :=
    score.CreateBlock_ok_inv sample.fileStore inTx st tabId blockDef rtOpts
      (sample.uuids st.db.length) htid (sample_uuids_ne _) b hret
  have hboid : b.OID = sample.uuids st.db.length := by rw [hbeq]; rfl
  obtain ⟨g1, g2, g3, g4⟩ := score.created_db_get st.db tabId (sample.uuids st.db.length) row t
    { t with Version := row.version, BlockIds := t.BlockIds ++ [sample.uuids st.db.length] }
    (score.createBlockObj_blockData tabId bd rtOpts (sample.uuids st.db.length))
    hget hrow hfresh rfl rfl
  rw [← hdb, hst1] at g1 g2 g3 g4
  rw [hboid]
  refine ⟨bd, row, t, _, _, _, hbd, hget, hrow, hfresh, g1, rfl, rfl, rfl, g2, rfl, ?_, rfl,
    g3, g4⟩
  simp only [score.createBlockObj_blockData]
  rw [MakeORef_String _ _ (by decide) htid]
  rfl

/-- C26: a call of `ApplyPortableLayout` for a tab id that is not empty that
returns no error, `CreateBlock` doing what the spec says of it.  The tab and
its layout state had rows; the blocks created are as many as the layout has
entries, their ids pairwise different and new; afterwards the tab lists the
blocks it listed followed by the new ids in order; every new id has a row of
version 1 with a block of that id whose parent is the tab and whose meta is
that of the block definition of its entry; and the layout state holds the
actions that were pending followed by one action of type `clear` and, for
every entry in order, one action of type `insertatindex` with the id of the
entry's block, the entry's index path, size and focus flag and nothing else
set: one action more than the layout has entries.  The starter layout has the
views term, sysinfo, web, preview, tips, help and starai. -/
theorem ApplyPortableLayout_spec (CreateBlock : CreateBlockFn)
    (hcb : CreateBlockSpec CreateBlock) (inTx : Bool) (st : State) (tabId : String)
    (layout : PortableLayout) (htid : tabId ≠ "")
    (h : (ApplyPortableLayout CreateBlock inTx st tabId layout).map Prod.fst = some none) :
    (∃ st1 row t lrow l ids,
      ApplyPortableLayout CreateBlock inTx st tabId layout = some (none, st1)
      ∧ st.db.get OType_Tab tabId = some row ∧ row.data = .Tab t
      ∧ st.db.get OType_LayoutState t.LayoutState = some lrow ∧ lrow.data = .LayoutState l
      ∧ ids.length = layout.length
      ∧ ids.Nodup
      ∧ (∀ id ∈ ids, st.db.get OType_Block id = none)
      ∧ st1.db.tabBlockIds tabId = some (t.BlockIds ++ ids)
      ∧ (∀ p ∈ List.zip layout ids, ∃ bd b,
          p.1.BlockDef = some bd
            ∧ st1.db.get OType_Block p.2 = some { version := 1, data := .Block b }
            ∧ b.OID = p.2 ∧ b.ParentORef = "tab:" ++ tabId ∧ b.Meta = bd.Meta)
      ∧ (∃ lrow1 l1, st1.db.get OType_LayoutState t.LayoutState = some lrow1
          ∧ lrow1.data = .LayoutState l1
          ∧ l1.PendingBackendActions = some (l.PendingBackendActions.getD [] ++
              ({ ActionType := "clear", BlockId := "", TargetBlockId := "", Position := "",
                 IndexArr := none, NodeSize := none, Focused := false, Magnified := false,
                 Ephemeral := false } ::
                List.zipWith (fun e id =>
                  ({ ActionType := "insertatindex", BlockId := id, TargetBlockId := "",
                     Position := "", IndexArr := some e.IndexArr, NodeSize := e.Size,
                     Focused := e.Focused, Magnified := false, Ephemeral := false }
                    : LayoutActionData)) layout ids))
          ∧ (l1.PendingBackendActions.getD []).length
              = (l.PendingBackendActions.getD []).length + (layout.length + 1)))
    ∧ GetStarterLayout.map (fun e => e.BlockDef.map (fun bd => bd.Meta.GetString MetaKey_View ""))
        = [some "term", some "sysinfo", some "web", some "preview", some "tips", some "help",
            some "starai"] := by
  refine ⟨?_, by decide⟩
  unfold ApplyPortableLayout at h ⊢
  cases hloop : ApplyPortableLayout_loop CreateBlock inTx tabId layout st
      [{ ActionType := LayoutActionDataType_ClearTree }] with
  | none => simp [hloop] at h
  | some r =>
    obtain ⟨⟨err, acts⟩, sl⟩ := r
    cases err with
    | some e => simp [hloop] at h
    | none =>
      simp only [hloop] at h ⊢
      cases hq : QueueLayoutActionForTab inTx sl tabId acts with
      | none => simp [hq] at h
      | some q =>
        obtain ⟨qe, st2⟩ := q
        cases qe with
        | some e => simp [hq] at h
        | none =>
          simp only [hq]
          obtain ⟨rowl, tl, lrow, l, q1, q2, q3, q4, q5, q6⟩ :=
            QueueLayoutActionForTab_ok_inv inTx sl tabId acts st2 hq
          obtain ⟨ids, i0, i1, i2, i3, i4, i5, i6, i7, i8⟩ := ApplyPortableLayout_loop_spec
            CreateBlock hcb inTx tabId htid layout st _ acts sl hloop
          have htab := i8 (by rw [q1]; rfl)
          cases hg : st.db.get OType_Tab tabId with
          | none => rw [hg] at htab; simp at htab
          | some row =>
            obtain ⟨t, ht⟩ := tab_of_otype row.data (get_some_inTable _ _ _ _ hg).1
            obtain ⟨row1, t1, k1, k2, k3, k4⟩ := i4 row t hg ht
            rw [q1] at k1
            simp only [Option.some.injEq] at k1
            subst k1
            rw [q2] at k2
            simp only [StarObj.Tab.injEq] at k2
            subst k2
            rw [k4] at q3 q5
            rw [i7 _ _ (by decide) (by decide)] at q3
            refine ⟨st2, row, t, lrow, l, ids, rfl, rfl, ht, q3, q4, i0, i3, i2, ?_, ?_, ?_⟩
            · simp only [DB.tabBlockIds]
              rw [q6 _ _ (by decide), q1]
              simp only [q2, k3]
            · intro p hp
              obtain ⟨bd, b, j1, j2, j3, j4, j5⟩ := i5 p hp
              exact ⟨bd, b, j1, by rw [q6 _ _ (by decide)]; exact j2, j3, j4, j5⟩
            · refine ⟨_, _, q5, rfl, ?_, ?_⟩
              · rw [i1]
                cases l.PendingBackendActions <;> simp [LayoutActionDataType_ClearTree]
              · rw [i1]
                cases l.PendingBackendActions <;> simp [i0, List.length_zipWith]

/-- C26 (witness): the starter layout is applied to the sample tab, which lists
one block and whose layout state has one action pending, with the
`CreateBlock` of `pkg/score/block.go`.  The tab then lists eight blocks and
the layout state holds nine actions. -/
theorem ApplyPortableLayout_spec_witness :
    CreateBlockSpec sample.createBlock ∧ sample.tabId ≠ ""
    ∧ (ApplyPortableLayout sample.createBlock false sample.layoutStore sample.tabId
        GetStarterLayout).map Prod.fst = some none
    ∧ (∃ st1 row t ids, ApplyPortableLayout sample.createBlock false sample.layoutStore
          sample.tabId GetStarterLayout = some (none, st1)
        ∧ sample.layoutStore.db.get OType_Tab sample.tabId = some row ∧ row.data = .Tab t
        ∧ ids.length = GetStarterLayout.length
        ∧ st1.db.tabBlockIds sample.tabId = some (t.BlockIds ++ ids))
    ∧ (ApplyPortableLayout sample.createBlock false sample.layoutStore sample.tabId
        GetStarterLayout).map (fun r => r.2.db.tabBlockIds sample.tabId)
        = some (some ["22222222-2222-2222-2222-222222222222",
            "aaaaaaaa-0000-4000-8000-000000000000", "aaaaaaaa-0000-4000-8000-000000000001",
            "aaaaaaaa-0000-4000-8000-000000000002", "aaaaaaaa-0000-4000-8000-000000000003",
            "aaaaaaaa-0000-4000-8000-000000000004", "aaaaaaaa-0000-4000-8000-000000000005",
            "aaaaaaaa-0000-4000-8000-000000000006"])
    ∧ (ApplyPortableLayout sample.createBlock false sample.layoutStore sample.tabId
        GetStarterLayout).map (fun r =>
          (r.2.db.get OType_LayoutState sample.layoutId).map (fun row => row.data))
        = some (some (.LayoutState
            { OID := "55555555-5555-5555-5555-555555555555", Version := 3, Meta := [],
              PendingBackendActions := some
                [{ ActionType := "insert", BlockId := "22222222-2222-2222-2222-222222222222" },
                 { ActionType := "clear" },
                 { ActionType := "insertatindex", IndexArr := some [0], Focused := true,
                   BlockId := "aaaaaaaa-0000-4000-8000-000000000000" },
                 { ActionType := "insertatindex", IndexArr := some [1],
                   BlockId := "aaaaaaaa-0000-4000-8000-000000000001" },
                 { ActionType := "insertatindex", IndexArr := some [1, 1],
                   BlockId := "aaaaaaaa-0000-4000-8000-000000000002" },
                 { ActionType := "insertatindex", IndexArr := some [1, 2],
                   BlockId := "aaaaaaaa-0000-4000-8000-000000000003" },
                 { ActionType := "insertatindex", IndexArr := some [2],
                   BlockId := "aaaaaaaa-0000-4000-8000-000000000004" },
                 { ActionType := "insertatindex", IndexArr := some [2, 1],
                   BlockId := "aaaaaaaa-0000-4000-8000-000000000005" },
                 { ActionType := "insertatindex", IndexArr := some [2, 2],
                   BlockId := "aaaaaaaa-0000-4000-8000-000000000006" }] })) :=
  ⟨sample_createBlock_spec, by decide, by decide,
    let ⟨⟨st1, row, t, _, _, ids, h, hg, hr, _, _, hl, _, _, htb, _⟩, _⟩ :=
      ApplyPortableLayout_spec sample.createBlock sample_createBlock_spec false
        sample.layoutStore sample.tabId GetStarterLayout (by decide) (by decide)
    ⟨st1, row, t, ids, h, hg, hr, hl, htb⟩,
    by decide, by decide⟩

end wcore
